import Mathlib

/-!
Clinic backend: appointments and vitals.

A shallow embedding of the request handlers of
`controllers/appointmentController.js` and
`controllers/medicalRecordController.js`.

Conventions of the embedding.

* A collection is the list of its documents in insertion order and the `_id`
  of a document is its position in that list.  Appointment and user documents
  are never deleted by a handler; a deleted medical record leaves `none` at its
  position.  `findById id` is therefore `docs[id]?`, and a freshly saved
  document receives the id `docs.length`.
* A request parameter that should hold an id is `Option ObjectId`: `none`
  stands for a string that cannot be cast to an ObjectId.
* A `Date` is an instant (milliseconds since the epoch).  A request field that
  the handler passes through `new Date(..)` is `Option Date`: `none` stands
  for the Invalid Date, which the database layer refuses to cast (the handler's
  `catch` turns that into a 500).
* `validationResult(req)` is the field `errors` of the request: the handlers
  only test whether it is empty.
* A handler maps the database and a request to a response and the database
  after the request.
-/

namespace DrDesai

abbrev ObjectId := Nat

abbrev Date := Int

/-! ## Data model -/

/-- Account roles, `models/User.js` (`enum: ['doctor', 'patient']`). -/
inductive Role where
  | doctor
  | patient
  deriving DecidableEq, Repr

/-- The `emergencyContact` sub-document of `models/User.js`. -/
structure EmergencyContact where
  name : Option String := none
  phone : Option String := none
  relationship : Option String := none
  deriving DecidableEq, Repr

/-- User document, `models/User.js`; `createdAt` is the creation stamp of
`timestamps: true`. -/
structure User where
  name : String
  email : String
  password : String
  role : Role
  phone : String
  specialization : Option String := none
  licenseNumber : Option String := none
  experience : Option Nat := none
  age : Option Nat := none
  gender : Option String := none
  address : Option String := none
  emergencyContact : Option EmergencyContact := none
  createdAt : Date := 0
  deriving DecidableEq, Repr

/-- Modelled from the spec: `models/Appointment.js` is not among the sources.
The status enumeration of an appointment: pending, accepted, rejected,
completed, cancelled (the same five strings `updateStatusValidation` lists). -/
inductive Status where
  | pending
  | accepted
  | rejected
  | completed
  | cancelled
  deriving DecidableEq, Repr

/-- Modelled from the spec: the schema's cast of a status string; a string
outside the enumeration fails validation on `save()`. -/
def Status.ofString? (s : String) : Option Status :=
  if s = "pending" then some .pending
  else if s = "accepted" then some .accepted
  else if s = "rejected" then some .rejected
  else if s = "completed" then some .completed
  else if s = "cancelled" then some .cancelled
  else none

/-- Modelled from the spec: `models/Appointment.js` is not among the sources.
An appointment references one patient and one doctor account and has a date, a
time-slot string, a reason, optional symptoms, a status, optional notes,
prescription and follow-up date, and the two reschedule links. -/
structure Appointment where
  patient : ObjectId
  doctor : ObjectId
  date : Date
  time : String
  reason : String
  symptoms : Option String
  status : Status
  notes : Option String := none
  prescription : Option String := none
  followUpDate : Option Date := none
  rescheduledFrom : Option ObjectId := none
  rescheduledTo : Option ObjectId := none
  deriving DecidableEq, Repr

/-- Modelled from the spec: the schema default of `status`, used when the
constructor is given none ("insert new appointment with status pending"). -/
def Appointment.defaultStatus : Status := .pending

/-- One vital of `models/MedicalRecord.js`: `{ value, unit, date }`. -/
structure Measurement where
  value : ℚ
  unit : String
  date : Date
  deriving DecidableEq, Repr

/-- The blood pressure entry of `models/MedicalRecord.js`. -/
structure BloodPressure where
  systolic : ℚ
  diastolic : ℚ
  date : Date
  deriving DecidableEq, Repr

/-- The `vitals` sub-document of `models/MedicalRecord.js`; `{}` is `Vitals.empty`. -/
structure Vitals where
  weight : Option Measurement := none
  height : Option Measurement := none
  heartRate : Option Measurement := none
  bloodPressure : Option BloodPressure := none
  temperature : Option Measurement := none
  deriving DecidableEq, Repr

def Vitals.empty : Vitals := {}

structure Medication where
  name : String
  dosage : String
  frequency : String
  duration : String
  instructions : String
  deriving DecidableEq, Repr

structure Prescription where
  medications : List Medication := []
  notes : Option String := none
  deriving DecidableEq, Repr

structure FollowUp where
  required : Bool := false
  date : Option Date := none
  notes : Option String := none
  deriving DecidableEq, Repr

structure HistoryEntry where
  condition : String
  year : Int
  status : String
  deriving DecidableEq, Repr

/-- Stored medical record, `models/MedicalRecord.js`.  `patient` and `doctor`
are `required: true`, so a stored record has both. -/
structure MedicalRecord where
  patient : ObjectId
  doctor : ObjectId
  appointment : Option ObjectId := none
  vitals : Vitals := {}
  diagnosis : Option String := none
  symptoms : List String := []
  prescription : Option Prescription := none
  treatment : Option String := none
  followUp : FollowUp := {}
  allergies : List String := []
  medicalHistory : List HistoryEntry := []
  remedy : Option String := none
  formula : Option String := none
  notes : Option String := none
  createdAt : Date
  deriving DecidableEq, Repr

/-- The three collections. -/
structure Db where
  users : List User
  appointments : List Appointment
  medicalRecords : List (Option MedicalRecord)
  deriving DecidableEq, Repr

/-- The authenticated caller, `req.user`. -/
structure AuthUser where
  id : ObjectId
  role : Role
  deriving DecidableEq, Repr

/-! ## Responses -/

/-- The `pagination` block of a listing: `current` is `parseInt(page)`, `pages`
is `Math.ceil(total / limit)`, which is no number (JSON `null`) when `limit` is 0. -/
structure Pagination where
  current : Nat
  pages : Option Nat
  total : Nat
  deriving DecidableEq, Repr

/-- JSON payloads of the responses. -/
inductive Payload where
  | errors (errors : List String)
  | message (message : String)
  | validation (message : String) (errors : List String)
  | appointment (message : String) (id : ObjectId) (doc : Appointment)
  | medicalRecord (message : String) (id : ObjectId) (doc : MedicalRecord)
  | appointmentDoc (id : ObjectId) (doc : Appointment)
  | appointments (docs : List (ObjectId × Appointment)) (pagination : Pagination)
  | medicalRecordDoc (id : ObjectId) (doc : MedicalRecord)
  | medicalRecords (docs : List (ObjectId × MedicalRecord)) (pagination : Pagination)
  | vitalsHistory (docs : List (ObjectId × Vitals × Date))
  | auth (message : String) (token : String) (id : ObjectId) (user : User)
  | profile (message : String) (user : Option (ObjectId × User))
  | patients (docs : List (ObjectId × User × Option (ObjectId × MedicalRecord)))
      (pagination : Pagination)
  deriving DecidableEq, Repr

structure Response where
  status : Nat
  body : Payload
  deriving DecidableEq, Repr

/-! ## Queries -/

/-- First document, in collection order, whose id and content satisfy `p`;
ids are counted from `i`. -/
def findFrom {α : Type} (p : Nat → α → Bool) : Nat → List α → Option (Nat × α)
  | _, [] => none
  | i, a :: as => if p i a then some (i, a) else findFrom p (i + 1) as

/-- Mongo `findOne(filter)` over a collection. -/
def findOne {α : Type} (docs : List α) (p : Nat → α → Bool) : Option (Nat × α) :=
  findFrom p 0 docs

/-- The query `User.findOne({ _id: id, role })`. -/
def User.findOne (users : List User) (id : ObjectId) (role : Role) : Option User :=
  match users[id]? with
  | some u => if u.role = role then some u else none
  | none => none

/-- The filter `status: { $in: ['pending', 'accepted'] }`. -/
def Appointment.active (a : Appointment) : Bool :=
  a.status = .pending || a.status = .accepted

/-- JavaScript truthiness of an optional string field. -/
def truthyStr : Option String → Bool
  | some s => s ≠ ""
  | none => false

/-! ## Appointment handlers -/

structure BookBody where
  doctorId : Option ObjectId
  date : Option Date
  time : String
  reason : String
  symptoms : Option String
  deriving DecidableEq, Repr

structure BookReq where
  user : AuthUser
  errors : List String
  body : BookBody
  deriving DecidableEq, Repr

/-- Handler `bookAppointment`, appointmentController.js lines 8-60. -/
def bookAppointment (db : Db) (req : BookReq) : Response × Db :=
  if !req.errors.isEmpty then
    (⟨400, .errors req.errors⟩, db)
  else
    match req.body.doctorId with
    | none => (⟨500, .message "Server error during booking"⟩, db)
    | some doctorId =>
      match User.findOne db.users doctorId .doctor with
      | none => (⟨404, .message "Doctor not found"⟩, db)
      | some _ =>
        match req.body.date with
        | none => (⟨500, .message "Server error during booking"⟩, db)
        | some date =>
          match findOne db.appointments (fun _ a =>
              a.doctor = doctorId && a.date = date && a.time = req.body.time && a.active) with
          | some _ => (⟨400, .message "This time slot is already booked"⟩, db)
          | none =>
            let appointment : Appointment :=
              { patient := req.user.id
                doctor := doctorId
                date := date
                time := req.body.time
                reason := req.body.reason
                symptoms := req.body.symptoms
                status := Appointment.defaultStatus }
            (⟨201, .appointment "Appointment booked successfully"
                db.appointments.length appointment⟩,
              { db with appointments := db.appointments ++ [appointment] })

structure StatusBody where
  status : String
  notes : Option String := none
  prescription : Option String := none
  followUpDate : Option (Option Date) := none
  deriving DecidableEq, Repr

structure StatusReq where
  user : AuthUser
  id : Option ObjectId
  body : StatusBody
  deriving DecidableEq, Repr

/-- Handler `updateAppointmentStatus`, appointmentController.js lines 134-169.  The
field `followUpDate` of the body is `none` when absent or falsy and
`some (new Date(followUpDate))` otherwise; `save()` fails on a status outside
the enumeration and on an Invalid Date. -/
def updateAppointmentStatus (db : Db) (req : StatusReq) : Response × Db :=
  match req.id with
  | none => (⟨500, .message "Server error"⟩, db)
  | some id =>
    match db.appointments[id]? with
    | none => (⟨404, .message "Appointment not found"⟩, db)
    | some appointment =>
      if appointment.doctor ≠ req.user.id then
        (⟨403, .message "Access denied"⟩, db)
      else
        match Status.ofString? req.body.status with
        | none => (⟨500, .message "Server error"⟩, db)
        | some status =>
          let a1 := { appointment with status := status }
          let a2 := if truthyStr req.body.notes then { a1 with notes := req.body.notes } else a1
          let a3 := if truthyStr req.body.prescription then
            { a2 with prescription := req.body.prescription } else a2
          match req.body.followUpDate with
          | some none => (⟨500, .message "Server error"⟩, db)
          | followUp =>
            let a4 := match followUp with
              | some (some d) => { a3 with followUpDate := some d }
              | _ => a3
            (⟨200, .appointment "Appointment status updated successfully" id a4⟩,
              { db with appointments := db.appointments.set id a4 })

structure RescheduleBody where
  newDate : Option Date
  newTime : String
  deriving DecidableEq, Repr

structure RescheduleReq where
  user : AuthUser
  id : Option ObjectId
  body : RescheduleBody
  deriving DecidableEq, Repr

/-- Handler `rescheduleAppointment`, appointmentController.js lines 174-235. -/
def rescheduleAppointment (db : Db) (req : RescheduleReq) : Response × Db :=
  match req.id with
  | none => (⟨500, .message "Server error"⟩, db)
  | some id =>
    match db.appointments[id]? with
    | none => (⟨404, .message "Appointment not found"⟩, db)
    | some appointment =>
      if appointment.doctor ≠ req.user.id ∧ appointment.patient ≠ req.user.id then
        (⟨403, .message "Access denied"⟩, db)
      else
        match req.body.newDate with
        | none => (⟨500, .message "Server error"⟩, db)
        | some newDate =>
          match findOne db.appointments (fun j a =>
              a.doctor = appointment.doctor && a.date = newDate && a.time = req.body.newTime
                && a.active && j ≠ id) with
          | some _ => (⟨400, .message "This time slot is already booked"⟩, db)
          | none =>
            let newId := db.appointments.length
            let newAppointment : Appointment :=
              { patient := appointment.patient
                doctor := appointment.doctor
                date := newDate
                time := req.body.newTime
                reason := appointment.reason
                symptoms := appointment.symptoms
                status := .pending
                rescheduledFrom := some id }
            let saved := db.appointments ++ [newAppointment]
            let original := { appointment with status := .cancelled, rescheduledTo := some newId }
            (⟨200, .appointment "Appointment rescheduled successfully" newId newAppointment⟩,
              { db with appointments := saved.set id original })

structure CancelReq where
  user : AuthUser
  id : Option ObjectId
  deriving DecidableEq, Repr

/-- Handler `cancelAppointment`, appointmentController.js lines 240-262. -/
def cancelAppointment (db : Db) (req : CancelReq) : Response × Db :=
  match req.id with
  | none => (⟨500, .message "Server error"⟩, db)
  | some id =>
    match db.appointments[id]? with
    | none => (⟨404, .message "Appointment not found"⟩, db)
    | some appointment =>
      if appointment.doctor ≠ req.user.id ∧ appointment.patient ≠ req.user.id then
        (⟨403, .message "Access denied"⟩, db)
      else
        (⟨200, .message "Appointment cancelled successfully"⟩,
          { db with appointments :=
              db.appointments.set id { appointment with status := .cancelled } })

/-- A request of the appointment API that can change the appointment store. -/
inductive Request where
  | book (req : BookReq)
  | updateStatus (req : StatusReq)
  | reschedule (req : RescheduleReq)
  | cancel (req : CancelReq)
  deriving DecidableEq, Repr

/-- The database after one request (requests are served one at a time). -/
def step (db : Db) : Request → Db
  | .book req => (bookAppointment db req).2
  | .updateStatus req => (updateAppointmentStatus db req).2
  | .reschedule req => (rescheduleAppointment db req).2
  | .cancel req => (cancelAppointment db req).2

/-- The database after a finite sequence of requests. -/
def run (db : Db) (reqs : List Request) : Db :=
  reqs.foldl step db

/-- Slot uniqueness: no two distinct appointments with status pending or
accepted have the same (doctor, date, time). -/
def SlotUnique (as : List Appointment) : Prop :=
  ∀ (i j : ObjectId) (a b : Appointment), as[i]? = some a → as[j]? = some b → i ≠ j →
    a.active = true → b.active = true →
    ¬ (a.doctor = b.doctor ∧ a.date = b.date ∧ a.time = b.time)

/-! ## Vitals update -/

/-- The values a vitals field of the JSON body can hold once it is read by the
handler: a missing field, `null`, the empty string, a numeric string and a
number.  Numbers are the rationals that the JSON literal denotes. -/
inductive JsVal where
  | undefined
  | null
  | emptyStr
  | numStr (q : ℚ)
  | num (q : ℚ)
  deriving DecidableEq, Repr

/-- JavaScript truthiness: `undefined`, `null`, the empty string and the number 0
are falsy; a numeric string is a non-empty string and so truthy. -/
def JsVal.truthy : JsVal → Bool
  | .undefined => false
  | .null => false
  | .emptyStr => false
  | .numStr _ => true
  | .num q => q ≠ 0

/-- The test `v !== undefined && v !== null && v !== ''`. -/
def JsVal.present : JsVal → Bool
  | .undefined => false
  | .null => false
  | .emptyStr => false
  | .numStr _ => true
  | .num _ => true

/-- JavaScript `ToNumber`; `none` is NaN. -/
def JsVal.toNumber : JsVal → Option ℚ
  | .undefined => none
  | .null => some 0
  | .emptyStr => some 0
  | .numStr q => some q
  | .num q => some q

/-- The comparison `v < c` (false on NaN). -/
def JsVal.lt (v : JsVal) (c : ℚ) : Bool :=
  match v.toNumber with
  | some q => q < c
  | none => false

/-- The comparison `v > c` (false on NaN). -/
def JsVal.gt (v : JsVal) (c : ℚ) : Bool :=
  match v.toNumber with
  | some q => c < q
  | none => false

structure BloodPressureBody where
  systolic : JsVal := .undefined
  diastolic : JsVal := .undefined
  deriving DecidableEq, Repr

/-- The body of a vitals update; `bloodPressure` is `none` when the field is
missing and an object otherwise. -/
structure VitalsBody where
  weight : JsVal := .undefined
  height : JsVal := .undefined
  heartRate : JsVal := .undefined
  bloodPressure : Option BloodPressureBody := none
  temperature : JsVal := .undefined
  deriving DecidableEq, Repr

/-- A vitals update: caller, validation result, `req.params.patientId` (`none`
when `ObjectId.isValid` rejects it), body, and the instant `new Date()` yields
while the request is served. -/
structure VitalsReq where
  user : AuthUser
  errors : List String
  patientId : Option ObjectId
  body : VitalsBody
  now : Date
  deriving DecidableEq, Repr

/-- Scan for `findOne({ patient }).sort({ createdAt: -1 })`: `best` is the most
recently created record of the patient seen so far. -/
def latestFrom (patient : ObjectId) :
    Nat → List (Option MedicalRecord) → Option (Nat × MedicalRecord) → Option (Nat × MedicalRecord)
  | _, [], best => best
  | i, none :: rs, best => latestFrom patient (i + 1) rs best
  | i, some r :: rs, best =>
    if r.patient = patient then
      match best with
      | some (k, b) =>
        if b.createdAt < r.createdAt then latestFrom patient (i + 1) rs (some (i, r))
        else latestFrom patient (i + 1) rs (some (k, b))
      | none => latestFrom patient (i + 1) rs (some (i, r))
    else latestFrom patient (i + 1) rs best

/-- The query `MedicalRecord.findOne({ patient }).sort({ createdAt: -1 })`: the record of
the patient with the greatest `createdAt` (among equals, the earliest stored). -/
def latestRecord (rs : List (Option MedicalRecord)) (patient : ObjectId) :
    Option (Nat × MedicalRecord) :=
  latestFrom patient 0 rs none

/-- The assignment `vitals.x = { value, unit, date }` guarded by the presence test. -/
def writeVital (v : JsVal) (unit : String) (now : Date) (old : Option Measurement) :
    Option Measurement :=
  if v.present then v.toNumber.map (fun q => { value := q, unit := unit, date := now })
  else old

/-- The blood pressure assignment, guarded by
`bloodPressure && bloodPressure.systolic && bloodPressure.diastolic`. -/
def writeBloodPressure (bp : Option BloodPressureBody) (now : Date)
    (old : Option BloodPressure) : Option BloodPressure :=
  match bp with
  | some b =>
    if b.systolic.truthy && b.diastolic.truthy then
      match b.systolic.toNumber, b.diastolic.toNumber with
      | some s, some d => some { systolic := s, diastolic := d, date := now }
      | _, _ => old
    else old
  | none => old

/-- Lines 351-371 of medicalRecordController.js: the five guarded assignments. -/
def writeVitals (b : VitalsBody) (now : Date) (v : Vitals) : Vitals :=
  { weight := writeVital b.weight "kg" now v.weight
    height := writeVital b.height "cm" now v.height
    heartRate := writeVital b.heartRate "bpm" now v.heartRate
    bloodPressure := writeBloodPressure b.bloodPressure now v.bloodPressure
    temperature := writeVital b.temperature "°C" now v.temperature }

/-- The range checks, lines 318-336 of medicalRecordController.js: the message
of the first check that fails. -/
def vitalsRangeError (b : VitalsBody) : Option String :=
  if b.weight.present && (b.weight.lt 0 || b.weight.gt 500) then
    some "Weight must be between 0 and 500 kg"
  else if b.height.present && (b.height.lt 0 || b.height.gt 300) then
    some "Height must be between 0 and 300 cm"
  else if b.heartRate.present && (b.heartRate.lt 30 || b.heartRate.gt 200) then
    some "Heart rate must be between 30 and 200 bpm"
  else if (match b.bloodPressure with
      | some bp => bp.systolic.truthy && (bp.systolic.lt 70 || bp.systolic.gt 200)
      | none => false) then
    some "Systolic pressure must be between 70 and 200"
  else if (match b.bloodPressure with
      | some bp => bp.diastolic.truthy && (bp.diastolic.lt 40 || bp.diastolic.gt 130)
      | none => false) then
    some "Diastolic pressure must be between 40 and 130"
  else if b.temperature.present && (b.temperature.lt 35 || b.temperature.gt 42) then
    some "Temperature must be between 35 and 42 °C"
  else none

/-- Handler `updatePatientVitals`, medicalRecordController.js lines 284-396.  When the
patient has no record the new document has `doctor: null` unless the caller is
a doctor; `doctor` is required, so `save()` then raises a ValidationError, which
the `catch` answers with 400. -/
def updatePatientVitals (db : Db) (req : VitalsReq) : Response × Db :=
  if !req.errors.isEmpty then
    (⟨400, .validation "Validation Error" req.errors⟩, db)
  else
    match req.patientId with
    | none => (⟨400, .message "Invalid patient ID format"⟩, db)
    | some patientId =>
      if req.user.role = .patient ∧ req.user.id ≠ patientId then
        (⟨403, .message "Access denied"⟩, db)
      else
        match User.findOne db.users patientId .patient with
        | none => (⟨404, .message "Patient not found"⟩, db)
        | some _ =>
          if !req.body.weight.truthy && !req.body.height.truthy && !req.body.heartRate.truthy
              && !req.body.bloodPressure.isSome && !req.body.temperature.truthy then
            (⟨400, .message "At least one vital measurement is required"⟩, db)
          else
            match vitalsRangeError req.body with
            | some message => (⟨400, .message message⟩, db)
            | none =>
              match latestRecord db.medicalRecords patientId with
              | some (id, medicalRecord) =>
                let updated :=
                  { medicalRecord with vitals := writeVitals req.body req.now medicalRecord.vitals }
                (⟨200, .medicalRecord "Patient vitals updated successfully" id updated⟩,
                  { db with medicalRecords := db.medicalRecords.set id (some updated) })
              | none =>
                match (if req.user.role = .doctor then some req.user.id else none) with
                | none =>
                  (⟨400, .validation "Validation Error" ["Path `doctor` is required."]⟩, db)
                | some doctor =>
                  let created : MedicalRecord :=
                    { patient := patientId
                      doctor := doctor
                      vitals := writeVitals req.body req.now Vitals.empty
                      createdAt := req.now }
                  (⟨200, .medicalRecord "Patient vitals updated successfully"
                      db.medicalRecords.length created⟩,
                    { db with medicalRecords := db.medicalRecords ++ [some created] })

/-! ## Listings -/

/-- The effect of `.skip(skip).limit(limit)` on the sorted result; `limit(0)` sets
no limit. -/
def skipLimit {α : Type} (skip limit : Nat) (docs : List α) : List α :=
  if limit = 0 then docs.drop skip else (docs.drop skip).take limit

/-- The value of `Math.ceil(total / limit)`. -/
def pageCount (total limit : Nat) : Option Nat :=
  if limit = 0 then none else some ((total + limit - 1) / limit)

/-- The order of `.sort({ date: -1, time: -1 })`: later dates first, then later times. -/
def Appointment.sortsBefore (a b : Appointment) : Bool :=
  b.date < a.date || (a.date = b.date && b.time ≤ a.time)

/-- The order of `.sort({ createdAt: -1 })`: most recently created first. -/
def MedicalRecord.sortsBefore (a b : MedicalRecord) : Bool :=
  b.createdAt ≤ a.createdAt

/-- The filter that `getAppointments` builds: the caller's own appointments,
and the given status when `status` is truthy. -/
def appointmentQuery (user : AuthUser) (status : Option String) (a : Appointment) : Bool :=
  (if user.role = .doctor then decide (a.doctor = user.id) else decide (a.patient = user.id))
    && (match status with
        | some s => if s ≠ "" then decide (Status.ofString? s = some a.status) else true
        | none => true)

structure ListAppointmentsReq where
  user : AuthUser
  status : Option String := none
  page : Nat := 1
  limit : Nat := 10
  deriving DecidableEq, Repr

/-- Handler `getAppointments`, appointmentController.js lines 65-103.  With page 0
the skip `(page - 1) * limit` is negative, which the database refuses. -/
def getAppointments (db : Db) (req : ListAppointmentsReq) : Response :=
  if req.page = 0 ∧ req.limit ≠ 0 then
    ⟨500, .message "Server error"⟩
  else
    let found := db.appointments.enum.filter (fun x => appointmentQuery req.user req.status x.2)
    let sorted := found.insertionSort (fun x y => x.2.sortsBefore y.2 = true)
    ⟨200, .appointments (skipLimit ((req.page - 1) * req.limit) req.limit sorted)
      { current := req.page, pages := pageCount found.length req.limit, total := found.length }⟩

structure GetReq where
  user : AuthUser
  id : Option ObjectId
  deriving DecidableEq, Repr

/-- Handler `getAppointment`, appointmentController.js lines 108-129.  After
`populate` a reference to a missing account is `null`, and reading its `_id`
throws. -/
def getAppointment (db : Db) (req : GetReq) : Response :=
  match req.id with
  | none => ⟨500, .message "Server error"⟩
  | some id =>
    match db.appointments[id]? with
    | none => ⟨404, .message "Appointment not found"⟩
    | some appointment =>
      match db.users[appointment.doctor]? with
      | none => ⟨500, .message "Server error"⟩
      | some _ =>
        if appointment.doctor ≠ req.user.id then
          match db.users[appointment.patient]? with
          | none => ⟨500, .message "Server error"⟩
          | some _ =>
            if appointment.patient ≠ req.user.id then ⟨403, .message "Access denied"⟩
            else ⟨200, .appointmentDoc id appointment⟩
        else ⟨200, .appointmentDoc id appointment⟩

/-! ## Medical record handlers -/

/-- The schema's `enum: ['active', 'resolved', 'chronic']` on the status of a
medical-history entry, checked by `save()`. -/
def HistoryEntry.valid (h : HistoryEntry) : Bool :=
  h.status = "active" || h.status = "resolved" || h.status = "chronic"

/-- The record fields a create or update request can carry; `none` is a
missing field. -/
structure RecordBody where
  vitals : Option Vitals := none
  diagnosis : Option String := none
  symptoms : Option (List String) := none
  prescription : Option Prescription := none
  treatment : Option String := none
  followUp : Option FollowUp := none
  allergies : Option (List String) := none
  medicalHistory : Option (List HistoryEntry) := none
  remedy : Option String := none
  formula : Option String := none
  notes : Option String := none
  deriving DecidableEq, Repr

/-- A create request; `appointmentId` is `none` when missing or falsy, and
`some none` when it is a string that is not an id. -/
structure CreateRecordReq where
  user : AuthUser
  errors : List String
  patientId : Option ObjectId
  appointmentId : Option (Option ObjectId) := none
  body : RecordBody := {}
  now : Date
  deriving DecidableEq, Repr

/-- The document `createMedicalRecord` constructs. -/
def newMedicalRecord (patientId doctor : ObjectId) (appointment : Option ObjectId)
    (b : RecordBody) (now : Date) : MedicalRecord :=
  { patient := patientId
    doctor := doctor
    appointment := appointment
    vitals := b.vitals.getD {}
    diagnosis := b.diagnosis
    symptoms := b.symptoms.getD []
    prescription := b.prescription
    treatment := b.treatment
    followUp := b.followUp.getD {}
    allergies := b.allergies.getD []
    medicalHistory := b.medicalHistory.getD []
    remedy := b.remedy
    formula := b.formula
    notes := b.notes
    createdAt := now }

/-- Handler `createMedicalRecord`, medicalRecordController.js lines 10-85. -/
def createMedicalRecord (db : Db) (req : CreateRecordReq) : Response × Db :=
  if !req.errors.isEmpty then
    (⟨400, .errors req.errors⟩, db)
  else
    match req.patientId with
    | none => (⟨500, .message "Server error"⟩, db)
    | some patientId =>
      match User.findOne db.users patientId .patient with
      | none => (⟨404, .message "Patient not found"⟩, db)
      | some _ =>
        match req.appointmentId with
        | some none => (⟨500, .message "Server error"⟩, db)
        | appointmentId =>
          let appointment : Option ObjectId := appointmentId.join
          if (match appointment with
              | some id => db.appointments[id]?.isNone
              | none => false) then
            (⟨404, .message "Appointment not found"⟩, db)
          else if !(req.body.medicalHistory.getD []).all HistoryEntry.valid then
            (⟨500, .message "Server error"⟩, db)
          else
            let medicalRecord :=
              newMedicalRecord patientId req.user.id appointment req.body req.now
            (⟨201, .medicalRecord "Medical record created successfully"
                db.medicalRecords.length medicalRecord⟩,
              { db with medicalRecords := db.medicalRecords ++ [some medicalRecord] })

/-- The field assignments of `updateMedicalRecord`, lines 249-260: a field is
replaced when the request value is truthy (an array or object always is, a
string when it is not empty); `remedy` and `formula` whenever they are present. -/
def applyRecordUpdate (r : MedicalRecord) (b : RecordBody) : MedicalRecord :=
  { r with
    vitals := b.vitals.getD r.vitals
    diagnosis := if truthyStr b.diagnosis then b.diagnosis else r.diagnosis
    symptoms := b.symptoms.getD r.symptoms
    prescription := if b.prescription.isSome then b.prescription else r.prescription
    treatment := if truthyStr b.treatment then b.treatment else r.treatment
    followUp := b.followUp.getD r.followUp
    allergies := b.allergies.getD r.allergies
    medicalHistory := b.medicalHistory.getD r.medicalHistory
    remedy := if b.remedy.isSome then b.remedy else r.remedy
    formula := if b.formula.isSome then b.formula else r.formula
    notes := if truthyStr b.notes then b.notes else r.notes }

structure UpdateRecordReq where
  user : AuthUser
  id : Option ObjectId
  body : RecordBody := {}
  deriving DecidableEq, Repr

/-- Handler `updateMedicalRecord`, medicalRecordController.js lines 222-279. -/
def updateMedicalRecord (db : Db) (req : UpdateRecordReq) : Response × Db :=
  match req.id with
  | none => (⟨500, .message "Server error"⟩, db)
  | some id =>
    match db.medicalRecords[id]? with
    | some (some medicalRecord) =>
      if medicalRecord.doctor ≠ req.user.id then
        (⟨403, .message "Access denied"⟩, db)
      else if !(req.body.medicalHistory.getD []).all HistoryEntry.valid then
        (⟨500, .message "Server error"⟩, db)
      else
        let updated := applyRecordUpdate medicalRecord req.body
        (⟨200, .medicalRecord "Medical record updated successfully" id updated⟩,
          { db with medicalRecords := db.medicalRecords.set id (some updated) })
    | _ => (⟨404, .message "Medical record not found"⟩, db)

/-- Handler `deleteMedicalRecord`, medicalRecordController.js lines 445-465. -/
def deleteMedicalRecord (db : Db) (req : GetReq) : Response × Db :=
  match req.id with
  | none => (⟨500, .message "Server error"⟩, db)
  | some id =>
    match db.medicalRecords[id]? with
    | some (some medicalRecord) =>
      if medicalRecord.doctor ≠ req.user.id then
        (⟨403, .message "Access denied"⟩, db)
      else
        (⟨200, .message "Medical record deleted successfully"⟩,
          { db with medicalRecords := db.medicalRecords.set id none })
    | _ => (⟨404, .message "Medical record not found"⟩, db)

/-- Handler `getMedicalRecord`, medicalRecordController.js lines 193-217.  After
`populate` a reference to a missing account is `null`, and reading its `_id`
throws. -/
def getMedicalRecord (db : Db) (req : GetReq) : Response :=
  match req.id with
  | none => ⟨500, .message "Server error"⟩
  | some id =>
    match db.medicalRecords[id]? with
    | some (some medicalRecord) =>
      match db.users[medicalRecord.doctor]? with
      | none => ⟨500, .message "Server error"⟩
      | some _ =>
        if medicalRecord.doctor ≠ req.user.id then
          match db.users[medicalRecord.patient]? with
          | none => ⟨500, .message "Server error"⟩
          | some _ =>
            if medicalRecord.patient ≠ req.user.id then ⟨403, .message "Access denied"⟩
            else ⟨200, .medicalRecordDoc id medicalRecord⟩
        else ⟨200, .medicalRecordDoc id medicalRecord⟩
    | _ => ⟨404, .message "Medical record not found"⟩

/-- The result of `MedicalRecord.find({ patient })`: the stored records of the
patient with their ids. -/
def recordsOf (rs : List (Option MedicalRecord)) (patient : ObjectId) :
    List (ObjectId × MedicalRecord) :=
  rs.enum.filterMap (fun x =>
    match x.2 with
    | some r => if r.patient = patient then some (x.1, r) else none
    | none => none)

structure PatientRecordsReq where
  user : AuthUser
  patientId : Option ObjectId
  page : Nat := 1
  limit : Nat := 10
  deriving DecidableEq, Repr

/-- Handler `getPatientMedicalRecords`, medicalRecordController.js lines 89-126. -/
def getPatientMedicalRecords (db : Db) (req : PatientRecordsReq) : Response :=
  if req.user.role = .patient ∧ some req.user.id ≠ req.patientId then
    ⟨403, .message "Access denied"⟩
  else
    match req.patientId with
    | none => ⟨500, .message "Server error"⟩
    | some patientId =>
      if req.page = 0 ∧ req.limit ≠ 0 then
        ⟨500, .message "Server error"⟩
      else
        let found := recordsOf db.medicalRecords patientId
        let sorted := found.insertionSort (fun x y => x.2.sortsBefore y.2 = true)
        ⟨200, .medicalRecords (skipLimit ((req.page - 1) * req.limit) req.limit sorted)
          { current := req.page, pages := pageCount found.length req.limit,
            total := found.length }⟩

/-- The `$or` of the five `$exists` tests of `getPatientVitalsHistory`. -/
def Vitals.hasValue (v : Vitals) : Bool :=
  v.weight.isSome || v.height.isSome || v.heartRate.isSome || v.bloodPressure.isSome
    || v.temperature.isSome

structure VitalsHistoryReq where
  user : AuthUser
  patientId : Option ObjectId
  deriving DecidableEq, Repr

/-- Handler `getPatientVitalsHistory`, medicalRecordController.js lines 401-440. -/
def getPatientVitalsHistory (db : Db) (req : VitalsHistoryReq) : Response :=
  match req.patientId with
  | none => ⟨400, .message "Invalid patient ID format"⟩
  | some patientId =>
    if req.user.role = .patient ∧ req.user.id ≠ patientId then
      ⟨403, .message "Access denied"⟩
    else
      match User.findOne db.users patientId .patient with
      | none => ⟨404, .message "Patient not found"⟩
      | some _ =>
        let found := (recordsOf db.medicalRecords patientId).filter (fun x => x.2.vitals.hasValue)
        let sorted := found.insertionSort (fun x y => x.2.sortsBefore y.2 = true)
        ⟨200, .vitalsHistory ((sorted.take 20).map (fun x => (x.1, x.2.vitals, x.2.createdAt)))⟩

/-- Lines 160-172 of `getAllPatients`: each listed patient with the latest
medical record of that patient (`null` when there is none). -/
def attachLatestRecords (db : Db) (patients : List (ObjectId × User)) :
    List (ObjectId × User × Option (ObjectId × MedicalRecord)) :=
  patients.map (fun p => (p.1, p.2, latestRecord db.medicalRecords p.1))

/-- The regular-expression matching of the database, which `getAllPatients`
reaches through `$regex: search, $options: 'i'`: `compile pattern` is `none` when
the database refuses the pattern (the query throws), and otherwise the test that a
text has a match of the pattern, letter case ignored. -/
structure Regex where
  compile : String → Option (String → Bool)

/-- The filter `searchQuery` of `getAllPatients`, lines 138-147: the patient
accounts, and, when `search` is truthy, those of them with a match of the pattern
`search` in the name, the email or the phone. -/
def patientQuery (re : Regex) (search : String) : Option (User → Bool) :=
  if search = "" then some (fun u => u.role = .patient)
  else
    match re.compile search with
    | none => none
    | some found =>
      some (fun u => u.role = .patient && (found u.name || found u.email || found u.phone))

structure ListPatientsReq where
  user : AuthUser
  page : Nat := 1
  limit : Nat := 20
  search : String := ""
  deriving DecidableEq, Repr

/-- The order of `.sort({ createdAt: -1 })` on accounts. -/
def User.sortsBefore (a b : User) : Bool :=
  b.createdAt ≤ a.createdAt

/-- Handler `getAllPatients`, medicalRecordController.js lines 131-185.  The
projection of `.select(...)` is not applied: the listed account is given whole. -/
def getAllPatients (re : Regex) (db : Db) (req : ListPatientsReq) : Response :=
  if req.page = 0 ∧ req.limit ≠ 0 then
    ⟨500, .message "Server error"⟩
  else
    match patientQuery re req.search with
    | none => ⟨500, .message "Server error"⟩
    | some query =>
      let found := db.users.enum.filter (fun x => query x.2)
      let sorted := found.insertionSort (fun x y => x.2.sortsBefore y.2 = true)
      ⟨200, .patients
        (attachLatestRecords db (skipLimit ((req.page - 1) * req.limit) req.limit sorted))
        { current := req.page, pages := pageCount found.length req.limit,
          total := found.length }⟩

/-! ## Accounts -/

/-- The functions of bcryptjs and jsonwebtoken that the account handlers call:
`hash` is `bcrypt.hash` with a fresh salt, `compare` is `bcrypt.compare` of a
candidate with a stored hash, `sign` is `jwt.sign` for a user id. -/
structure Crypto where
  hash : String → String
  compare : String → String → Bool
  sign : ObjectId → String

/-- The schema option `trim: true` on the characters of a string. -/
def trimChars (cs : List Char) : List Char :=
  ((cs.dropWhile Char.isWhitespace).reverse.dropWhile Char.isWhitespace).reverse

/-- The setter of `name` in models/User.js (`trim: true`). -/
def trimText (s : String) : String :=
  ⟨trimChars s.data⟩

/-- The setters of `email` in models/User.js (`lowercase: true, trim: true`);
they run on stored values and on query values. -/
def lowerTrim (s : String) : String :=
  ⟨(trimChars s.data).map Char.toLower⟩

/-- The schema's `enum: ['doctor', 'patient']` on `role`. -/
def Role.ofString? (s : String) : Option Role :=
  if s = "doctor" then some .doctor
  else if s = "patient" then some .patient
  else none

/-- The schema's `enum: ['male', 'female', 'other']` on `gender`. -/
def genderAllowed (g : String) : Bool :=
  g = "male" || g = "female" || g = "other"

/-- A required string of the schema is present and not empty. -/
def requiredText : Option String → Bool
  | some s => s ≠ ""
  | none => false

structure RegisterBody where
  name : String
  email : String
  password : String
  role : String
  phone : String
  specialization : Option String := none
  licenseNumber : Option String := none
  experience : Option Nat := none
  age : Option Nat := none
  gender : Option String := none
  address : Option String := none
  emergencyContact : Option EmergencyContact := none
  deriving DecidableEq, Repr

structure RegisterReq where
  errors : List String
  body : RegisterBody
  now : Date
  deriving DecidableEq, Repr

/-- The document that `register` constructs, lines 33-52 of authController.js,
after the schema's setters and the password hashing of the `pre('save')` hook;
only the fields of the role are copied. -/
def newUser (c : Crypto) (b : RegisterBody) (role : Role) (now : Date) : User :=
  match role with
  | .doctor =>
    { name := trimText b.name, email := lowerTrim b.email, password := c.hash b.password,
      role := .doctor, phone := b.phone, specialization := b.specialization,
      licenseNumber := b.licenseNumber, experience := b.experience, createdAt := now }
  | .patient =>
    { name := trimText b.name, email := lowerTrim b.email, password := c.hash b.password,
      role := .patient, phone := b.phone, age := b.age, gender := b.gender,
      address := b.address, emergencyContact := b.emergencyContact, createdAt := now }

/-- The validators of models/User.js that `save()` runs on a new document:
required name, email, password (at least 6 characters) and phone, and the
required fields of the role, with the enumeration of gender. -/
def userSchemaValid (b : RegisterBody) (role : Role) : Bool :=
  trimText b.name ≠ "" && lowerTrim b.email ≠ "" && decide (6 ≤ b.password.length)
    && b.phone ≠ "" &&
  (match role with
    | .doctor =>
      requiredText b.specialization && requiredText b.licenseNumber && b.experience.isSome
    | .patient =>
      b.age.isSome
        && (match b.gender with
            | some g => genderAllowed g
            | none => false)
        && requiredText b.address)

/-- Handler `register`, authController.js lines 17-83. -/
def register (c : Crypto) (db : Db) (req : RegisterReq) : Response × Db :=
  if !req.errors.isEmpty then
    (⟨400, .errors req.errors⟩, db)
  else
    match findOne db.users (fun _ u => u.email = lowerTrim req.body.email) with
    | some _ => (⟨400, .message "User already exists with this email"⟩, db)
    | none =>
      match Role.ofString? req.body.role with
      | none => (⟨500, .message "Server error during registration"⟩, db)
      | some role =>
        if !userSchemaValid req.body role then
          (⟨500, .message "Server error during registration"⟩, db)
        else
          let user := newUser c req.body role req.now
          (⟨201, .auth "User registered successfully" (c.sign db.users.length)
              db.users.length user⟩,
            { db with users := db.users ++ [user] })

structure LoginReq where
  errors : List String
  email : String
  password : String
  role : String
  deriving DecidableEq, Repr

/-- Handler `login`, authController.js lines 88-137. -/
def login (c : Crypto) (db : Db) (req : LoginReq) : Response :=
  if !req.errors.isEmpty then
    ⟨400, .errors req.errors⟩
  else
    match findOne db.users (fun _ u =>
        u.email = lowerTrim req.email && Role.ofString? req.role = some u.role) with
    | none => ⟨400, .message "Invalid credentials"⟩
    | some (id, user) =>
      if !c.compare req.password user.password then
        ⟨400, .message "Invalid credentials"⟩
      else
        ⟨200, .auth "Login successful" (c.sign id) id user⟩

/-- The body of a profile update.  The handler reads the nine fields below
`password`; `role`, `email` and `password` stand for fields that a body may carry
and that the handler does not read. -/
structure ProfileBody where
  role : Option String := none
  email : Option String := none
  password : Option String := none
  name : Option String := none
  phone : Option String := none
  specialization : Option String := none
  licenseNumber : Option String := none
  experience : Option Nat := none
  age : Option Nat := none
  gender : Option String := none
  address : Option String := none
  emergencyContact : Option EmergencyContact := none
  deriving DecidableEq, Repr

structure ProfileReq where
  user : AuthUser
  body : ProfileBody
  deriving DecidableEq, Repr

/-- The document after `findByIdAndUpdate(id, updateData)`, lines 157-176: the
keys of `updateData` that hold a value are written, those of the caller's role
only. -/
def applyProfileUpdate (u : User) (role : Role) (b : ProfileBody) : User :=
  let base :=
    { u with
      name := match b.name with
        | some n => trimText n
        | none => u.name
      phone := b.phone.getD u.phone }
  match role with
  | .doctor =>
    { base with
      specialization := if b.specialization.isSome then b.specialization else u.specialization
      licenseNumber := if b.licenseNumber.isSome then b.licenseNumber else u.licenseNumber
      experience := if b.experience.isSome then b.experience else u.experience }
  | .patient =>
    { base with
      age := if b.age.isSome then b.age else u.age
      gender := if b.gender.isSome then b.gender else u.gender
      address := if b.address.isSome then b.address else u.address
      emergencyContact :=
        if b.emergencyContact.isSome then b.emergencyContact else u.emergencyContact }

/-- The update validators of `runValidators: true` on the written keys: `name`
and `phone` are required, `gender` has an enumeration. -/
def profileUpdateValid (role : Role) (b : ProfileBody) : Bool :=
  (match b.name with
    | some n => trimText n ≠ ""
    | none => true)
  && (match b.phone with
    | some p => p ≠ ""
    | none => true)
  && (match role, b.gender with
    | .patient, some g => genderAllowed g
    | _, _ => true)

/-- Handler `updateProfile`, authController.js lines 155-186. -/
def updateProfile (db : Db) (req : ProfileReq) : Response × Db :=
  if !profileUpdateValid req.user.role req.body then
    (⟨500, .message "Server error during profile update"⟩, db)
  else
    match db.users[req.user.id]? with
    | none => (⟨200, .profile "Profile updated successfully" none⟩, db)
    | some u =>
      let updated := applyProfileUpdate u req.user.role req.body
      (⟨200, .profile "Profile updated successfully" (some (req.user.id, updated))⟩,
        { db with users := db.users.set req.user.id updated })

/-- The database after a sequence of register requests. -/
def runRegister (c : Crypto) (db : Db) (reqs : List RegisterReq) : Db :=
  reqs.foldl (fun d r => (register c d r).2) db

/-- No two stored accounts have the same email. -/
def EmailsDistinct (users : List User) : Prop :=
  ∀ (i j : Nat) (u v : User), users[i]? = some u → users[j]? = some v → i ≠ j →
    u.email ≠ v.email

/-- The role of the request is doctor or patient and every field that the schema
requires for that role is present and not empty. -/
def RoleFieldsPresent (b : RegisterBody) : Prop :=
  (b.role = "doctor" ∧ requiredText b.specialization = true ∧
      requiredText b.licenseNumber = true ∧ b.experience.isSome = true) ∨
  (b.role = "patient" ∧ b.age.isSome = true ∧
      (∃ g, b.gender = some g ∧ (g = "male" ∨ g = "female" ∨ g = "other")) ∧
      requiredText b.address = true)

/-- The stored account has the fields that its role requires. -/
def User.roleFieldsPresent (u : User) : Prop :=
  match u.role with
  | .doctor =>
    requiredText u.specialization = true ∧ requiredText u.licenseNumber = true ∧
      u.experience.isSome = true
  | .patient =>
    u.age.isSome = true ∧
      (∃ g, u.gender = some g ∧ (g = "male" ∨ g = "female" ∨ g = "other")) ∧
      requiredText u.address = true

/-- A stand-in for bcrypt and jwt on the sample data: the hash of `p` is
`hash(p)`, and a candidate matches the stored hash of itself. -/
def sampleCrypto : Crypto :=
  { hash := fun p => "hash(" ++ p ++ ")"
    compare := fun candidate stored => stored = "hash(" ++ candidate ++ ")"
    sign := fun id => "token-" ++ toString id }

/-- A registration of a doctor. -/
def doctorRegistration : RegisterReq :=
  { errors := []
    body := { name := " Asha Desai ", email := "Doctor@Clinic.test", password := "secret1",
              role := "doctor", phone := "100", specialization := some "General",
              licenseNumber := some "L-1", experience := some 12 }
    now := 1704067200000 }

/-- The same registration without a license number. -/
def incompleteRegistration : RegisterReq :=
  { doctorRegistration with
    body := { doctorRegistration.body with licenseNumber := none } }

/-- A database without any document. -/
def emptyDb : Db :=
  { users := [], appointments := [], medicalRecords := [] }

/-- The database after `doctorRegistration`. -/
def oneAccount : Db :=
  (register sampleCrypto emptyDb doctorRegistration).2

/-- A login of the registered doctor with a wrong password. -/
def wrongPasswordLogin : LoginReq :=
  { errors := [], email := "doctor@clinic.test", password := "guess99", role := "doctor" }

/-- A login with an email that no account has. -/
def unknownEmailLogin : LoginReq :=
  { errors := [], email := "nobody@clinic.test", password := "secret1", role := "doctor" }

/-- The registered doctor sends a profile update that carries a role, an email
and a password besides a new phone number. -/
def roleChangingProfile : ProfileReq :=
  { user := { id := 0, role := .doctor }
    body := { role := some "patient", email := some "other@clinic.test",
              password := some "changed", phone := some "999" } }

/-! ## Auxiliary definitions -/

/-- The appointment `bookAppointment` constructs. -/
def bookedAppointment (req : BookReq) (doctorId : ObjectId) (date : Date) : Appointment :=
  { patient := req.user.id
    doctor := doctorId
    date := date
    time := req.body.time
    reason := req.body.reason
    symptoms := req.body.symptoms
    status := Appointment.defaultStatus }

/-- The appointment `rescheduleAppointment` constructs from the original. -/
def rescheduledAppointment (original : Appointment) (id : ObjectId) (newDate : Date)
    (newTime : String) : Appointment :=
  { patient := original.patient
    doctor := original.doctor
    date := newDate
    time := newTime
    reason := original.reason
    symptoms := original.symptoms
    status := .pending
    rescheduledFrom := some id }

/-- The original appointment as `rescheduleAppointment` saves it back. -/
def cancelledOriginal (original : Appointment) (newId : ObjectId) : Appointment :=
  { original with status := .cancelled, rescheduledTo := some newId }

/-- The text `t` begins with the characters `s`, letter case ignored. -/
def beginsIgnoringCase : List Char → List Char → Bool
  | [], _ => true
  | _ :: _, [] => false
  | c :: s, d :: t => c.toLower = d.toLower && beginsIgnoringCase s t

/-- The characters `s` occur in `t` one after the other, letter case ignored. -/
def occursIgnoringCase (s : List Char) : List Char → Bool
  | [] => beginsIgnoringCase s []
  | d :: t => beginsIgnoringCase s (d :: t) || occursIgnoringCase s t

/-- The text contains `s` as a case-insensitive literal substring (the spec's
search). -/
def containsIgnoringCase (text s : String) : Bool :=
  occursIgnoringCase s.data text.data

/-- The patient accounts of the spec's search for `s`: name, email or phone
contains `s` as a case-insensitive literal substring. -/
def matchesSearch (s : String) (u : User) : Bool :=
  u.role = .patient &&
    (containsIgnoringCase u.name s || containsIgnoringCase u.email s
      || containsIgnoringCase u.phone s)

/-- The engine treats the pattern `s` as literal text. -/
def Regex.LiteralOn (re : Regex) (s : String) : Prop :=
  ∃ found : String → Bool, re.compile s = some found ∧
    ∀ t : String, found t = containsIgnoringCase t s

/-- The characters with a meaning of their own in a regular expression. -/
def regexMetaChars : List Char :=
  ['\\', '^', '$', '.', '|', '?', '*', '+', '(', ')', '[', ']', '\x7b', '\x7d']

/-- The pattern `p`, in which `.` stands for any character but a line feed and
every other character for itself in either case, matches at the start of `t`. -/
def matchesAt : List Char → List Char → Bool
  | [], _ => true
  | _ :: _, [] => false
  | c :: p, d :: t =>
    (if c = '.' then decide (d ≠ '\n') else decide (c.toLower = d.toLower)) && matchesAt p t

/-- The pattern `p` matches somewhere in `t`. -/
def matchesWithin (p : List Char) : List Char → Bool
  | [] => matchesAt p []
  | d :: t => matchesAt p (d :: t) || matchesWithin p t

/-- A stand-in for the database's matching on the patterns of the samples, those
made of `.` and of characters that are no metacharacters; it does not cover the
other patterns and answers `none` for them. -/
def dotEngine : Regex :=
  { compile := fun s =>
      if s.data.all (fun c => c = '.' || !regexMetaChars.contains c) then
        some (fun t => matchesWithin s.data t.data)
      else none }

/-- The slice of `sorted` that starts at index `(page - 1) * limit` and has at
most `limit` items. -/
def pageSlice {α : Type} (sorted : List α) (page limit : Nat) : List α :=
  (sorted.drop ((page - 1) * limit)).take limit

/-- The pagination of a listing with the given limit over the documents
`matching`: there is an arrangement `sorted` of them, in the order `before`, such
that every positive page is answered 200 with the slice of `sorted` for that page
(as `view` presents it), `current` the page, `total` the number of matching
documents and `pages` the ceiling of total / limit; the slices of the pages 1 to
`pages` one after the other are `sorted`, and the slice of a later page is empty. -/
def PagedListing {α β : Type} (matching : List α) (before : α → α → Prop)
    (view : List α → List β) (limit : Nat) (respond : Nat → Response)
    (payload : List β → Pagination → Payload) : Prop :=
  ∃ (sorted : List α) (pages : Nat),
    sorted.Perm matching ∧ sorted.Sorted before ∧
    pages = ⌈(matching.length : ℚ) / (limit : ℚ)⌉₊ ∧
    (∀ page : Nat, 0 < page →
      respond page =
        ⟨200, payload (view (pageSlice sorted page limit))
          { current := page, pages := some pages, total := matching.length }⟩) ∧
    (List.range pages).flatMap (fun k => pageSlice sorted (k + 1) limit) = sorted ∧
    (∀ page : Nat, pages < page → pageSlice sorted page limit = [])

/-! ## Sample data -/

def sampleDoctor : User :=
  { name := "Asha Desai", email := "doctor@clinic.test", password := "hash-d", role := .doctor,
    phone := "100", specialization := some "General", licenseNumber := some "L-1",
    experience := some 12 }

def samplePatient : User :=
  { name := "Ravi Kumar", email := "patient@clinic.test", password := "hash-p", role := .patient,
    phone := "200", age := some 30, gender := some "male", address := some "Pune" }

/-- A database with doctor 0, patient 1 and no appointment or medical record. -/
def emptyClinic : Db :=
  { users := [sampleDoctor, samplePatient], appointments := [], medicalRecords := [] }

/-- Patient 1 asks for doctor 0 at instant 1704067200000 (2024-01-01), 10:00. -/
def sampleBooking : BookReq :=
  { user := { id := 1, role := .patient }
    errors := []
    body := { doctorId := some 0, date := some 1704067200000, time := "10:00",
              reason := "Persistent cough", symptoms := some "cough" } }

/-- Doctor 0 sets appointment 0 to accepted. -/
def sampleAccept : StatusReq :=
  { user := { id := 0, role := .doctor }, id := some 0, body := { status := "accepted" } }

/-- Patient 1 cancels appointment 0. -/
def sampleCancel : CancelReq :=
  { user := { id := 1, role := .patient }, id := some 0 }

/-- Book, cancel, book the same slot again, then the doctor re-opens the cancelled one. -/
def reopenScenario : List Request :=
  [.book sampleBooking, .cancel sampleCancel, .book sampleBooking, .updateStatus sampleAccept]

/-- The appointment that `sampleBooking` stores. -/
def sampleAppointment (status : Status) : Appointment :=
  { patient := 1, doctor := 0, date := 1704067200000, time := "10:00",
    reason := "Persistent cough", symptoms := some "cough", status := status }

/-- A request other than a status update. -/
def Request.isStatusUpdate : Request → Bool
  | .updateStatus _ => true
  | _ => false

/-- A booking that fails validation and names account 7, which does not exist. -/
def shortReasonBooking : BookReq :=
  { user := { id := 1, role := .patient }
    errors := ["Reason must be at least 10 characters long"]
    body := { doctorId := some 7, date := some 1704067200000, time := "10:00",
              reason := "cough", symptoms := none } }

/-- A valid booking whose doctorId is the id of the patient account 1. -/
def patientAsDoctorBooking : BookReq :=
  { user := { id := 1, role := .patient }
    errors := []
    body := { doctorId := some 1, date := some 1704067200000, time := "10:00",
              reason := "Persistent cough", symptoms := none } }

/-- The clinic after the first booking: appointment 0 is pending. -/
def oneBooking : Db := step emptyClinic (.book sampleBooking)

/-- Patient 1 moves appointment 0 to instant 1704153600000 (2024-01-02), 11:00. -/
def sampleReschedule : RescheduleReq :=
  { user := { id := 1, role := .patient }, id := some 0,
    body := { newDate := some 1704153600000, newTime := "11:00" } }

/-- Patient 1 reschedules appointment 0 onto the slot it already has. -/
def sameSlotReschedule : RescheduleReq :=
  { user := { id := 1, role := .patient }, id := some 0,
    body := { newDate := some 1704067200000, newTime := "10:00" } }

/-- Some appointment other than `id` has the doctor, date and time and is
pending or accepted. -/
def SlotTakenByOther (as : List Appointment) (id : ObjectId) (doctor : ObjectId) (date : Date)
    (time : String) : Prop :=
  ∃ (j : Nat) (b : Appointment), j ≠ id ∧ as[j]? = some b ∧ b.doctor = doctor ∧ b.date = date ∧
    b.time = time ∧ (b.status = .pending ∨ b.status = .accepted)

/-- A clinic in which patient 1 has one medical record, authored by doctor 0. -/
def clinicWithRecord : Db :=
  { users := [sampleDoctor, samplePatient], appointments := [],
    medicalRecords := [some { patient := 1, doctor := 0, createdAt := 1700000000000 }] }

/-- Doctor 0 sends weight 70 and a blood pressure with systolic 0 for patient 1. -/
def zeroSystolicUpdate : VitalsReq :=
  { user := { id := 0, role := .doctor }, errors := [], patientId := some 1,
    body := { weight := .num 70,
              bloodPressure := some { systolic := .num 0, diastolic := .num 80 } },
    now := 1704067200000 }

/-- Doctor 0 sends only weight 0 for patient 1. -/
def zeroWeightUpdate : VitalsReq :=
  { user := { id := 0, role := .doctor }, errors := [], patientId := some 1,
    body := { weight := .num 0 }, now := 1704067200000 }

/-- The number that a supplied vitals value denotes; nothing for a missing
field, `null` and the empty string. -/
def JsVal.number? : JsVal → Option ℚ
  | .numStr q => some q
  | .num q => some q
  | _ => none

/-- The value is supplied and lies outside the closed range from `lo` to `hi`. -/
def OutOfRange (v : JsVal) (lo hi : ℚ) : Prop :=
  ∃ q : ℚ, v.number? = some q ∧ (q < lo ∨ hi < q)

/-- The value is missing or lies in the closed range from `lo` to `hi`. -/
def InRangeIfSupplied (v : JsVal) (lo hi : ℚ) : Prop :=
  ∀ q : ℚ, v.number? = some q → lo ≤ q ∧ q ≤ hi

/-- The record of patient 1 after `zeroSystolicUpdate`: only the weight is written. -/
def recordAfterZeroSystolic : MedicalRecord :=
  { patient := 1, doctor := 0, createdAt := 1700000000000,
    vitals := { weight := some { value := 70, unit := "kg", date := 1704067200000 } } }

/-- The latest record as `updatePatientVitals` saves it back. -/
def recordWithVitals (r : MedicalRecord) (b : VitalsBody) (now : Date) : MedicalRecord :=
  { r with vitals := writeVitals b now r.vitals }

/-- The record `updatePatientVitals` creates for a patient without records. -/
def createdVitalsRecord (patientId doctor : ObjectId) (b : VitalsBody) (now : Date) :
    MedicalRecord :=
  { patient := patientId
    doctor := doctor
    vitals := writeVitals b now Vitals.empty
    createdAt := now }

/-- Doctor 0 sends a blood pressure without diastolic for patient 1. -/
def systolicOnlyUpdate : VitalsReq :=
  { user := { id := 0, role := .doctor }, errors := [], patientId := some 1,
    body := { bloodPressure := some { systolic := .num 120 } }, now := 1704067200000 }

/-- Patient 1 sends heart rate 72 for themself. -/
def patientSelfUpdate : VitalsReq :=
  { user := { id := 1, role := .patient }, errors := [], patientId := some 1,
    body := { heartRate := .num 72 }, now := 1704067200000 }

/-- Doctor 0 sends heart rate 72 for patient 1. -/
def heartRateUpdate : VitalsReq :=
  { user := { id := 0, role := .doctor }, errors := [], patientId := some 1,
    body := { heartRate := .num 72 }, now := 1704067200000 }

/-- The record with no vitals that `systolicOnlyUpdate` creates for patient 1. -/
def emptyVitalsRecord : MedicalRecord :=
  { patient := 1, doctor := 0, createdAt := 1704067200000 }

/-- The medical record of patient 1 authored by doctor 0 in `clinicWithRecord`. -/
def sampleRecord : MedicalRecord :=
  { patient := 1, doctor := 0, createdAt := 1700000000000 }

/-- Doctor 0 replaces the diagnosis of medical record 0. -/
def sampleRecordUpdate : UpdateRecordReq :=
  { user := { id := 0, role := .doctor }, id := some 0,
    body := { diagnosis := some "Bronchitis" } }

/-- Doctor 0 deletes medical record 0. -/
def sampleRecordDelete : GetReq :=
  { user := { id := 0, role := .doctor }, id := some 0 }

/-- The appointment as `updateAppointmentStatus` saves it back. -/
def statusUpdated (a : Appointment) (st : Status) (b : StatusBody) : Appointment :=
  let a1 := { a with status := st }
  let a2 := if truthyStr b.notes then { a1 with notes := b.notes } else a1
  let a3 := if truthyStr b.prescription then { a2 with prescription := b.prescription } else a2
  match b.followUpDate with
  | some (some d) => { a3 with followUpDate := some d }
  | _ => a3

/-- A doctor with id 5, who is not the doctor of appointment 0, tries to accept it. -/
def otherDoctorAccept : StatusReq :=
  { user := { id := 5, role := .doctor }, id := some 0, body := { status := "accepted" } }

/-- An outsider with id 5 asks for appointment 0. -/
def outsiderGet : GetReq :=
  { user := { id := 5, role := .patient }, id := some 0 }

/-- Patient 1 asks for appointment 0. -/
def patientGet : GetReq :=
  { user := { id := 1, role := .patient }, id := some 0 }

/-- An outsider with id 5 tries to reschedule appointment 0. -/
def outsiderReschedule : RescheduleReq :=
  { user := { id := 5, role := .patient }, id := some 0,
    body := { newDate := some 1704153600000, newTime := "11:00" } }

/-- An outsider with id 5 tries to cancel appointment 0. -/
def outsiderCancel : CancelReq :=
  { user := { id := 5, role := .patient }, id := some 0 }

/-- Doctor 0 lists their accepted appointments, first page of ten. -/
def doctorListAccepted : ListAppointmentsReq :=
  { user := { id := 0, role := .doctor }, status := some "accepted" }

/-- The clinic after the booking was accepted: appointment 0 is accepted. -/
def acceptedBooking : Db :=
  run emptyClinic [.book sampleBooking, .updateStatus sampleAccept]

def secondDoctor : User :=
  { name := "Meera Shah", email := "second.doctor@clinic.test", password := "hash-d2",
    role := .doctor, phone := "300", specialization := some "Cardiology",
    licenseNumber := some "L-2", experience := some 5 }

def secondPatient : User :=
  { name := "Sunil Rao", email := "second.patient@clinic.test", password := "hash-p2",
    role := .patient, phone := "400", age := some 41, gender := some "male",
    address := some "Mumbai" }

/-- Doctor 0, patient 1, doctor 2 and patient 3; patient 1 has the medical record
0, authored by doctor 0. -/
def largerClinic : Db :=
  { users := [sampleDoctor, samplePatient, secondDoctor, secondPatient], appointments := [],
    medicalRecords := [some sampleRecord] }

/-- Patient 3 sends a vitals update with a patientId that is not an id. -/
def malformedIdUpdate : VitalsReq :=
  { user := { id := 3, role := .patient }, errors := [], patientId := none,
    body := { heartRate := .num 72 }, now := 1704067200000 }

/-- Patient 3 sends, for patient 1, a vitals update that failed validation. -/
def invalidBodyUpdate : VitalsReq :=
  { user := { id := 3, role := .patient }, errors := ["Weight must be a number"],
    patientId := some 1, body := { heartRate := .num 72 }, now := 1704067200000 }

/-- Patient 3 sends a valid vitals update for patient 1. -/
def otherPatientUpdate : VitalsReq :=
  { user := { id := 3, role := .patient }, errors := [], patientId := some 1,
    body := { heartRate := .num 72 }, now := 1704067200000 }

/-- Doctor 2, who did not author record 0, lists the records of patient 1. -/
def secondDoctorList : PatientRecordsReq :=
  { user := { id := 2, role := .doctor }, patientId := some 1 }

/-- Doctor 0 sends, for the record 0 they authored, a medical history whose entry
has a status outside active, resolved, chronic. -/
def invalidHistoryUpdate : UpdateRecordReq :=
  { user := { id := 0, role := .doctor }, id := some 0,
    body := { medicalHistory := some [{ condition := "Asthma", year := 2020, status := "cured" }] } }

/-- Doctor 0 sends a create request that failed validation and whose patientId
is the id of the doctor account 0. -/
def invalidCreate : CreateRecordReq :=
  { user := { id := 0, role := .doctor }, errors := ["Symptoms must be an array"],
    patientId := some 0, now := 1704067200000 }

/-- Doctor 0 creates a record for patient 1 with a diagnosis. -/
def sampleCreate : CreateRecordReq :=
  { user := { id := 0, role := .doctor }, errors := [], patientId := some 1,
    body := { diagnosis := some "Bronchitis" }, now := 1704067200000 }

/-- Doctor 0 names the doctor account 0 as the patient of a valid create request. -/
def doctorAsPatientCreate : CreateRecordReq :=
  { user := { id := 0, role := .doctor }, errors := [], patientId := some 0,
    now := 1704067200000 }

/-- Doctor 0 names the appointment 9, which does not exist. -/
def missingAppointmentCreate : CreateRecordReq :=
  { user := { id := 0, role := .doctor }, errors := [], patientId := some 1,
    appointmentId := some (some 9), now := 1704067200000 }

/-- An array or object of the request replaces the stored value when it is
present (it is then truthy). -/
def ReplacedByObject {α : Type} (request : Option α) (old result : α) : Prop :=
  match request with
  | some v => result = v
  | none => result = old

/-- An optional object of the request replaces the stored one when it is present. -/
def ReplacedByOptionalObject {α : Type} (request : Option α) (old result : Option α) : Prop :=
  match request with
  | some v => result = some v
  | none => result = old

/-- A string of the request replaces the stored value exactly when it is truthy,
that is present and not empty. -/
def ReplacedByTruthyText (request : Option String) (old result : Option String) : Prop :=
  match request with
  | some s => if s = "" then result = old else result = some s
  | none => result = old

/-- A string of the request replaces the stored value whenever it is present,
the empty string included. -/
def ReplacedByPresentText (request : Option String) (old result : Option String) : Prop :=
  match request with
  | some s => result = some s
  | none => result = old

/-- Doctor 0 sends, for record 0, an empty diagnosis, an empty remedy and notes. -/
def partialRecordUpdate : UpdateRecordReq :=
  { user := { id := 0, role := .doctor }, id := some 0,
    body := { diagnosis := some "", remedy := some "", notes := some "Rest for a week" } }

/-- The chain `updateStatusValidation` of routes/appointments.js, lines 25-30, on
the fields of the embedding: the messages of the checks that fail.  The field
`followUpDate` holds a parsed value, and a value that is not a date fails
`isISO8601`. -/
def updateStatusValidation (b : StatusBody) : List String :=
  (if b.status ∈ ["pending", "accepted", "rejected", "completed", "cancelled"] then []
    else ["Valid status is required"]) ++
  (if b.followUpDate = some none then ["Valid follow-up date is required"] else [])

/-- The chain `rescheduleValidation` of routes/appointments.js, lines 32-35, on
the fields of the embedding: a `newDate` that is not a date fails `isISO8601`, an
empty `newTime` fails `notEmpty`. -/
def rescheduleValidation (b : RescheduleBody) : List String :=
  (if b.newDate.isNone then ["Valid new date is required"] else []) ++
  (if b.newTime = "" then ["New time is required"] else [])

/-- Doctor 0 sends the status 'archived' for appointment 0. -/
def unknownStatusUpdate : StatusReq :=
  { user := { id := 0, role := .doctor }, id := some 0, body := { status := "archived" } }

/-- Patient 1 reschedules appointment 0 with an empty newTime. -/
def emptyTimeReschedule : RescheduleReq :=
  { user := { id := 1, role := .patient }, id := some 0,
    body := { newDate := some 1704153600000, newTime := "" } }

/-- Patient 1 reschedules appointment 0 with a newDate that is not a date. -/
def invalidDateReschedule : RescheduleReq :=
  { user := { id := 1, role := .patient }, id := some 0,
    body := { newDate := none, newTime := "11:00" } }

/-- The two reschedule links of an appointment. -/
def Appointment.links (a : Appointment) : Option ObjectId × Option ObjectId :=
  (a.rescheduledFrom, a.rescheduledTo)

/-- Every `rescheduledTo` points at a stored appointment that points back. -/
def LinksBack (as : List Appointment) : Prop :=
  ∀ (a n : Nat) (A : Appointment), as[a]? = some A → A.rescheduledTo = some n →
    ∃ N : Appointment, as[n]? = some N ∧ N.rescheduledFrom = some a

/-- Every `rescheduledFrom` points at a stored original whose `rescheduledTo`
points at this successor or at a later one. -/
def LinksForward (as : List Appointment) : Prop :=
  ∀ (n a : Nat) (N : Appointment), as[n]? = some N → N.rescheduledFrom = some a →
    ∃ (A : Appointment) (m : Nat), as[a]? = some A ∧ A.rescheduledTo = some m ∧ n ≤ m

/-- Patient 1 moves appointment 0 a second time, to instant 1704240000000
(2024-01-03), 12:00. -/
def secondReschedule : RescheduleReq :=
  { user := { id := 1, role := .patient }, id := some 0,
    body := { newDate := some 1704240000000, newTime := "12:00" } }

/-- Book, then reschedule the same original twice. -/
def doubleRescheduleScenario : List Request :=
  [.book sampleBooking, .reschedule sampleReschedule, .reschedule secondReschedule]

/-- Doctor 0 searches the patients for the pattern `r.vi`. -/
def dotSearch : ListPatientsReq :=
  { user := { id := 0, role := .doctor }, search := "r.vi" }

/-- Doctor 0 searches the patients for `RAVI`. -/
def literalSearch : ListPatientsReq :=
  { user := { id := 0, role := .doctor }, search := "RAVI" }

/-- Doctor 0 lists the patients, one on a page. -/
def pagedPatients : ListPatientsReq :=
  { user := { id := 0, role := .doctor }, limit := 1 }

/-- Doctor 0 lists their appointments, one on a page. -/
def pagedAppointments : ListAppointmentsReq :=
  { user := { id := 0, role := .doctor }, limit := 1 }

/-- Doctor 0 lists the records of patient 1, one on a page. -/
def pagedRecords : PatientRecordsReq :=
  { user := { id := 0, role := .doctor }, patientId := some 1, limit := 1 }

/-! ## Lemmas on queries -/

theorem findFrom_eq_none {α : Type} (p : Nat → α → Bool) (docs : List α) (i : Nat) :
    findFrom p i docs = none ↔ ∀ (j : Nat) (a : α), docs[j]? = some a → p (i + j) a = false := by
  induction docs generalizing i with
  | nil => simp [findFrom]
  | cons d ds ih =>
    unfold findFrom
    by_cases hp : p i d = true
    · simp only [hp, if_true]
      constructor
      · intro h; cases h
      · intro h
        have := h 0 d (by simp)
        simp [hp] at this
    · simp only [hp]
      rw [if_neg (by simp), ih]
      constructor
      · intro h j a hj
        cases j with
        | zero =>
          simp at hj
          subst hj
          simpa using hp
        | succ k =>
          simp at hj
          have := h k a hj
          rwa [show i + (k + 1) = i + 1 + k by omega]
      · intro h j a hj
        have := h (j + 1) a (by simpa using hj)
        rwa [show i + (j + 1) = i + 1 + j by omega] at this

theorem findFrom_eq_some {α : Type} (p : Nat → α → Bool) (docs : List α) (i k : Nat)
    (a : α) (h : findFrom p i docs = some (k, a)) :
    ∃ j, k = i + j ∧ docs[j]? = some a ∧ p k a = true := by
  induction docs generalizing i with
  | nil => simp [findFrom] at h
  | cons d ds ih =>
    unfold findFrom at h
    by_cases hp : p i d = true
    · simp only [hp, if_true, Option.some.injEq, Prod.mk.injEq] at h
      obtain ⟨rfl, rfl⟩ := h
      exact ⟨0, by simp, by simp, hp⟩
    · rw [if_neg hp] at h
      obtain ⟨j, hk, hj, hpk⟩ := ih (i + 1) h
      exact ⟨j + 1, by omega, by simpa using hj, hpk⟩

theorem findOne_eq_none {α : Type} (docs : List α) (p : Nat → α → Bool) :
    findOne docs p = none ↔ ∀ (j : Nat) (a : α), docs[j]? = some a → p j a = false := by
  unfold findOne
  rw [findFrom_eq_none]
  simp

theorem findOne_eq_some {α : Type} (docs : List α) (p : Nat → α → Bool) (k : Nat)
    (a : α) (h : findOne docs p = some (k, a)) : docs[k]? = some a ∧ p k a = true := by
  obtain ⟨j, hk, hj, hp⟩ := findFrom_eq_some p docs 0 k a h
  have : k = j := by omega
  subst this
  exact ⟨hj, hp⟩

theorem findOne_isSome_of {α : Type} (docs : List α) (p : Nat → α → Bool) (j : Nat)
    (a : α) (hj : docs[j]? = some a) (hp : p j a = true) : ∃ x, findOne docs p = some x := by
  cases h : findOne docs p with
  | some x => exact ⟨x, rfl⟩
  | none =>
    have := (findOne_eq_none docs p).1 h j a hj
    simp [hp] at this

theorem active_iff (a : Appointment) :
    a.active = true ↔ a.status = .pending ∨ a.status = .accepted := by
  simp [Appointment.active]

theorem User.findOne_eq_some_iff (users : List User) (id : ObjectId) (role : Role) (u : User) :
    User.findOne users id role = some u ↔ users[id]? = some u ∧ u.role = role := by
  unfold User.findOne
  cases h : users[id]? with
  | none => simp
  | some v =>
    by_cases hr : v.role = role
    · simp only [hr, if_true, Option.some.injEq]
      constructor
      · rintro rfl; exact ⟨rfl, hr⟩
      · rintro ⟨h1, _⟩; exact h1
    · simp only [hr, if_false, Option.some.injEq]
      constructor
      · intro h; cases h
      · rintro ⟨rfl, h2⟩; exact absurd h2 hr

/-! ## Lemmas on the vitals checks -/

theorem rangeCheck_of_outOfRange (v : JsVal) (lo hi : ℚ) (h : OutOfRange v lo hi) :
    (v.present && (v.lt lo || v.gt hi)) = true := by
  obtain ⟨q, hq, hr⟩ := h
  cases v with
  | undefined => simp [JsVal.number?] at hq
  | null => simp [JsVal.number?] at hq
  | emptyStr => simp [JsVal.number?] at hq
  | numStr x =>
    simp only [JsVal.number?, Option.some.injEq] at hq
    subst hq
    simpa [JsVal.present, JsVal.lt, JsVal.gt, JsVal.toNumber] using hr
  | num x =>
    simp only [JsVal.number?, Option.some.injEq] at hq
    subst hq
    simpa [JsVal.present, JsVal.lt, JsVal.gt, JsVal.toNumber] using hr

theorem truthyCheck_of_outOfRange (v : JsVal) (lo hi : ℚ) (h : OutOfRange v lo hi)
    (h0 : v ≠ .num 0) : (v.truthy && (v.lt lo || v.gt hi)) = true := by
  obtain ⟨q, hq, hr⟩ := h
  cases v with
  | undefined => simp [JsVal.number?] at hq
  | null => simp [JsVal.number?] at hq
  | emptyStr => simp [JsVal.number?] at hq
  | numStr x =>
    simp only [JsVal.number?, Option.some.injEq] at hq
    subst hq
    simpa [JsVal.truthy, JsVal.lt, JsVal.gt, JsVal.toNumber] using hr
  | num x =>
    simp only [JsVal.number?, Option.some.injEq] at hq
    subst hq
    have hx : x ≠ 0 := fun hx => h0 (by rw [hx])
    simpa [JsVal.truthy, JsVal.lt, JsVal.gt, JsVal.toNumber, hx] using hr

theorem rangeCheck_of_inRange (v : JsVal) (lo hi : ℚ) (h : InRangeIfSupplied v lo hi) :
    (v.present && (v.lt lo || v.gt hi)) = false := by
  cases v with
  | undefined => rfl
  | null => rfl
  | emptyStr => rfl
  | numStr x =>
    have := h x rfl
    simp [JsVal.present, JsVal.lt, JsVal.gt, JsVal.toNumber, this.1, this.2]
  | num x =>
    have := h x rfl
    simp [JsVal.present, JsVal.lt, JsVal.gt, JsVal.toNumber, this.1, this.2]

theorem truthyCheck_of_inRange (v : JsVal) (lo hi : ℚ) (h : InRangeIfSupplied v lo hi) :
    (v.truthy && (v.lt lo || v.gt hi)) = false := by
  cases v with
  | undefined => rfl
  | null => rfl
  | emptyStr => rfl
  | numStr x =>
    have := h x rfl
    simp [JsVal.truthy, JsVal.lt, JsVal.gt, JsVal.toNumber, this.1, this.2]
  | num x =>
    have := h x rfl
    simp [JsVal.truthy, JsVal.lt, JsVal.gt, JsVal.toNumber, this.1, this.2]

/-- Every out-of-range value is caught by the range checks, except a systolic
or diastolic pressure that is the number 0. -/
theorem vitalsRangeError_isSome (b : VitalsBody)
    (h : OutOfRange b.weight 0 500 ∨ OutOfRange b.height 0 300 ∨
      OutOfRange b.heartRate 30 200 ∨
      (∃ bp, b.bloodPressure = some bp ∧ bp.systolic ≠ .num 0 ∧
        OutOfRange bp.systolic 70 200) ∨
      (∃ bp, b.bloodPressure = some bp ∧ bp.diastolic ≠ .num 0 ∧
        OutOfRange bp.diastolic 40 130) ∨
      OutOfRange b.temperature 35 42) :
    ∃ message, vitalsRangeError b = some message := by
  unfold vitalsRangeError
  split_ifs with h1 h2 h3 h4 h5 h6
  · exact ⟨_, rfl⟩
  · exact ⟨_, rfl⟩
  · exact ⟨_, rfl⟩
  · exact ⟨_, rfl⟩
  · exact ⟨_, rfl⟩
  · exact ⟨_, rfl⟩
  · exfalso
    rcases h with h | h | h | ⟨bp, hbp, h0, h⟩ | ⟨bp, hbp, h0, h⟩ | h
    · exact h1 (rangeCheck_of_outOfRange _ _ _ h)
    · exact h2 (rangeCheck_of_outOfRange _ _ _ h)
    · exact h3 (rangeCheck_of_outOfRange _ _ _ h)
    · simp only [hbp] at h4
      exact h4 (truthyCheck_of_outOfRange _ _ _ h h0)
    · simp only [hbp] at h5
      exact h5 (truthyCheck_of_outOfRange _ _ _ h h0)
    · exact h6 (rangeCheck_of_outOfRange _ _ _ h)

theorem vitalsRangeError_eq_none (b : VitalsBody)
    (hw : InRangeIfSupplied b.weight 0 500) (hh : InRangeIfSupplied b.height 0 300)
    (hr : InRangeIfSupplied b.heartRate 30 200)
    (hbp : ∀ bp, b.bloodPressure = some bp →
      InRangeIfSupplied bp.systolic 70 200 ∧ InRangeIfSupplied bp.diastolic 40 130)
    (ht : InRangeIfSupplied b.temperature 35 42) :
    vitalsRangeError b = none := by
  have h4 : (match b.bloodPressure with
      | some bp => bp.systolic.truthy && (bp.systolic.lt 70 || bp.systolic.gt 200)
      | none => false) = false := by
    cases hb : b.bloodPressure with
    | none => rfl
    | some bp => exact truthyCheck_of_inRange _ _ _ (hbp bp hb).1
  have h5 : (match b.bloodPressure with
      | some bp => bp.diastolic.truthy && (bp.diastolic.lt 40 || bp.diastolic.gt 130)
      | none => false) = false := by
    cases hb : b.bloodPressure with
    | none => rfl
    | some bp => exact truthyCheck_of_inRange _ _ _ (hbp bp hb).2
  unfold vitalsRangeError
  rw [rangeCheck_of_inRange _ _ _ hw, rangeCheck_of_inRange _ _ _ hh,
    rangeCheck_of_inRange _ _ _ hr, h4, h5, rangeCheck_of_inRange _ _ _ ht]
  rfl

theorem latestFrom_isSome_of_best (patient : ObjectId) (rs : List (Option MedicalRecord))
    (i : Nat) (x : Nat × MedicalRecord) :
    ∃ y, latestFrom patient i rs (some x) = some y := by
  induction rs generalizing i x with
  | nil => exact ⟨x, rfl⟩
  | cons r rs ih =>
    cases r with
    | none => exact ih (i + 1) x
    | some r =>
      obtain ⟨k, b⟩ := x
      unfold latestFrom
      by_cases hp : r.patient = patient
      · rw [if_pos hp]
        by_cases hc : b.createdAt < r.createdAt
        · simp only [hc, if_true]
          exact ih (i + 1) (i, r)
        · simp only [hc, if_false]
          exact ih (i + 1) (k, b)
      · rw [if_neg hp]
        exact ih (i + 1) (k, b)

theorem latestFrom_isSome (patient : ObjectId) (rs : List (Option MedicalRecord)) (i j : Nat)
    (r : MedicalRecord) (best : Option (Nat × MedicalRecord))
    (hj : rs[j]? = some (some r)) (hp : r.patient = patient) :
    ∃ y, latestFrom patient i rs best = some y := by
  induction rs generalizing i j best with
  | nil => simp at hj
  | cons d ds ih =>
    cases j with
    | zero =>
      simp only [List.getElem?_cons_zero, Option.some.injEq] at hj
      subst hj
      cases best with
      | none =>
        unfold latestFrom
        rw [if_pos hp]
        exact latestFrom_isSome_of_best _ _ _ _
      | some x =>
        exact latestFrom_isSome_of_best _ _ _ _
    | succ k =>
      simp only [List.getElem?_cons_succ] at hj
      cases d with
      | none => exact ih (i + 1) k best hj
      | some d =>
        unfold latestFrom
        split
        · split
          · split
            · exact ih (i + 1) k _ hj
            · exact ih (i + 1) k _ hj
          · exact ih (i + 1) k _ hj
        · exact ih (i + 1) k _ hj

/-- A patient with a stored record has a latest record. -/
theorem latestRecord_isSome (rs : List (Option MedicalRecord)) (patient : ObjectId) (j : Nat)
    (r : MedicalRecord) (hj : rs[j]? = some (some r)) (hp : r.patient = patient) :
    ∃ y, latestRecord rs patient = some y :=
  latestFrom_isSome patient rs 0 j r none hj hp

/-! ## The latest record of a patient -/

theorem latestFrom_spec (patient : ObjectId) (rs : List (Option MedicalRecord)) (i : Nat)
    (best : Option (Nat × MedicalRecord)) (k : Nat) (r : MedicalRecord)
    (h : latestFrom patient i rs best = some (k, r)) :
    (best = some (k, r) ∨ ∃ j, k = i + j ∧ rs[j]? = some (some r) ∧ r.patient = patient) ∧
    (∀ kb b, best = some (kb, b) → b.createdAt ≤ r.createdAt) ∧
    (∀ (j : Nat) (x : MedicalRecord), rs[j]? = some (some x) → x.patient = patient →
      x.createdAt ≤ r.createdAt) := by
  induction rs generalizing i best with
  | nil =>
    simp only [latestFrom] at h
    refine ⟨Or.inl h, ?_, ?_⟩
    · intro kb b hb
      rw [hb] at h
      cases h
      exact le_refl _
    · intro j x hj
      simp at hj
  | cons d ds ih =>
    have shift : ∀ (b2 : Option (Nat × MedicalRecord)),
        latestFrom patient (i + 1) ds b2 = some (k, r) →
        (b2 = some (k, r) ∨ ∃ j, k = i + 1 + j ∧ ds[j]? = some (some r) ∧ r.patient = patient) ∧
        (∀ kb b, b2 = some (kb, b) → b.createdAt ≤ r.createdAt) ∧
        (∀ (j : Nat) (x : MedicalRecord), ds[j]? = some (some x) → x.patient = patient →
          x.createdAt ≤ r.createdAt) := fun b2 h2 => ih (i + 1) b2 h2
    cases d with
    | none =>
      simp only [latestFrom] at h
      obtain ⟨h1, h2, h3⟩ := shift best h
      refine ⟨?_, h2, ?_⟩
      · rcases h1 with h1 | ⟨j, hk, hj, hp⟩
        · exact Or.inl h1
        · exact Or.inr ⟨j + 1, by omega, by simpa using hj, hp⟩
      · intro j x hj hp
        cases j with
        | zero => simp at hj
        | succ j => exact h3 j x (by simpa using hj) hp
    | some d =>
      unfold latestFrom at h
      by_cases hp : d.patient = patient
      · rw [if_pos hp] at h
        cases best with
        | none =>
          simp only [] at h
          obtain ⟨h1, h2, h3⟩ := shift _ h
          refine ⟨Or.inr ?_, ?_, ?_⟩
          · rcases h1 with h1 | ⟨j, hk, hj, hpr⟩
            · simp only [Option.some.injEq, Prod.mk.injEq] at h1
              exact ⟨0, by omega, by simp [h1.2], by rw [← h1.2]; exact hp⟩
            · exact ⟨j + 1, by omega, by simpa using hj, hpr⟩
          · intro kb b hb
            cases hb
          · intro j x hj hpx
            cases j with
            | zero =>
              simp only [List.getElem?_cons_zero, Option.some.injEq] at hj
              subst hj
              exact h2 i _ rfl
            | succ j => exact h3 j x (by simpa using hj) hpx
        | some kb =>
          obtain ⟨kb, b⟩ := kb
          simp only [] at h
          by_cases hc : b.createdAt < d.createdAt
          · rw [if_pos hc] at h
            obtain ⟨h1, h2, h3⟩ := shift _ h
            have hd : d.createdAt ≤ r.createdAt := h2 i d rfl
            refine ⟨Or.inr ?_, ?_, ?_⟩
            · rcases h1 with h1 | ⟨j, hk, hj, hpr⟩
              · simp only [Option.some.injEq, Prod.mk.injEq] at h1
                exact ⟨0, by omega, by simp [h1.2], by rw [← h1.2]; exact hp⟩
              · exact ⟨j + 1, by omega, by simpa using hj, hpr⟩
            · intro kb2 b2 hb
              simp only [Option.some.injEq, Prod.mk.injEq] at hb
              rw [← hb.2]
              exact le_trans (le_of_lt hc) hd
            · intro j x hj hpx
              cases j with
              | zero =>
                simp only [List.getElem?_cons_zero, Option.some.injEq] at hj
                subst hj
                exact hd
              | succ j => exact h3 j x (by simpa using hj) hpx
          · rw [if_neg hc] at h
            obtain ⟨h1, h2, h3⟩ := shift _ h
            have hb : b.createdAt ≤ r.createdAt := h2 kb b rfl
            refine ⟨?_, ?_, ?_⟩
            · rcases h1 with h1 | ⟨j, hk, hj, hpr⟩
              · exact Or.inl h1
              · exact Or.inr ⟨j + 1, by omega, by simpa using hj, hpr⟩
            · intro kb2 b2 hb2
              simp only [Option.some.injEq, Prod.mk.injEq] at hb2
              rw [← hb2.2]
              exact hb
            · intro j x hj hpx
              cases j with
              | zero =>
                simp only [List.getElem?_cons_zero, Option.some.injEq] at hj
                subst hj
                exact le_trans (not_lt.1 hc) hb
              | succ j => exact h3 j x (by simpa using hj) hpx
      · rw [if_neg hp] at h
        obtain ⟨h1, h2, h3⟩ := shift best h
        refine ⟨?_, h2, ?_⟩
        · rcases h1 with h1 | ⟨j, hk, hj, hpr⟩
          · exact Or.inl h1
          · exact Or.inr ⟨j + 1, by omega, by simpa using hj, hpr⟩
        · intro j x hj hpx
          cases j with
          | zero =>
            simp only [List.getElem?_cons_zero, Option.some.injEq] at hj
            subst hj
            exact absurd hpx hp
          | succ j => exact h3 j x (by simpa using hj) hpx

/-- The latest record is a stored record of the patient with the greatest `createdAt`. -/
theorem latestRecord_spec (rs : List (Option MedicalRecord)) (patient : ObjectId) (k : Nat)
    (r : MedicalRecord) (h : latestRecord rs patient = some (k, r)) :
    rs[k]? = some (some r) ∧ r.patient = patient ∧
    ∀ (j : Nat) (x : MedicalRecord), rs[j]? = some (some x) → x.patient = patient →
      x.createdAt ≤ r.createdAt := by
  obtain ⟨h1, _, h3⟩ := latestFrom_spec patient rs 0 none k r h
  rcases h1 with h1 | ⟨j, hk, hj, hp⟩
  · cases h1
  · have : k = j := by omega
    subst this
    exact ⟨hj, hp, h3⟩

/-- Without a stored record of the patient there is no latest record. -/
theorem latestRecord_eq_none (rs : List (Option MedicalRecord)) (patient : ObjectId)
    (h : ∀ (j : Nat) (x : MedicalRecord), rs[j]? = some (some x) → x.patient ≠ patient) :
    latestRecord rs patient = none := by
  cases hl : latestRecord rs patient with
  | none => rfl
  | some y =>
    obtain ⟨h1, h2, _⟩ := latestRecord_spec rs patient y.1 y.2 hl
    exact absurd h2 (h y.1 y.2 h1)

/-! ## Lemmas on listings -/

theorem mem_of_mem_skipLimit {α : Type} (skip limit : Nat) (docs : List α) (x : α)
    (h : x ∈ skipLimit skip limit docs) : x ∈ docs := by
  unfold skipLimit at h
  split_ifs at h
  · exact List.mem_of_mem_drop h
  · exact List.mem_of_mem_drop (List.mem_of_mem_take h)

/-- Every document of the sorted result is on some page. -/
theorem mem_skipLimit_some_page {α : Type} (limit : Nat) (docs : List α) (k : Nat) (x : α)
    (h : docs[k]? = some x) :
    ∃ page : Nat, 1 ≤ page ∧ x ∈ skipLimit ((page - 1) * limit) limit docs := by
  by_cases hl : limit = 0
  · refine ⟨1, le_refl _, ?_⟩
    subst hl
    simp only [skipLimit, if_true, Nat.mul_zero, List.drop_zero]
    exact List.getElem?_mem h
  · refine ⟨k / limit + 1, Nat.succ_le_succ (Nat.zero_le _), ?_⟩
    have hpos : 0 < limit := Nat.pos_of_ne_zero hl
    have hmod : k / limit * limit + k % limit = k := by
      rw [Nat.mul_comm]
      exact Nat.div_add_mod k limit
    have hlt : k % limit < limit := Nat.mod_lt _ hpos
    simp only [skipLimit, if_neg hl, Nat.add_sub_cancel]
    apply List.getElem?_mem (n := k % limit)
    rw [List.getElem?_take_of_lt hlt, List.getElem?_drop, hmod]
    exact h

theorem mem_recordsOf (rs : List (Option MedicalRecord)) (patient : ObjectId)
    (x : Nat × MedicalRecord) :
    x ∈ recordsOf rs patient ↔ rs[x.1]? = some (some x.2) ∧ x.2.patient = patient := by
  unfold recordsOf
  rw [List.mem_filterMap]
  constructor
  · rintro ⟨y, hy, hxy⟩
    have hget := List.mem_enum_iff_getElem?.1 hy
    obtain ⟨i, o⟩ := y
    cases o with
    | none => simp at hxy
    | some r =>
      simp only at hxy hget
      by_cases hp : r.patient = patient
      · rw [if_pos hp] at hxy
        cases hxy
        exact ⟨hget, hp⟩
      · rw [if_neg hp] at hxy
        cases hxy
  · rintro ⟨h1, h2⟩
    refine ⟨(x.1, some x.2), List.mem_enum_iff_getElem?.2 h1, ?_⟩
    simp only [h2, if_true]

/-! ## Shape of the handlers' results -/

theorem bookAppointment_result (db : Db) (req : BookReq) :
    ((bookAppointment db req).2 = db ∧ (bookAppointment db req).1.status ≠ 201) ∨
    ∃ doctorId date u, req.errors = [] ∧ req.body.doctorId = some doctorId ∧
      User.findOne db.users doctorId .doctor = some u ∧ req.body.date = some date ∧
      findOne db.appointments (fun _ a =>
        a.doctor = doctorId && a.date = date && a.time = req.body.time && a.active) = none ∧
      bookAppointment db req =
        (⟨201, .appointment "Appointment booked successfully" db.appointments.length
            (bookedAppointment req doctorId date)⟩,
          { db with appointments := db.appointments ++ [bookedAppointment req doctorId date] }) := by
  by_cases he : req.errors = []
  · have hE : (!req.errors.isEmpty) = false := by simp [he]
    cases hd : req.body.doctorId with
    | none =>
      left
      exact ⟨by simp only [bookAppointment, hE, hd, Bool.false_eq_true, if_false], by simp only [bookAppointment, hE, hd, Bool.false_eq_true, if_false]; decide⟩
    | some doctorId =>
      cases hu : User.findOne db.users doctorId .doctor with
      | none =>
        left
        exact ⟨by simp only [bookAppointment, hE, hd, hu, Bool.false_eq_true, if_false], by simp only [bookAppointment, hE, hd, hu, Bool.false_eq_true, if_false]; decide⟩
      | some u =>
        cases hdate : req.body.date with
        | none =>
          left
          exact ⟨by simp only [bookAppointment, hE, hd, hu, hdate, Bool.false_eq_true, if_false], by simp only [bookAppointment, hE, hd, hu, hdate, Bool.false_eq_true, if_false]; decide⟩
        | some date =>
          cases hf : findOne db.appointments (fun _ a =>
              a.doctor = doctorId && a.date = date && a.time = req.body.time && a.active) with
          | some x =>
            left
            exact ⟨by simp only [bookAppointment, hE, hd, hu, hdate, hf, Bool.false_eq_true, if_false], by simp only [bookAppointment, hE, hd, hu, hdate, hf, Bool.false_eq_true, if_false]; decide⟩
          | none =>
            right
            refine ⟨doctorId, date, u, he, rfl, hu, rfl, hf, ?_⟩
            simp only [bookAppointment, hE, hd, hu, hdate, hf, Bool.false_eq_true, if_false]
            rfl
  · left
    have hE : (!req.errors.isEmpty) = true := by
      cases h : req.errors with
      | nil => exact absurd h he
      | cons _ _ => rfl
    exact ⟨by simp only [bookAppointment, hE, if_true], by simp only [bookAppointment, hE, if_true]; decide⟩

theorem rescheduleAppointment_result (db : Db) (req : RescheduleReq) :
    ((rescheduleAppointment db req).2 = db ∧ (rescheduleAppointment db req).1.status ≠ 200) ∨
    ∃ id original newDate, req.id = some id ∧ db.appointments[id]? = some original ∧
      (original.doctor = req.user.id ∨ original.patient = req.user.id) ∧
      req.body.newDate = some newDate ∧
      findOne db.appointments (fun j a =>
        a.doctor = original.doctor && a.date = newDate && a.time = req.body.newTime
          && a.active && j ≠ id) = none ∧
      rescheduleAppointment db req =
        (⟨200, .appointment "Appointment rescheduled successfully" db.appointments.length
            (rescheduledAppointment original id newDate req.body.newTime)⟩,
          { db with
            appointments :=
              List.set
                (db.appointments ++ [rescheduledAppointment original id newDate req.body.newTime])
                id (cancelledOriginal original db.appointments.length) }) := by
  cases hid : req.id with
  | none =>
    left
    exact ⟨by simp only [rescheduleAppointment, hid], by simp only [rescheduleAppointment, hid]; decide⟩
  | some id =>
    cases ha : db.appointments[id]? with
    | none =>
      left
      exact ⟨by simp only [rescheduleAppointment, hid, ha], by simp only [rescheduleAppointment, hid, ha]; decide⟩
    | some original =>
      by_cases hacc : original.doctor ≠ req.user.id ∧ original.patient ≠ req.user.id
      · left
        exact ⟨by simp only [rescheduleAppointment, hid, ha, if_pos hacc], by simp only [rescheduleAppointment, hid, ha, if_pos hacc]; decide⟩
      · cases hdate : req.body.newDate with
        | none =>
          left
          exact ⟨by simp only [rescheduleAppointment, hid, ha, if_neg hacc, hdate], by simp only [rescheduleAppointment, hid, ha, if_neg hacc, hdate]; decide⟩
        | some newDate =>
          cases hf : findOne db.appointments (fun j a =>
              a.doctor = original.doctor && a.date = newDate && a.time = req.body.newTime
                && a.active && j ≠ id) with
          | some x =>
            left
            exact ⟨by simp only [rescheduleAppointment, hid, ha, if_neg hacc, hdate, hf], by simp only [rescheduleAppointment, hid, ha, if_neg hacc, hdate, hf]; decide⟩
          | none =>
            right
            refine ⟨id, original, newDate, rfl, ha, ?_, rfl, hf, ?_⟩
            · by_contra hne
              exact hacc ⟨fun h => hne (Or.inl h), fun h => hne (Or.inr h)⟩
            · simp only [rescheduleAppointment, hid, ha, if_neg hacc, hdate, hf]
              rfl

/-! ## Shape of the result of a vitals update -/

theorem updatePatientVitals_result (db : Db) (req : VitalsReq) :
    ((updatePatientVitals db req).2 = db ∧ (updatePatientVitals db req).1.status ≠ 200) ∨
    (∃ (patientId id : ObjectId) (r : MedicalRecord),
      req.errors = [] ∧ req.patientId = some patientId ∧ vitalsRangeError req.body = none ∧
      ¬ (req.user.role = .patient ∧ req.user.id ≠ patientId) ∧
      latestRecord db.medicalRecords patientId = some (id, r) ∧
      updatePatientVitals db req =
        (⟨200, .medicalRecord "Patient vitals updated successfully" id
            (recordWithVitals r req.body req.now)⟩,
          { db with
            medicalRecords :=
              db.medicalRecords.set id (some (recordWithVitals r req.body req.now)) })) ∨
    (∃ patientId : ObjectId,
      req.errors = [] ∧ req.patientId = some patientId ∧ vitalsRangeError req.body = none ∧
      latestRecord db.medicalRecords patientId = none ∧ req.user.role = .doctor ∧
      updatePatientVitals db req =
        (⟨200, .medicalRecord "Patient vitals updated successfully" db.medicalRecords.length
            (createdVitalsRecord patientId req.user.id req.body req.now)⟩,
          { db with
            medicalRecords :=
              db.medicalRecords ++
                [some (createdVitalsRecord patientId req.user.id req.body req.now)] })) := by
  by_cases he : req.errors = []
  swap
  · left
    have hE : (!req.errors.isEmpty) = true := by
      cases h : req.errors with
      | nil => exact absurd h he
      | cons _ _ => rfl
    exact ⟨by simp only [updatePatientVitals, hE, if_true],
      by simp only [updatePatientVitals, hE, if_true]; decide⟩
  have hE : (!req.errors.isEmpty) = false := by simp [he]
  cases hpid : req.patientId with
  | none =>
    left
    exact ⟨by simp only [updatePatientVitals, hE, hpid, Bool.false_eq_true, if_false],
      by simp only [updatePatientVitals, hE, hpid, Bool.false_eq_true, if_false]; decide⟩
  | some patientId =>
    by_cases hauth : req.user.role = .patient ∧ req.user.id ≠ patientId
    · left
      exact ⟨by simp only [updatePatientVitals, hE, hpid, Bool.false_eq_true, if_false,
          if_pos hauth],
        by simp only [updatePatientVitals, hE, hpid, Bool.false_eq_true, if_false,
          if_pos hauth]; decide⟩
    cases hu : User.findOne db.users patientId .patient with
    | none =>
      left
      exact ⟨by simp only [updatePatientVitals, hE, hpid, Bool.false_eq_true, if_false,
          if_neg hauth, hu],
        by simp only [updatePatientVitals, hE, hpid, Bool.false_eq_true, if_false,
          if_neg hauth, hu]; decide⟩
    | some u =>
      by_cases hany : (!req.body.weight.truthy && !req.body.height.truthy
          && !req.body.heartRate.truthy && !req.body.bloodPressure.isSome
          && !req.body.temperature.truthy) = true
      · left
        exact ⟨by simp only [updatePatientVitals, hE, hpid, Bool.false_eq_true, if_false,
            if_neg hauth, hu, hany, if_true],
          by simp only [updatePatientVitals, hE, hpid, Bool.false_eq_true, if_false,
            if_neg hauth, hu, hany, if_true]; decide⟩
      cases hm : vitalsRangeError req.body with
      | some message =>
        left
        exact ⟨by simp only [updatePatientVitals, hE, hpid, Bool.false_eq_true, if_false,
            if_neg hauth, hu, hany, hm],
          by simp only [updatePatientVitals, hE, hpid, Bool.false_eq_true, if_false,
            if_neg hauth, hu, hany, hm]; decide⟩
      | none =>
        cases hl : latestRecord db.medicalRecords patientId with
        | some y =>
          right
          left
          obtain ⟨id, r⟩ := y
          refine ⟨patientId, id, r, he, rfl, rfl, hauth, hl, ?_⟩
          simp only [updatePatientVitals, hE, hpid, Bool.false_eq_true, if_false,
            if_neg hauth, hu, hany, hm, hl]
          rfl
        | none =>
          by_cases hrole : req.user.role = .doctor
          · right
            right
            refine ⟨patientId, he, rfl, rfl, hl, hrole, ?_⟩
            simp only [updatePatientVitals, hE, hpid, Bool.false_eq_true, if_false,
              if_neg hauth, hu, hany, hm, hl, if_pos hrole]
            rfl
          · left
            exact ⟨by simp only [updatePatientVitals, hE, hpid, Bool.false_eq_true, if_false,
                if_neg hauth, hu, hany, hm, hl, if_neg hrole],
              by simp only [updatePatientVitals, hE, hpid, Bool.false_eq_true, if_false,
                if_neg hauth, hu, hany, hm, hl, if_neg hrole]; decide⟩

/-- A value that passes the presence test is written with its unit and the
request's instant. -/
theorem writeVital_of_supplied (v : JsVal) (unit : String) (now : Date)
    (old : Option Measurement) (q : ℚ) (h : v.number? = some q) :
    writeVital v unit now old = some { value := q, unit := unit, date := now } := by
  cases v with
  | undefined => simp [JsVal.number?] at h
  | null => simp [JsVal.number?] at h
  | emptyStr => simp [JsVal.number?] at h
  | numStr x =>
    simp only [JsVal.number?, Option.some.injEq] at h
    subst h
    rfl
  | num x =>
    simp only [JsVal.number?, Option.some.injEq] at h
    subst h
    rfl

/-- A value that is not supplied leaves the stored vital as it was. -/
theorem writeVital_of_missing (v : JsVal) (unit : String) (now : Date)
    (old : Option Measurement) (h : v.number? = none) : writeVital v unit now old = old := by
  cases v with
  | undefined => rfl
  | null => rfl
  | emptyStr => rfl
  | numStr x => simp [JsVal.number?] at h
  | num x => simp [JsVal.number?] at h

theorem truthy_false_of_missing (v : JsVal) (h : v.number? = none) : v.truthy = false := by
  cases v with
  | undefined => rfl
  | null => rfl
  | emptyStr => rfl
  | numStr x => simp [JsVal.number?] at h
  | num x => simp [JsVal.number?] at h

/-- Without a blood pressure carrying both components the stored one is kept. -/
theorem writeBloodPressure_of_missing (bp : Option BloodPressureBody) (now : Date)
    (old : Option BloodPressure)
    (h : ∀ b, bp = some b → b.systolic.number? = none ∨ b.diastolic.number? = none) :
    writeBloodPressure bp now old = old := by
  cases bp with
  | none => rfl
  | some b =>
    have hb : (b.systolic.truthy && b.diastolic.truthy) = false := by
      rcases h b rfl with h1 | h1
      · simp [truthy_false_of_missing _ h1]
      · simp [truthy_false_of_missing _ h1]
    simp only [writeBloodPressure, hb, Bool.false_eq_true, if_false]

/-- A blood pressure whose two components are supplied and not the number 0 is
written with the request's instant. -/
theorem writeBloodPressure_of_supplied (b : BloodPressureBody) (now : Date)
    (old : Option BloodPressure) (s d : ℚ) (hs : b.systolic.number? = some s)
    (hd : b.diastolic.number? = some d) (hs0 : b.systolic ≠ .num 0)
    (hd0 : b.diastolic ≠ .num 0) :
    writeBloodPressure (some b) now old = some { systolic := s, diastolic := d, date := now } := by
  obtain ⟨sys, dia⟩ := b
  simp only at hs hd hs0 hd0
  cases sys with
  | undefined => simp [JsVal.number?] at hs
  | null => simp [JsVal.number?] at hs
  | emptyStr => simp [JsVal.number?] at hs
  | numStr x =>
    simp only [JsVal.number?, Option.some.injEq] at hs
    subst hs
    cases dia with
    | undefined => simp [JsVal.number?] at hd
    | null => simp [JsVal.number?] at hd
    | emptyStr => simp [JsVal.number?] at hd
    | numStr y =>
      simp only [JsVal.number?, Option.some.injEq] at hd
      subst hd
      simp [writeBloodPressure, JsVal.truthy, JsVal.toNumber]
    | num y =>
      simp only [JsVal.number?, Option.some.injEq] at hd
      subst hd
      have hy : y ≠ 0 := fun hy => hd0 (by rw [hy])
      simp [writeBloodPressure, JsVal.truthy, JsVal.toNumber, hy]
  | num x =>
    simp only [JsVal.number?, Option.some.injEq] at hs
    subst hs
    have hx : x ≠ 0 := fun hx => hs0 (by rw [hx])
    cases dia with
    | undefined => simp [JsVal.number?] at hd
    | null => simp [JsVal.number?] at hd
    | emptyStr => simp [JsVal.number?] at hd
    | numStr y =>
      simp only [JsVal.number?, Option.some.injEq] at hd
      subst hd
      simp [writeBloodPressure, JsVal.truthy, JsVal.toNumber, hx]
    | num y =>
      simp only [JsVal.number?, Option.some.injEq] at hd
      subst hd
      have hy : y ≠ 0 := fun hy => hd0 (by rw [hy])
      simp [writeBloodPressure, JsVal.truthy, JsVal.toNumber, hx, hy]

/-- A create request either leaves the database as it is or appends one record. -/
theorem createMedicalRecord_result (db : Db) (req : CreateRecordReq) :
    ((createMedicalRecord db req).2 = db ∧ (createMedicalRecord db req).1.status ≠ 201) ∨
    ∃ m : MedicalRecord,
      (createMedicalRecord db req).2 =
        { db with medicalRecords := db.medicalRecords ++ [some m] } ∧
      (createMedicalRecord db req).1 =
        ⟨201, .medicalRecord "Medical record created successfully" db.medicalRecords.length m⟩ ∧
      ∃ patientId patient, req.errors = [] ∧ req.patientId = some patientId ∧
        db.users[patientId]? = some patient ∧ patient.role = .patient ∧
        m = newMedicalRecord patientId req.user.id req.appointmentId.join req.body req.now ∧
        (∀ id, req.appointmentId.join = some id → ∃ a, db.appointments[id]? = some a) := by
  by_cases he : (!req.errors.isEmpty) = true
  · left
    exact ⟨by simp only [createMedicalRecord, he, if_true],
      by simp only [createMedicalRecord, he, if_true]; decide⟩
  have hE : req.errors = [] := by
    cases h : req.errors with
    | nil => rfl
    | cons _ _ => simp [h] at he
  have he : (!req.errors.isEmpty) = false := by simp [hE]
  cases hp : req.patientId with
  | none =>
    left
    exact ⟨by simp only [createMedicalRecord, he, Bool.false_eq_true, if_false, hp],
      by simp only [createMedicalRecord, he, Bool.false_eq_true, if_false, hp]; decide⟩
  | some patientId =>
    cases hu : User.findOne db.users patientId .patient with
    | none =>
      left
      exact ⟨by simp only [createMedicalRecord, he, Bool.false_eq_true, if_false, hp, hu],
        by simp only [createMedicalRecord, he, Bool.false_eq_true, if_false, hp, hu]; decide⟩
    | some patient =>
      have hpat := (User.findOne_eq_some_iff _ _ _ _).1 hu
      by_cases hbad : req.appointmentId = some none
      · left
        exact ⟨by simp only [createMedicalRecord, he, Bool.false_eq_true, if_false, hp, hu, hbad],
          by simp only [createMedicalRecord, he, Bool.false_eq_true, if_false, hp, hu, hbad]; decide⟩
      have hshape : createMedicalRecord db req =
          (if (match req.appointmentId.join with
              | some id => db.appointments[id]?.isNone
              | none => false) then
            (⟨404, .message "Appointment not found"⟩, db)
          else if !(req.body.medicalHistory.getD []).all HistoryEntry.valid then
            (⟨500, .message "Server error"⟩, db)
          else
            (⟨201, .medicalRecord "Medical record created successfully"
                db.medicalRecords.length
                (newMedicalRecord patientId req.user.id req.appointmentId.join req.body
                  req.now)⟩,
              { db with
                medicalRecords :=
                  db.medicalRecords ++
                    [some (newMedicalRecord patientId req.user.id req.appointmentId.join
                      req.body req.now)] })) := by
        simp only [createMedicalRecord, he, Bool.false_eq_true, if_false, hp, hu]
      rw [hshape]
      by_cases h404 : (match req.appointmentId.join with
          | some id => db.appointments[id]?.isNone
          | none => false) = true
      · left
        rw [if_pos h404]
        exact ⟨rfl, by simp⟩
      · rw [if_neg h404]
        by_cases hval : (!(req.body.medicalHistory.getD []).all HistoryEntry.valid) = true
        · left
          rw [if_pos hval]
          exact ⟨rfl, by simp⟩
        · right
          rw [if_neg hval]
          refine ⟨_, rfl, rfl, patientId, patient, hE, rfl, hpat.1, hpat.2, rfl, ?_⟩
          intro id hid
          rw [hid] at h404
          simp only [Option.isNone_iff_eq_none] at h404
          cases ha : db.appointments[id]? with
          | none => exact absurd ha h404
          | some a => exact ⟨a, rfl⟩

/-! ## Status update by the appointment's doctor -/

theorem statusUpdated_fields (a : Appointment) (st : Status) (b : StatusBody) :
    (statusUpdated a st b).status = st ∧ (statusUpdated a st b).doctor = a.doctor ∧
    (statusUpdated a st b).patient = a.patient ∧ (statusUpdated a st b).date = a.date ∧
    (statusUpdated a st b).time = a.time := by
  unfold statusUpdated
  cases b.followUpDate with
  | none => simp only []; split_ifs <;> exact ⟨rfl, rfl, rfl, rfl, rfl⟩
  | some d =>
    cases d with
    | none => simp only []; split_ifs <;> exact ⟨rfl, rfl, rfl, rfl, rfl⟩
    | some d => simp only []; split_ifs <;> exact ⟨rfl, rfl, rfl, rfl, rfl⟩

/-- A status update by the doctor of the appointment is never answered 403: it
fails with 500 when `save()` rejects the document and is applied otherwise. -/
theorem updateAppointmentStatus_owner (db : Db) (req : StatusReq) (id : ObjectId)
    (a : Appointment) (hid : req.id = some id) (ha : db.appointments[id]? = some a)
    (hown : a.doctor = req.user.id) :
    (updateAppointmentStatus db req = (⟨500, .message "Server error"⟩, db) ∧
      (Status.ofString? req.body.status = none ∨ req.body.followUpDate = some none)) ∨
    ∃ st : Status,
      Status.ofString? req.body.status = some st ∧ req.body.followUpDate ≠ some none ∧
      updateAppointmentStatus db req =
        (⟨200, .appointment "Appointment status updated successfully" id
            (statusUpdated a st req.body)⟩,
          { db with appointments := db.appointments.set id (statusUpdated a st req.body) }) := by
  have hacc : ¬ (a.doctor ≠ req.user.id) := fun h => h hown
  cases hst : Status.ofString? req.body.status with
  | none =>
    left
    exact ⟨by simp only [updateAppointmentStatus, hid, ha, if_neg hacc, hst], Or.inl rfl⟩
  | some st =>
    by_cases hbad : req.body.followUpDate = some none
    · left
      exact ⟨by simp only [updateAppointmentStatus, hid, ha, if_neg hacc, hst, hbad],
        Or.inr hbad⟩
    · right
      refine ⟨st, rfl, hbad, ?_⟩
      simp only [updateAppointmentStatus, hid, ha, if_neg hacc, hst, statusUpdated]

/-! ## Slot uniqueness is preserved by booking, rescheduling and cancelling -/

theorem getElem?_append_singleton_cases {α : Type} (as : List α) (n : α) (i : Nat) (a : α)
    (h : (as ++ [n])[i]? = some a) :
    (i < as.length ∧ as[i]? = some a) ∨ (i = as.length ∧ a = n) := by
  rcases Nat.lt_trichotomy i as.length with hlt | heq | hgt
  · left
    rw [List.getElem?_append_left hlt] at h
    exact ⟨hlt, h⟩
  · right
    subst heq
    simp at h
    exact ⟨rfl, h.symm⟩
  · exfalso
    have : (as ++ [n])[i]? = none := by
      apply List.getElem?_eq_none
      simp
      omega
    rw [this] at h
    cases h

theorem getElem?_set_cases {α : Type} (as : List α) (id : Nat) (x : α) (i : Nat) (a : α)
    (h : (as.set id x)[i]? = some a) :
    (i = id ∧ a = x) ∨ (i ≠ id ∧ as[i]? = some a) := by
  by_cases hi : i = id
  · left
    subst hi
    refine ⟨rfl, ?_⟩
    rw [List.getElem?_set_self'] at h
    cases hi : as[i]? with
    | none => simp [hi] at h
    | some v =>
      simp [hi] at h
      exact h.symm
  · right
    refine ⟨hi, ?_⟩
    rwa [List.getElem?_set_ne (fun h' => hi h'.symm)] at h

theorem slotUnique_append (as : List Appointment) (n : Appointment) (h : SlotUnique as)
    (hn : ∀ (j : Nat) (a : Appointment), as[j]? = some a → a.active = true →
      ¬ (a.doctor = n.doctor ∧ a.date = n.date ∧ a.time = n.time)) :
    SlotUnique (as ++ [n]) := by
  intro i j a b hi hj hij ha hb
  rcases getElem?_append_singleton_cases as n i a hi with ⟨_, hi1⟩ | ⟨hi1, hi2⟩
  · rcases getElem?_append_singleton_cases as n j b hj with ⟨_, hj1⟩ | ⟨hj1, hj2⟩
    · exact h i j a b hi1 hj1 hij ha hb
    · subst hj2
      exact hn i a hi1 ha
  · rcases getElem?_append_singleton_cases as n j b hj with ⟨_, hj1⟩ | ⟨hj1, hj2⟩
    · subst hi2
      intro hc
      exact hn j b hj1 hb ⟨hc.1.symm, hc.2.1.symm, hc.2.2.symm⟩
    · exact absurd (hi1.trans hj1.symm) hij

theorem slotUnique_set_inactive (as : List Appointment) (id : Nat) (x : Appointment)
    (h : SlotUnique as) (hx : x.active = false) : SlotUnique (as.set id x) := by
  intro i j a b hi hj hij ha hb
  rcases getElem?_set_cases as id x i a hi with ⟨_, rfl⟩ | ⟨_, hi1⟩
  · rw [hx] at ha
    cases ha
  · rcases getElem?_set_cases as id x j b hj with ⟨_, rfl⟩ | ⟨_, hj1⟩
    · rw [hx] at hb
      cases hb
    · exact h i j a b hi1 hj1 hij ha hb

theorem slotUnique_reschedule (as : List Appointment) (id : Nat) (x n : Appointment)
    (h : SlotUnique as) (hx : x.active = false)
    (hn : ∀ (j : Nat) (a : Appointment), as[j]? = some a → j ≠ id → a.active = true →
      ¬ (a.doctor = n.doctor ∧ a.date = n.date ∧ a.time = n.time)) :
    SlotUnique ((as ++ [n]).set id x) := by
  intro i j a b hi hj hij ha hb
  rcases getElem?_set_cases _ id x i a hi with ⟨_, rfl⟩ | ⟨hid, hi1⟩
  · rw [hx] at ha
    cases ha
  · rcases getElem?_set_cases _ id x j b hj with ⟨_, rfl⟩ | ⟨hjd, hj1⟩
    · rw [hx] at hb
      cases hb
    · rcases getElem?_append_singleton_cases as n i a hi1 with ⟨_, hi2⟩ | ⟨hi2, hi3⟩
      · rcases getElem?_append_singleton_cases as n j b hj1 with ⟨_, hj2⟩ | ⟨hj2, hj3⟩
        · exact h i j a b hi2 hj2 hij ha hb
        · subst hj3
          exact hn i a hi2 hid ha
      · rcases getElem?_append_singleton_cases as n j b hj1 with ⟨_, hj2⟩ | ⟨hj2, hj3⟩
        · subst hi3
          intro hc
          exact hn j b hj2 hjd hb ⟨hc.1.symm, hc.2.1.symm, hc.2.2.symm⟩
        · exact absurd (hi2.trans hj2.symm) hij

theorem bookAppointment_slotUnique (db : Db) (req : BookReq) (h : SlotUnique db.appointments) :
    SlotUnique (bookAppointment db req).2.appointments := by
  rcases bookAppointment_result db req with ⟨hsame, _⟩ | ⟨doctorId, date, u, _, _, _, _, hf, hres⟩
  · rw [hsame]
    exact h
  · rw [hres]
    apply slotUnique_append _ _ h
    intro j a hj ha hc
    have := (findOne_eq_none _ _).1 hf j a hj
    simp [bookedAppointment] at hc
    simp [hc.1, hc.2.1, hc.2.2, ha] at this

theorem rescheduleAppointment_slotUnique (db : Db) (req : RescheduleReq)
    (h : SlotUnique db.appointments) :
    SlotUnique (rescheduleAppointment db req).2.appointments := by
  rcases rescheduleAppointment_result db req with
    ⟨hsame, _⟩ | ⟨id, original, newDate, _, _, _, _, hf, hres⟩
  · rw [hsame]
    exact h
  · rw [hres]
    apply slotUnique_reschedule _ _ _ _ h
    · simp [cancelledOriginal, Appointment.active]
    · intro j a hj hne ha hc
      have := (findOne_eq_none _ _).1 hf j a hj
      simp [rescheduledAppointment] at hc
      simp [hc.1, hc.2.1, hc.2.2, ha, hne] at this

theorem cancelAppointment_slotUnique (db : Db) (req : CancelReq)
    (h : SlotUnique db.appointments) :
    SlotUnique (cancelAppointment db req).2.appointments := by
  unfold cancelAppointment
  split
  · exact h
  · split
    · exact h
    · split
      · exact h
      · exact slotUnique_set_inactive _ _ _ h (by simp [Appointment.active])

/-! ## Slot uniqueness over request sequences -/

theorem step_slotUnique (db : Db) (r : Request) (hr : r.isStatusUpdate = false)
    (h : SlotUnique db.appointments) : SlotUnique (step db r).appointments := by
  cases r with
  | book req => exact bookAppointment_slotUnique db req h
  | updateStatus req => cases hr
  | reschedule req => exact rescheduleAppointment_slotUnique db req h
  | cancel req => exact cancelAppointment_slotUnique db req h

theorem run_slotUnique (reqs : List Request) (db : Db)
    (hr : ∀ r ∈ reqs, r.isStatusUpdate = false) (h : SlotUnique db.appointments) :
    SlotUnique (run db reqs).appointments := by
  induction reqs generalizing db with
  | nil => exact h
  | cons r rs ih =>
    have h1 := step_slotUnique db r (hr r (by simp)) h
    exact ih (step db r) (fun q hq => hr q (by simp [hq])) h1

theorem slotUnique_singleton (a : Appointment) : SlotUnique [a] := by
  intro i j x y hi hj hij _ _
  have hi0 : i = 0 := by
    cases i with
    | zero => rfl
    | succ k => simp at hi
  have hj0 : j = 0 := by
    cases j with
    | zero => rfl
    | succ k => simp at hj
  exact absurd (hi0.trans hj0.symm) hij

/-! ## Reschedule links over request sequences -/

theorem links_eq_iff (a b : Appointment) :
    a.links = b.links ↔
      a.rescheduledFrom = b.rescheduledFrom ∧ a.rescheduledTo = b.rescheduledTo := by
  simp [Appointment.links]

theorem getElem?_map_links_elim (as : List Appointment) (i : Nat) (B : Appointment)
    (as2 : List Appointment)
    (h : ∀ j : Nat, (as2[j]?).map Appointment.links = (as[j]?).map Appointment.links)
    (hB : as2[i]? = some B) :
    ∃ A : Appointment, as[i]? = some A ∧ A.rescheduledFrom = B.rescheduledFrom ∧
      A.rescheduledTo = B.rescheduledTo := by
  have := h i
  rw [hB] at this
  cases hA : as[i]? with
  | none =>
    rw [hA] at this
    cases this
  | some A =>
    rw [hA] at this
    simp only [Option.map_some', Option.some.injEq] at this
    exact ⟨A, rfl, ((links_eq_iff _ _).1 this.symm)⟩

theorem links_congr (as as2 : List Appointment)
    (h : ∀ j : Nat, (as2[j]?).map Appointment.links = (as[j]?).map Appointment.links)
    (hb : LinksBack as) (hf : LinksForward as) : LinksBack as2 ∧ LinksForward as2 := by
  have h2 : ∀ j : Nat, (as[j]?).map Appointment.links = (as2[j]?).map Appointment.links :=
    fun j => (h j).symm
  constructor
  · intro a n A2 hA2 hto
    obtain ⟨A, hA, _, hAt⟩ := getElem?_map_links_elim as a A2 as2 h hA2
    obtain ⟨N, hN, hNf⟩ := hb a n A hA (by rw [hAt, hto])
    obtain ⟨N2, hN2, hN2f, _⟩ := getElem?_map_links_elim as2 n N as h2 hN
    exact ⟨N2, hN2, by rw [hN2f, hNf]⟩
  · intro n a N2 hN2 hfrom
    obtain ⟨N, hN, hNf, _⟩ := getElem?_map_links_elim as n N2 as2 h hN2
    obtain ⟨A, m, hA, hAt, hle⟩ := hf n a N hN (by rw [hNf, hfrom])
    obtain ⟨A2, hA2, _, hA2t⟩ := getElem?_map_links_elim as2 a A as h2 hA
    exact ⟨A2, m, hA2, by rw [hA2t, hAt], hle⟩

theorem set_links_same (as : List Appointment) (id : Nat) (a0 x : Appointment)
    (h0 : as[id]? = some a0) (hx : x.links = a0.links) (j : Nat) :
    ((as.set id x)[j]?).map Appointment.links = (as[j]?).map Appointment.links := by
  have hlt : id < as.length := by
    by_contra hge
    rw [List.getElem?_eq_none (Nat.le_of_not_lt hge)] at h0
    cases h0
  by_cases hj : j = id
  · subst hj
    rw [List.getElem?_set_self hlt, h0]
    simp [hx]
  · rw [List.getElem?_set_ne (fun h => hj h.symm)]

theorem links_append_unlinked (as : List Appointment) (n : Appointment)
    (hn1 : n.rescheduledFrom = none) (hn2 : n.rescheduledTo = none)
    (hb : LinksBack as) (hf : LinksForward as) :
    LinksBack (as ++ [n]) ∧ LinksForward (as ++ [n]) := by
  have hup : ∀ (i : Nat) (B : Appointment), as[i]? = some B → (as ++ [n])[i]? = some B := by
    intro i B hB
    have hlt : i < as.length := by
      by_contra hge
      rw [List.getElem?_eq_none (Nat.le_of_not_lt hge)] at hB
      cases hB
    rw [List.getElem?_append_left hlt]
    exact hB
  constructor
  · intro a k A hA hto
    rcases getElem?_append_singleton_cases as n a A hA with ⟨_, hA1⟩ | ⟨_, hA2⟩
    · obtain ⟨N, hN, hNf⟩ := hb a k A hA1 hto
      exact ⟨N, hup k N hN, hNf⟩
    · subst hA2
      rw [hn2] at hto
      cases hto
  · intro k a N hN hfrom
    rcases getElem?_append_singleton_cases as n k N hN with ⟨_, hN1⟩ | ⟨_, hN2⟩
    · obtain ⟨A, m, hA, hAt, hle⟩ := hf k a N hN1 hfrom
      exact ⟨A, m, hup a A hA, hAt, hle⟩
    · subst hN2
      rw [hn1] at hfrom
      cases hfrom

theorem links_reschedule (as : List Appointment) (id : Nat) (A N : Appointment)
    (hA : as[id]? = some A) (hN1 : N.rescheduledFrom = some id)
    (hN2 : N.rescheduledTo = none) (hb : LinksBack as) (hf : LinksForward as) :
    LinksBack ((as ++ [N]).set id (cancelledOriginal A as.length)) ∧
    LinksForward ((as ++ [N]).set id (cancelledOriginal A as.length)) := by
  have hlt : id < as.length := by
    by_contra hge
    rw [List.getElem?_eq_none (Nat.le_of_not_lt hge)] at hA
    cases hA
  have hlt2 : id < (as ++ [N]).length := by
    rw [List.length_append]
    exact Nat.lt_add_right _ hlt
  have hself : ((as ++ [N]).set id (cancelledOriginal A as.length))[id]? =
      some (cancelledOriginal A as.length) := List.getElem?_set_self hlt2
  have hnew : ((as ++ [N]).set id (cancelledOriginal A as.length))[as.length]? = some N := by
    rw [List.getElem?_set_ne (Nat.ne_of_lt hlt)]
    simp
  have hold : ∀ (i : Nat) (B : Appointment), i ≠ id → as[i]? = some B →
      ((as ++ [N]).set id (cancelledOriginal A as.length))[i]? = some B := by
    intro i B hi hB
    have hil : i < as.length := by
      by_contra hge
      rw [List.getElem?_eq_none (Nat.le_of_not_lt hge)] at hB
      cases hB
    rw [List.getElem?_set_ne (fun h => hi h.symm), List.getElem?_append_left hil]
    exact hB
  have hcases : ∀ (i : Nat) (B : Appointment),
      ((as ++ [N]).set id (cancelledOriginal A as.length))[i]? = some B →
      (i = id ∧ B = cancelledOriginal A as.length) ∨ (i ≠ id ∧ i < as.length ∧ as[i]? = some B) ∨
      (i = as.length ∧ B = N) := by
    intro i B hB
    rcases getElem?_set_cases _ id _ i B hB with ⟨h1, h2⟩ | ⟨h1, h2⟩
    · exact Or.inl ⟨h1, h2⟩
    · rcases getElem?_append_singleton_cases as N i B h2 with ⟨h3, h4⟩ | ⟨h3, h4⟩
      · exact Or.inr (Or.inl ⟨h1, h3, h4⟩)
      · exact Or.inr (Or.inr ⟨h3, h4⟩)
  -- the stored element at an old position keeps its `rescheduledFrom`
  have hfromAt : ∀ (i : Nat) (B : Appointment), as[i]? = some B →
      ∃ B2, ((as ++ [N]).set id (cancelledOriginal A as.length))[i]? = some B2 ∧
        B2.rescheduledFrom = B.rescheduledFrom := by
    intro i B hB
    by_cases hi : i = id
    · subst hi
      rw [hA] at hB
      cases hB
      exact ⟨_, hself, rfl⟩
    · exact ⟨B, hold i B hi hB, rfl⟩
  constructor
  · intro a k B hB hto
    rcases hcases a B hB with ⟨h1, h2⟩ | ⟨h1, _, h3⟩ | ⟨_, h2⟩
    · subst h1
      subst h2
      simp only [cancelledOriginal, Option.some.injEq] at hto
      subst hto
      exact ⟨N, hnew, hN1⟩
    · obtain ⟨M, hM, hMf⟩ := hb a k B h3 hto
      obtain ⟨M2, hM2, hM2f⟩ := hfromAt k M hM
      exact ⟨M2, hM2, by rw [hM2f, hMf]⟩
    · subst h2
      rw [hN2] at hto
      cases hto
  · intro k a B hB hfrom
    have hto : ∀ (i : Nat) (C : Appointment) (m : Nat), as[i]? = some C →
        C.rescheduledTo = some m → k ≤ m → k ≤ as.length →
        ∃ (C2 : Appointment) (m2 : Nat),
          ((as ++ [N]).set id (cancelledOriginal A as.length))[i]? = some C2 ∧
          C2.rescheduledTo = some m2 ∧ k ≤ m2 := by
      intro i C m hC hCt hle hk
      by_cases hi : i = id
      · subst hi
        exact ⟨_, as.length, hself, rfl, hk⟩
      · exact ⟨C, m, hold i C hi hC, hCt, hle⟩
    rcases hcases k B hB with ⟨h1, h2⟩ | ⟨_, h2, h3⟩ | ⟨h1, h2⟩
    · subst h1
      subst h2
      have hAf : A.rescheduledFrom = some a := hfrom
      obtain ⟨C, m, hC, hCt, hle⟩ := hf k a A hA hAf
      exact hto a C m hC hCt hle (Nat.le_of_lt hlt)
    · obtain ⟨C, m, hC, hCt, hle⟩ := hf k a B h3 hfrom
      exact hto a C m hC hCt hle (Nat.le_of_lt h2)
    · subst h2
      rw [hN1] at hfrom
      cases hfrom
      exact ⟨_, as.length, hself, rfl, Nat.le_of_eq h1⟩

theorem statusUpdated_links (a : Appointment) (st : Status) (b : StatusBody) :
    (statusUpdated a st b).links = a.links := by
  unfold statusUpdated
  cases b.followUpDate with
  | none => simp only []; split_ifs <;> rfl
  | some d =>
    cases d with
    | none => simp only []; split_ifs <;> rfl
    | some d => simp only []; split_ifs <;> rfl

theorem updateAppointmentStatus_links (db : Db) (req : StatusReq) (j : Nat) :
    ((updateAppointmentStatus db req).2.appointments[j]?).map Appointment.links =
      (db.appointments[j]?).map Appointment.links := by
  cases hid : req.id with
  | none => simp only [updateAppointmentStatus, hid]
  | some id =>
    cases ha : db.appointments[id]? with
    | none => simp only [updateAppointmentStatus, hid, ha]
    | some a =>
      by_cases hacc : a.doctor ≠ req.user.id
      · simp only [updateAppointmentStatus, hid, ha, if_pos hacc]
      · rcases updateAppointmentStatus_owner db req id a hid ha (not_not.1 hacc) with
          ⟨h500, _⟩ | ⟨st, _, _, hres⟩
        · rw [h500]
        · rw [hres]
          exact set_links_same _ _ a _ ha (statusUpdated_links a st req.body) j

theorem cancelAppointment_links (db : Db) (req : CancelReq) (j : Nat) :
    ((cancelAppointment db req).2.appointments[j]?).map Appointment.links =
      (db.appointments[j]?).map Appointment.links := by
  cases hid : req.id with
  | none => simp only [cancelAppointment, hid]
  | some id =>
    cases ha : db.appointments[id]? with
    | none => simp only [cancelAppointment, hid, ha]
    | some a =>
      by_cases hacc : a.doctor ≠ req.user.id ∧ a.patient ≠ req.user.id
      · simp only [cancelAppointment, hid, ha, if_pos hacc]
      · simp only [cancelAppointment, hid, ha, if_neg hacc]
        exact set_links_same db.appointments id a { a with status := .cancelled } ha rfl j

theorem step_links (db : Db) (r : Request) (hb : LinksBack db.appointments)
    (hf : LinksForward db.appointments) :
    LinksBack (step db r).appointments ∧ LinksForward (step db r).appointments := by
  cases r with
  | book req =>
    rcases bookAppointment_result db req with ⟨hsame, _⟩ | ⟨doctorId, date, _, _, _, _, _, _, hres⟩
    · simp only [step, hsame]
      exact ⟨hb, hf⟩
    · simp only [step, hres]
      exact links_append_unlinked _ _ rfl rfl hb hf
  | updateStatus req =>
    exact links_congr _ _ (updateAppointmentStatus_links db req) hb hf
  | reschedule req =>
    rcases rescheduleAppointment_result db req with
      ⟨hsame, _⟩ | ⟨id, original, newDate, _, hor, _, _, _, hres⟩
    · simp only [step, hsame]
      exact ⟨hb, hf⟩
    · simp only [step, hres]
      exact links_reschedule _ _ _ _ hor rfl rfl hb hf
  | cancel req =>
    exact links_congr _ _ (cancelAppointment_links db req) hb hf

theorem run_links (reqs : List Request) (db : Db) (hb : LinksBack db.appointments)
    (hf : LinksForward db.appointments) :
    LinksBack (run db reqs).appointments ∧ LinksForward (run db reqs).appointments := by
  induction reqs generalizing db with
  | nil => exact ⟨hb, hf⟩
  | cons r rs ih =>
    obtain ⟨h1, h2⟩ := step_links db r hb hf
    exact ih (step db r) h1 h2

/-! ## Accounts: shape of the results -/

theorem register_result (c : Crypto) (db : Db) (req : RegisterReq) :
    ((register c db req).2 = db ∧ (register c db req).1.status ≠ 201) ∨
    ∃ role : Role,
      req.errors = [] ∧
      findOne db.users (fun _ u => u.email = lowerTrim req.body.email) = none ∧
      Role.ofString? req.body.role = some role ∧ userSchemaValid req.body role = true ∧
      register c db req =
        (⟨201, .auth "User registered successfully" (c.sign db.users.length) db.users.length
            (newUser c req.body role req.now)⟩,
          { db with users := db.users ++ [newUser c req.body role req.now] }) := by
  by_cases he : req.errors = []
  swap
  · left
    have hE : (!req.errors.isEmpty) = true := by
      cases h : req.errors with
      | nil => exact absurd h he
      | cons _ _ => rfl
    exact ⟨by simp only [register, hE, if_true], by simp only [register, hE, if_true]; decide⟩
  have hE : (!req.errors.isEmpty) = false := by simp [he]
  cases hf : findOne db.users (fun _ u => u.email = lowerTrim req.body.email) with
  | some x =>
    left
    exact ⟨by simp only [register, hE, hf, Bool.false_eq_true, if_false],
      by simp only [register, hE, hf, Bool.false_eq_true, if_false]; decide⟩
  | none =>
    cases hr : Role.ofString? req.body.role with
    | none =>
      left
      exact ⟨by simp only [register, hE, hf, hr, Bool.false_eq_true, if_false],
        by simp only [register, hE, hf, hr, Bool.false_eq_true, if_false]; decide⟩
    | some role =>
      by_cases hv : (!userSchemaValid req.body role) = true
      · left
        exact ⟨by simp only [register, hE, hf, hr, Bool.false_eq_true, if_false, hv, if_true],
          by simp only [register, hE, hf, hr, Bool.false_eq_true, if_false, hv, if_true]; decide⟩
      · right
        refine ⟨role, he, rfl, rfl, by simpa using hv, ?_⟩
        simp only [register, hE, hf, hr, Bool.false_eq_true, if_false, hv]

theorem Role.ofString?_doctor (s : String) (h : Role.ofString? s = some .doctor) :
    s = "doctor" := by
  unfold Role.ofString? at h
  split_ifs at h with h1 h2
  · exact h1
  · cases h

theorem Role.ofString?_patient (s : String) (h : Role.ofString? s = some .patient) :
    s = "patient" := by
  unfold Role.ofString? at h
  split_ifs at h with h1 h2
  · cases h
  · exact h2

theorem genderAllowed_iff (g : String) :
    genderAllowed g = true ↔ (g = "male" ∨ g = "female" ∨ g = "other") := by
  simp [genderAllowed, or_assoc]

/-- A document that the schema accepts has the required fields of its role. -/
theorem userSchemaValid_fields (c : Crypto) (b : RegisterBody) (role : Role) (now : Date)
    (hr : Role.ofString? b.role = some role) (hv : userSchemaValid b role = true) :
    RoleFieldsPresent b ∧ (newUser c b role now).role = role ∧
    (newUser c b role now).roleFieldsPresent := by
  cases role with
  | doctor =>
    have hrole := Role.ofString?_doctor _ hr
    simp only [userSchemaValid, Bool.and_eq_true] at hv
    obtain ⟨_, ⟨h1, h2⟩, h3⟩ := hv
    exact ⟨Or.inl ⟨hrole, h1, h2, h3⟩, rfl, h1, h2, h3⟩
  | patient =>
    have hrole := Role.ofString?_patient _ hr
    simp only [userSchemaValid, Bool.and_eq_true] at hv
    obtain ⟨_, ⟨h1, h2⟩, h3⟩ := hv
    have hg : ∃ g, b.gender = some g ∧ (g = "male" ∨ g = "female" ∨ g = "other") := by
      cases hgg : b.gender with
      | none =>
        rw [hgg] at h2
        cases h2
      | some g =>
        rw [hgg] at h2
        exact ⟨g, rfl, (genderAllowed_iff g).1 h2⟩
    exact ⟨Or.inr ⟨hrole, h1, hg, h3⟩, rfl, h1, hg, h3⟩

/-- Without the required fields of the role the schema rejects the document. -/
theorem userSchemaValid_of_missing (b : RegisterBody) (role : Role)
    (hr : Role.ofString? b.role = some role) (h : ¬ RoleFieldsPresent b) :
    userSchemaValid b role = false := by
  cases hv : userSchemaValid b role with
  | false => rfl
  | true =>
    exact absurd (userSchemaValid_fields ⟨id, fun _ _ => true, fun _ => ""⟩ b role 0 hr hv).1 h

theorem applyProfileUpdate_identity (u : User) (role : Role) (b : ProfileBody) :
    (applyProfileUpdate u role b).role = u.role ∧
    (applyProfileUpdate u role b).email = u.email ∧
    (applyProfileUpdate u role b).password = u.password := by
  cases role <;> exact ⟨rfl, rfl, rfl⟩

theorem isWhitespace_toLower (c : Char) : c.toLower.isWhitespace = c.isWhitespace := by
  by_cases h : c.toNat ≥ 65 ∧ c.toNat ≤ 90
  · have hc : c = Char.ofNat c.toNat := (Char.ofNat_toNat c).symm
    obtain ⟨h1, h2⟩ := h
    generalize c.toNat = n at hc h1 h2
    subst hc
    interval_cases n <;> rfl
  · simp only [Char.toLower, h, if_false]

theorem toLower_toLower (c : Char) : c.toLower.toLower = c.toLower := by
  by_cases h : c.toNat ≥ 65 ∧ c.toNat ≤ 90
  · have hc : c = Char.ofNat c.toNat := (Char.ofNat_toNat c).symm
    obtain ⟨h1, h2⟩ := h
    generalize c.toNat = n at hc h1 h2
    subst hc
    interval_cases n <;> rfl
  · have : c.toLower = c := by simp only [Char.toLower, h, if_false]
    rw [this, this]

theorem dropWhile_map_toLower (l : List Char) :
    (l.map Char.toLower).dropWhile Char.isWhitespace =
      (l.dropWhile Char.isWhitespace).map Char.toLower := by
  rw [List.dropWhile_map]
  congr 2
  funext c
  exact isWhitespace_toLower c

theorem trimChars_map_toLower (l : List Char) :
    trimChars (l.map Char.toLower) = (trimChars l).map Char.toLower := by
  simp only [trimChars, dropWhile_map_toLower, ← List.map_reverse]

theorem dropWhile_reverse_dropWhile {α : Type} (p : α → Bool) (l : List α) :
    ((l.dropWhile p).reverse.dropWhile p).reverse.dropWhile p
      = ((l.dropWhile p).reverse.dropWhile p).reverse := by
  generalize hm : l.dropWhile p = m
  have hhead : ∀ hl : 0 < m.length, ¬ p (m.get ⟨0, hl⟩) = true := by
    have := List.dropWhile_idempotent p l
    rw [hm] at this
    exact List.dropWhile_eq_self_iff.1 this
  rw [List.dropWhile_eq_self_iff]
  intro hl
  obtain ⟨t, ht⟩ := List.dropWhile_suffix (l := m.reverse) p
  have hpre : ((m.reverse.dropWhile p).reverse) ++ t.reverse = m := by
    rw [← List.reverse_append, ht, List.reverse_reverse]
  have hm0 : 0 < m.length := by
    rw [← hpre, List.length_append]
    omega
  have := hhead hm0
  have heq : m.get ⟨0, hm0⟩ = ((m.reverse.dropWhile p).reverse).get ⟨0, hl⟩ := by
    simp only [List.get_eq_getElem]
    have : m[0]? = ((m.reverse.dropWhile p).reverse)[0]? := by
      conv_lhs => rw [← hpre]
      rw [List.getElem?_append_left hl]
    rw [List.getElem?_eq_getElem hm0, List.getElem?_eq_getElem hl] at this
    exact Option.some.inj this
  rw [← heq]
  exact this

theorem trimChars_idem (l : List Char) : trimChars (trimChars l) = trimChars l := by
  have h1 := dropWhile_reverse_dropWhile Char.isWhitespace l
  show ((List.dropWhile Char.isWhitespace
      ((l.dropWhile Char.isWhitespace).reverse.dropWhile Char.isWhitespace).reverse).reverse.dropWhile
        Char.isWhitespace).reverse = _
  rw [h1, List.reverse_reverse, List.dropWhile_idempotent]
  rfl

/-- The setters of `email` change nothing on a value they have produced. -/
theorem lowerTrim_idem (s : String) : lowerTrim (lowerTrim s) = lowerTrim s := by
  simp only [lowerTrim, trimChars_map_toLower, trimChars_idem, List.map_map]
  congr 1
  apply List.map_congr_left
  intro c _
  exact toLower_toLower c

theorem newUser_email (c : Crypto) (b : RegisterBody) (role : Role) (now : Date) :
    (newUser c b role now).email = lowerTrim b.email := by
  cases role <;> rfl

theorem runRegister_cons (c : Crypto) (db : Db) (r : RegisterReq) (rs : List RegisterReq) :
    runRegister c db (r :: rs) = runRegister c (register c db r).2 rs := rfl

/-- A register request whose email, as stored, is that of a stored account. -/
theorem register_duplicate (c : Crypto) (db : Db) (req : RegisterReq) (i : Nat) (u : User)
    (hu : db.users[i]? = some u) (he : u.email = lowerTrim req.body.email) :
    (register c db req).1.status = 400 ∧ (register c db req).2 = db ∧
    (req.errors = [] →
      (register c db req).1 = ⟨400, .message "User already exists with this email"⟩) := by
  by_cases hE : req.errors = []
  · have hE2 : (!req.errors.isEmpty) = false := by simp [hE]
    obtain ⟨x, hx⟩ := findOne_isSome_of db.users
      (fun _ u => u.email = lowerTrim req.body.email) i u hu (by simp [he])
    have hshape : register c db req =
        (⟨400, .message "User already exists with this email"⟩, db) := by
      simp only [register, hE2, hx, Bool.false_eq_true, if_false]
    rw [hshape]
    exact ⟨rfl, rfl, fun _ => rfl⟩
  · have hE2 : (!req.errors.isEmpty) = true := by
      cases h : req.errors with
      | nil => exact absurd h hE
      | cons _ _ => rfl
    have hshape : register c db req = (⟨400, .errors req.errors⟩, db) := by
      simp only [register, hE2, if_true]
    rw [hshape]
    exact ⟨rfl, rfl, fun h => absurd h hE⟩

theorem register_emails_distinct (c : Crypto) (db : Db) (req : RegisterReq)
    (h : EmailsDistinct db.users) : EmailsDistinct (register c db req).2.users := by
  rcases register_result c db req with ⟨hsame, _⟩ | ⟨role, _, hf, _, _, hres⟩
  · rw [hsame]
    exact h
  · rw [hres]
    have hnone := (findOne_eq_none _ _).1 hf
    have hfresh : ∀ (j : Nat) (v : User), db.users[j]? = some v →
        v.email ≠ (newUser c req.body role req.now).email := by
      intro j v hv heq
      have := hnone j v hv
      rw [newUser_email] at heq
      simp [heq] at this
    intro i j u v hi hj hij
    rcases getElem?_append_singleton_cases _ _ i u hi with ⟨_, hi2⟩ | ⟨hi1, hi2⟩
    · rcases getElem?_append_singleton_cases _ _ j v hj with ⟨_, hj2⟩ | ⟨hj1, hj2⟩
      · exact h i j u v hi2 hj2 hij
      · rw [hj2]
        exact hfresh i u hi2
    · rcases getElem?_append_singleton_cases _ _ j v hj with ⟨_, hj2⟩ | ⟨hj1, hj2⟩
      · rw [hi2]
        exact fun heq => hfresh j v hj2 heq.symm
      · exact absurd (hi1.trans hj1.symm) hij

theorem runRegister_emails_distinct (c : Crypto) (reqs : List RegisterReq) :
    ∀ db : Db, EmailsDistinct db.users → EmailsDistinct (runRegister c db reqs).users := by
  induction reqs with
  | nil => exact fun _ h => h
  | cons r rs ih =>
    intro db h
    rw [runRegister_cons]
    exact ih _ (register_emails_distinct c db r h)

theorem register_emails_stored (c : Crypto) (db : Db) (req : RegisterReq)
    (h : ∀ (i : Nat) (u : User), db.users[i]? = some u → lowerTrim u.email = u.email) :
    ∀ (i : Nat) (u : User), (register c db req).2.users[i]? = some u →
      lowerTrim u.email = u.email := by
  rcases register_result c db req with ⟨hsame, _⟩ | ⟨role, _, _, _, _, hres⟩
  · rw [hsame]
    exact h
  · rw [hres]
    intro i u hi
    rcases getElem?_append_singleton_cases _ _ i u hi with ⟨_, hi2⟩ | ⟨_, hi2⟩
    · exact h i u hi2
    · rw [hi2, newUser_email, lowerTrim_idem]

theorem runRegister_emails_stored (c : Crypto) (reqs : List RegisterReq) :
    ∀ db : Db, (∀ (i : Nat) (u : User), db.users[i]? = some u → lowerTrim u.email = u.email) →
      ∀ (i : Nat) (u : User), (runRegister c db reqs).users[i]? = some u →
        lowerTrim u.email = u.email := by
  induction reqs with
  | nil => exact fun _ h => h
  | cons r rs ih =>
    intro db h
    rw [runRegister_cons]
    exact ih _ (register_emails_stored c db r h)

/-! ## Pagination -/

theorem le_pages_mul (total limit : Nat) (h : 0 < limit) :
    total ≤ (total + limit - 1) / limit * limit := by
  have := Nat.div_add_mod (total + limit - 1) limit
  have hm := Nat.mod_lt (total + limit - 1) h
  rw [Nat.mul_comm] at this
  omega

/-- The quotient that `pageCount` computes is the ceiling of total / limit. -/
theorem ceil_div_eq (total limit : Nat) (h : 0 < limit) :
    ⌈(total : ℚ) / (limit : ℚ)⌉₊ = (total + limit - 1) / limit := by
  have hl : (0 : ℚ) < (limit : ℚ) := by exact_mod_cast h
  apply le_antisymm
  · rw [Nat.ceil_le, div_le_iff₀ hl]
    have h1 := le_pages_mul total limit h
    exact_mod_cast h1
  · have h2 : (total : ℚ) / limit ≤ (⌈(total : ℚ) / (limit : ℚ)⌉₊ : ℚ) := Nat.le_ceil _
    rw [div_le_iff₀ hl] at h2
    have h3 : total ≤ ⌈(total : ℚ) / (limit : ℚ)⌉₊ * limit := by exact_mod_cast h2
    generalize ⌈(total : ℚ) / (limit : ℚ)⌉₊ = n at h3
    rw [Nat.div_le_iff_le_mul_add_pred h, Nat.mul_comm limit n]
    omega

theorem skipLimit_eq_pageSlice {α : Type} (page limit : Nat) (h : 0 < limit) (docs : List α) :
    skipLimit ((page - 1) * limit) limit docs = pageSlice docs page limit := by
  simp only [skipLimit, pageSlice, if_neg (Nat.ne_of_gt h)]

/-- The slices of the first `n` pages, one after the other. -/
theorem flatMap_pageSlice {α : Type} (l : List α) (limit n : Nat) :
    (List.range n).flatMap (fun k => pageSlice l (k + 1) limit) = l.take (n * limit) := by
  induction n with
  | zero => simp
  | succ n ih =>
    rw [List.range_succ, List.flatMap_append, ih]
    simp only [List.flatMap_cons, List.flatMap_nil, List.append_nil, pageSlice,
      Nat.add_sub_cancel]
    rw [Nat.succ_mul, List.take_add]

theorem pageSlice_beyond {α : Type} (l : List α) (limit pages page : Nat)
    (hp : l.length ≤ pages * limit) (h : pages < page) : pageSlice l page limit = [] := by
  unfold pageSlice
  have : l.length ≤ (page - 1) * limit :=
    le_trans hp (Nat.mul_le_mul_right _ (by omega))
  rw [List.drop_of_length_le this, List.take_nil]

/-- A handler that answers every positive page with `skipLimit` of the sorted
matching documents and the pagination block of the source is a paged listing. -/
theorem pagedListing_of {α β : Type} (matching : List α) (r : α → α → Prop) [DecidableRel r]
    [IsTotal α r] [IsTrans α r] (view : List α → List β) (limit : Nat) (hl : 0 < limit)
    (respond : Nat → Response) (payload : List β → Pagination → Payload)
    (h : ∀ page : Nat, 0 < page →
      respond page =
        ⟨200, payload (view (skipLimit ((page - 1) * limit) limit (matching.insertionSort r)))
          { current := page, pages := pageCount matching.length limit,
            total := matching.length }⟩) :
    PagedListing matching r view limit respond payload := by
  refine ⟨matching.insertionSort r, (matching.length + limit - 1) / limit,
    List.perm_insertionSort r matching, List.sorted_insertionSort r matching,
    (ceil_div_eq _ _ hl).symm, ?_, ?_, ?_⟩
  · intro page hp
    rw [h page hp, skipLimit_eq_pageSlice page limit hl]
    simp only [pageCount, if_neg (Nat.ne_of_gt hl)]
  · rw [flatMap_pageSlice]
    apply List.take_of_length_le
    rw [List.length_insertionSort]
    exact le_pages_mul _ _ hl
  · intro page hp
    apply pageSlice_beyond _ _ _ _ _ hp
    rw [List.length_insertionSort]
    exact le_pages_mul _ _ hl

theorem appointmentOrder_total :
    IsTotal (ObjectId × Appointment) (fun x y => x.2.sortsBefore y.2 = true) := by
  constructor
  intro x y
  simp only [Appointment.sortsBefore, Bool.or_eq_true, Bool.and_eq_true, decide_eq_true_eq]
  rcases lt_trichotomy x.2.date y.2.date with h | h | h
  · exact Or.inr (Or.inl h)
  · rcases le_total x.2.time y.2.time with ht | ht
    · exact Or.inr (Or.inr ⟨h.symm, ht⟩)
    · exact Or.inl (Or.inr ⟨h, ht⟩)
  · exact Or.inl (Or.inl h)

theorem appointmentOrder_trans :
    IsTrans (ObjectId × Appointment) (fun x y => x.2.sortsBefore y.2 = true) := by
  constructor
  intro x y z
  simp only [Appointment.sortsBefore, Bool.or_eq_true, Bool.and_eq_true, decide_eq_true_eq]
  rintro (h1 | ⟨h1, t1⟩) (h2 | ⟨h2, t2⟩)
  · exact Or.inl (lt_trans h2 h1)
  · exact Or.inl (by rw [← h2]; exact h1)
  · exact Or.inl (by rw [h1]; exact h2)
  · exact Or.inr ⟨h1.trans h2, le_trans t2 t1⟩

theorem recordOrder_total :
    IsTotal (ObjectId × MedicalRecord) (fun x y => x.2.sortsBefore y.2 = true) := by
  constructor
  intro x y
  simp only [MedicalRecord.sortsBefore, decide_eq_true_eq]
  exact le_total _ _

theorem recordOrder_trans :
    IsTrans (ObjectId × MedicalRecord) (fun x y => x.2.sortsBefore y.2 = true) := by
  constructor
  intro x y z
  simp only [MedicalRecord.sortsBefore, decide_eq_true_eq]
  exact fun h1 h2 => le_trans h2 h1

theorem userOrder_total :
    IsTotal (Nat × User) (fun x y => x.2.sortsBefore y.2 = true) := by
  constructor
  intro x y
  simp only [User.sortsBefore, decide_eq_true_eq]
  exact le_total _ _

theorem userOrder_trans :
    IsTrans (Nat × User) (fun x y => x.2.sortsBefore y.2 = true) := by
  constructor
  intro x y z
  simp only [User.sortsBefore, decide_eq_true_eq]
  exact fun h1 h2 => le_trans h2 h1

/-! ## The patient search -/

theorem beginsIgnoringCase_iff (s t : List Char) :
    beginsIgnoringCase s t = true ↔
      ∃ b : List Char, t.map Char.toLower = s.map Char.toLower ++ b := by
  induction s generalizing t with
  | nil => exact ⟨fun _ => ⟨t.map Char.toLower, rfl⟩, fun _ => by cases t <;> rfl⟩
  | cons c s ih =>
    cases t with
    | nil =>
      constructor
      · intro h
        cases h
      · rintro ⟨b, hb⟩
        simp at hb
    | cons d t =>
      simp only [beginsIgnoringCase, Bool.and_eq_true, decide_eq_true_eq, ih t, List.map_cons,
        List.cons_append, List.cons.injEq]
      constructor
      · rintro ⟨h1, b, hb⟩
        exact ⟨b, h1.symm, hb⟩
      · rintro ⟨b, h1, hb⟩
        exact ⟨h1.symm, b, hb⟩

/-- The spec's search on characters: `s` occurs in `t` exactly if, with every
letter in lower case, `t` is some text, then `s`, then some text. -/
theorem occursIgnoringCase_iff (s t : List Char) :
    occursIgnoringCase s t = true ↔
      ∃ a b : List Char, t.map Char.toLower = a ++ s.map Char.toLower ++ b := by
  induction t with
  | nil =>
    simp only [occursIgnoringCase, beginsIgnoringCase_iff, List.map_nil]
    constructor
    · rintro ⟨b, hb⟩
      exact ⟨[], b, by simpa using hb⟩
    · rintro ⟨a, b, hab⟩
      have h1 : a ++ List.map Char.toLower s = [] := (List.append_eq_nil.1 hab.symm).1
      have h2 := (List.append_eq_nil.1 h1).2
      exact ⟨[], by rw [h2]; rfl⟩
  | cons d t ih =>
    simp only [occursIgnoringCase, Bool.or_eq_true, beginsIgnoringCase_iff, ih]
    constructor
    · rintro (⟨b, hb⟩ | ⟨a, b, hab⟩)
      · exact ⟨[], b, by simpa using hb⟩
      · exact ⟨d.toLower :: a, b, by simp only [List.map_cons, hab, List.cons_append]⟩
    · rintro ⟨a, b, hab⟩
      cases a with
      | nil => exact Or.inl ⟨b, by simpa using hab⟩
      | cons x a =>
        right
        simp only [List.map_cons, List.cons_append, List.cons.injEq] at hab
        exact ⟨a, b, hab.2⟩

theorem matchesAt_literal (p t : List Char)
    (h : p.all (fun c => !regexMetaChars.contains c) = true) :
    matchesAt p t = beginsIgnoringCase p t := by
  induction p generalizing t with
  | nil => cases t <;> rfl
  | cons c p ih =>
    cases t with
    | nil => rfl
    | cons d t =>
      simp only [List.all_cons, Bool.and_eq_true] at h
      have hc : c ≠ '.' := by
        intro hc
        rw [hc] at h
        exact absurd h.1 (by decide)
      simp only [matchesAt, beginsIgnoringCase, if_neg hc, ih t h.2]

theorem matchesWithin_literal (p t : List Char)
    (h : p.all (fun c => !regexMetaChars.contains c) = true) :
    matchesWithin p t = occursIgnoringCase p t := by
  induction t with
  | nil => simp only [matchesWithin, occursIgnoringCase, matchesAt_literal p _ h]
  | cons d t ih => simp only [matchesWithin, occursIgnoringCase, matchesAt_literal p _ h, ih]

/-- The stand-in engine treats every pattern without a metacharacter as literal
text. -/
theorem dotEngine_literalOn (s : String)
    (h : s.data.all (fun c => !regexMetaChars.contains c) = true) : dotEngine.LiteralOn s := by
  have h2 : s.data.all (fun c => c = '.' || !regexMetaChars.contains c) = true := by
    rw [List.all_eq_true] at h ⊢
    intro c hc
    have := h c hc
    simp only [Bool.or_eq_true]
    exact Or.inr this
  refine ⟨fun t => matchesWithin s.data t.data, ?_, ?_⟩
  · simp only [dotEngine, h2, if_true]
  · intro t
    exact matchesWithin_literal s.data t.data h

theorem containsIgnoringCase_empty (t : String) : containsIgnoringCase t "" = true := by
  unfold containsIgnoringCase
  show occursIgnoringCase [] t.data = true
  cases t.data <;> rfl

theorem patientQuery_literal (re : Regex) (s : String) (h : s = "" ∨ re.LiteralOn s) :
    ∃ query : User → Bool, patientQuery re s = some query ∧
      ∀ u : User, query u = matchesSearch s u := by
  by_cases hs : s = ""
  · subst hs
    refine ⟨fun u => u.role = .patient, by simp only [patientQuery, if_true], ?_⟩
    intro u
    simp only [matchesSearch, containsIgnoringCase_empty, Bool.or_self, Bool.and_true]
  · rcases h with h | ⟨found, hc, hf⟩
    · exact absurd h hs
    · refine ⟨fun u => u.role = .patient && (found u.name || found u.email || found u.phone),
        by simp only [patientQuery, if_neg hs, hc], ?_⟩
      intro u
      simp only [matchesSearch, hf]

theorem length_filter_enumFrom {α : Type} (p : α → Bool) (l : List α) (n : Nat) :
    ((l.enumFrom n).filter (fun x => p x.2)).length = (l.filter p).length := by
  induction l generalizing n with
  | nil => rfl
  | cons a l ih =>
    simp only [List.enumFrom_cons, List.filter_cons]
    by_cases hp : p a = true
    · simp only [hp, if_true, List.length_cons, ih]
    · simp only [hp, if_false, Bool.false_eq_true, ih]

theorem length_filter_enum {α : Type} (p : α → Bool) (l : List α) :
    (l.enum.filter (fun x => p x.2)).length = (l.filter p).length :=
  length_filter_enumFrom p l 0

/-! ## What the vitals checks do guarantee -/

/-- An out-of-range value is answered 400 with the database unchanged, unless
the only such value is a systolic or diastolic pressure equal to the number 0. -/
theorem updatePatientVitals_out_of_range (db : Db) (req : VitalsReq) (patientId : ObjectId)
    (patient : User) (hpid : req.patientId = some patientId)
    (hauth : ¬ (req.user.role = .patient ∧ req.user.id ≠ patientId))
    (hpat : db.users[patientId]? = some patient ∧ patient.role = .patient)
    (h : OutOfRange req.body.weight 0 500 ∨ OutOfRange req.body.height 0 300 ∨
      OutOfRange req.body.heartRate 30 200 ∨
      (∃ bp, req.body.bloodPressure = some bp ∧ bp.systolic ≠ .num 0 ∧
        OutOfRange bp.systolic 70 200) ∨
      (∃ bp, req.body.bloodPressure = some bp ∧ bp.diastolic ≠ .num 0 ∧
        OutOfRange bp.diastolic 40 130) ∨
      OutOfRange req.body.temperature 35 42) :
    (updatePatientVitals db req).1.status = 400 ∧ (updatePatientVitals db req).2 = db := by
  have hu : User.findOne db.users patientId .patient = some patient :=
    (User.findOne_eq_some_iff _ _ _ _).2 hpat
  obtain ⟨message, hm⟩ := vitalsRangeError_isSome req.body h
  by_cases he : (!req.errors.isEmpty) = true
  · simp only [updatePatientVitals, he, if_true, and_self]
  · by_cases hany : (!req.body.weight.truthy && !req.body.height.truthy
        && !req.body.heartRate.truthy && !req.body.bloodPressure.isSome
        && !req.body.temperature.truthy) = true
    · simp only [updatePatientVitals, he, if_false, hpid, if_neg hauth, hu, hany, if_true,
        Bool.false_eq_true, and_self]
    · simp only [updatePatientVitals, he, if_false, hpid, if_neg hauth, hu, hany, hm,
        Bool.false_eq_true, and_self]

/-- A valid request with at least one truthy vital (or a blood pressure object)
and every supplied value in range is answered 200 when the patient has a
record. -/
theorem updatePatientVitals_in_range (db : Db) (req : VitalsReq) (patientId : ObjectId)
    (patient : User) (j : Nat) (r : MedicalRecord)
    (hvalid : req.errors = []) (hpid : req.patientId = some patientId)
    (hauth : ¬ (req.user.role = .patient ∧ req.user.id ≠ patientId))
    (hpat : db.users[patientId]? = some patient ∧ patient.role = .patient)
    (hrec : db.medicalRecords[j]? = some (some r) ∧ r.patient = patientId)
    (hone : req.body.weight.truthy = true ∨ req.body.height.truthy = true ∨
      req.body.heartRate.truthy = true ∨ req.body.bloodPressure.isSome = true ∨
      req.body.temperature.truthy = true)
    (hw : InRangeIfSupplied req.body.weight 0 500)
    (hh : InRangeIfSupplied req.body.height 0 300)
    (hr : InRangeIfSupplied req.body.heartRate 30 200)
    (hbp : ∀ bp, req.body.bloodPressure = some bp →
      InRangeIfSupplied bp.systolic 70 200 ∧ InRangeIfSupplied bp.diastolic 40 130)
    (ht : InRangeIfSupplied req.body.temperature 35 42) :
    (updatePatientVitals db req).1.status = 200 := by
  have hu : User.findOne db.users patientId .patient = some patient :=
    (User.findOne_eq_some_iff _ _ _ _).2 hpat
  have hE : (!req.errors.isEmpty) = false := by simp [hvalid]
  have hm := vitalsRangeError_eq_none req.body hw hh hr hbp ht
  obtain ⟨y, hy⟩ := latestRecord_isSome db.medicalRecords patientId j r hrec.1 hrec.2
  have hany : (!req.body.weight.truthy && !req.body.height.truthy && !req.body.heartRate.truthy
      && !req.body.bloodPressure.isSome && !req.body.temperature.truthy) = false := by
    rcases hone with h | h | h | h | h <;> simp [h]
  simp only [updatePatientVitals, hE, hpid, if_neg hauth, hu, hany, hm, hy, Bool.false_eq_true,
    if_false]

/-- After a successful vitals update the target record holds every supplied
weight, height, heart rate and temperature with its unit and the request's
instant, and a blood pressure whose two components are supplied and not the
number 0. -/
theorem updatePatientVitals_stores (db : Db) (req : VitalsReq)
    (hok : (updatePatientVitals db req).1.status = 200) :
    ∃ (id : ObjectId) (r : MedicalRecord),
      (updatePatientVitals db req).1.body =
        .medicalRecord "Patient vitals updated successfully" id r ∧
      (updatePatientVitals db req).2.medicalRecords[id]? = some (some r) ∧
      (∀ q, req.body.weight.number? = some q →
        r.vitals.weight = some { value := q, unit := "kg", date := req.now }) ∧
      (∀ q, req.body.height.number? = some q →
        r.vitals.height = some { value := q, unit := "cm", date := req.now }) ∧
      (∀ q, req.body.heartRate.number? = some q →
        r.vitals.heartRate = some { value := q, unit := "bpm", date := req.now }) ∧
      (∀ q, req.body.temperature.number? = some q →
        r.vitals.temperature = some { value := q, unit := "°C", date := req.now }) ∧
      (∀ b s d, req.body.bloodPressure = some b → b.systolic.number? = some s →
        b.diastolic.number? = some d → b.systolic ≠ .num 0 → b.diastolic ≠ .num 0 →
        r.vitals.bloodPressure = some { systolic := s, diastolic := d, date := req.now }) := by
  have hw : ∀ (old : Vitals),
      (∀ q, req.body.weight.number? = some q →
        (writeVitals req.body req.now old).weight =
          some { value := q, unit := "kg", date := req.now }) ∧
      (∀ q, req.body.height.number? = some q →
        (writeVitals req.body req.now old).height =
          some { value := q, unit := "cm", date := req.now }) ∧
      (∀ q, req.body.heartRate.number? = some q →
        (writeVitals req.body req.now old).heartRate =
          some { value := q, unit := "bpm", date := req.now }) ∧
      (∀ q, req.body.temperature.number? = some q →
        (writeVitals req.body req.now old).temperature =
          some { value := q, unit := "°C", date := req.now }) ∧
      (∀ b s d, req.body.bloodPressure = some b → b.systolic.number? = some s →
        b.diastolic.number? = some d → b.systolic ≠ .num 0 → b.diastolic ≠ .num 0 →
        (writeVitals req.body req.now old).bloodPressure =
          some { systolic := s, diastolic := d, date := req.now }) := by
    intro old
    refine ⟨fun q h => writeVital_of_supplied _ _ _ _ q h,
      fun q h => writeVital_of_supplied _ _ _ _ q h,
      fun q h => writeVital_of_supplied _ _ _ _ q h,
      fun q h => writeVital_of_supplied _ _ _ _ q h, ?_⟩
    intro b s d hb hs hd hs0 hd0
    simp only [writeVitals, hb]
    exact writeBloodPressure_of_supplied b req.now _ s d hs hd hs0 hd0
  rcases updatePatientVitals_result db req with
    ⟨_, hne⟩ | ⟨patientId, id, r, _, _, _, _, hl, hres⟩ | ⟨patientId, _, _, _, _, _, hres⟩
  · exact absurd hok hne
  · have hlt : id < db.medicalRecords.length := by
      have := (latestRecord_spec _ _ _ _ hl).1
      by_contra hge
      rw [List.getElem?_eq_none (Nat.le_of_not_lt hge)] at this
      cases this
    refine ⟨id, recordWithVitals r req.body req.now, by rw [hres], ?_, hw r.vitals⟩
    rw [hres]
    simp only []
    rw [List.getElem?_set_self hlt]
  · refine ⟨db.medicalRecords.length,
      createdVitalsRecord patientId req.user.id req.body req.now, by rw [hres], ?_,
      hw Vitals.empty⟩
    rw [hres]
    simp

/-! ## Claims -/

/-- C1 (evaluation of the code at the failing input): starting from a store
without appointments, the four requests book, cancel, book the same slot again,
status update of the cancelled appointment to accepted leave appointment 0
accepted and appointment 1 pending for the same doctor, date and time, so slot
uniqueness fails in a reachable state. -/
theorem statusUpdate_breaks_slotUnique :
    emptyClinic.appointments = [] ∧
    (run emptyClinic reopenScenario).appointments =
      [sampleAppointment .accepted, sampleAppointment .pending] ∧
    ¬ SlotUnique (run emptyClinic reopenScenario).appointments := by
  refine ⟨rfl, by decide, ?_⟩
  intro h
  exact h 0 1 (sampleAppointment .accepted) (sampleAppointment .pending)
    (by decide) (by decide) (by decide) (by decide) (by decide) ⟨rfl, rfl, rfl⟩

/-- C2: bookAppointment and rescheduleAppointment each preserve slot
uniqueness: if no two distinct appointments with status pending or accepted
share (doctor, date, time) before the request, the same holds after it, whether
the request succeeds or is rejected. -/
theorem book_reschedule_preserve_slotUnique (db : Db) (h : SlotUnique db.appointments) :
    (∀ req : BookReq, SlotUnique (bookAppointment db req).2.appointments) ∧
    (∀ req : RescheduleReq, SlotUnique (rescheduleAppointment db req).2.appointments) :=
  ⟨fun req => bookAppointment_slotUnique db req h,
   fun req => rescheduleAppointment_slotUnique db req h⟩

/-- Witness of C2 on the store holding one pending appointment. -/
theorem book_reschedule_preserve_slotUnique_witness :
    SlotUnique (step emptyClinic (.book sampleBooking)).appointments ∧
    ((∀ req : BookReq,
        SlotUnique (bookAppointment (step emptyClinic (.book sampleBooking)) req).2.appointments) ∧
     (∀ req : RescheduleReq,
        SlotUnique
          (rescheduleAppointment (step emptyClinic (.book sampleBooking)) req).2.appointments)) :=
  ⟨slotUnique_singleton _,
   book_reschedule_preserve_slotUnique _ (slotUnique_singleton _)⟩

/-- C3: for every store and every booking request that passes validation and
names an existing doctor account, if some stored appointment has the same
doctor, date and time and has status pending or accepted, bookAppointment
answers 400 with message 'This time slot is already booked' and the database is
unchanged. -/
theorem bookAppointment_conflict (db : Db) (req : BookReq) (doctorId : ObjectId) (date : Date)
    (doctor : User)
    (hvalid : req.errors = []) (hid : req.body.doctorId = some doctorId)
    (hdate : req.body.date = some date)
    (hdoctor : db.users[doctorId]? = some doctor ∧ doctor.role = .doctor)
    (hbusy : ∃ (i : Nat) (a : Appointment), db.appointments[i]? = some a ∧
      a.doctor = doctorId ∧ a.date = date ∧ a.time = req.body.time ∧
      (a.status = .pending ∨ a.status = .accepted)) :
    bookAppointment db req = (⟨400, .message "This time slot is already booked"⟩, db) := by
  have hu : User.findOne db.users doctorId .doctor = some doctor :=
    (User.findOne_eq_some_iff _ _ _ _).2 hdoctor
  have hE : (!req.errors.isEmpty) = false := by simp [hvalid]
  obtain ⟨i, a, hi, h1, h2, h3, h4⟩ := hbusy
  obtain ⟨x, hx⟩ := findOne_isSome_of db.appointments (fun _ a =>
      a.doctor = doctorId && a.date = date && a.time = req.body.time && a.active) i a hi
      (by simp [h1, h2, h3, (active_iff a).2 h4])
  simp only [bookAppointment, hE, hid, hu, hdate, hx, Bool.false_eq_true, if_false]

/-- Witness of C3: the patient books 2024-01-01 10:00, the doctor accepts, and a
second booking of the same doctor, date and time is answered 400. -/
theorem bookAppointment_conflict_witness :
    bookAppointment (run emptyClinic [.book sampleBooking, .updateStatus sampleAccept])
        sampleBooking =
      (⟨400, .message "This time slot is already booked"⟩,
        run emptyClinic [.book sampleBooking, .updateStatus sampleAccept]) :=
  bookAppointment_conflict (run emptyClinic [.book sampleBooking, .updateStatus sampleAccept])
    sampleBooking 0 1704067200000 sampleDoctor rfl rfl rfl ⟨by decide, rfl⟩
    ⟨0, sampleAppointment .accepted, by decide, rfl, rfl, rfl, Or.inr rfl⟩

/-- C4: for every booking request that passes validation, whose doctorId names
an account with role doctor and for which no appointment with that doctor, date
and time has status pending or accepted, bookAppointment answers 201 and the
store gains exactly one appointment (appended, every earlier document and the
other collections unchanged) whose patient is the caller, whose doctor, date,
time, reason and symptoms are those of the request and whose status is
pending. -/
theorem bookAppointment_success (db : Db) (req : BookReq) (doctorId : ObjectId) (date : Date)
    (doctor : User)
    (hvalid : req.errors = []) (hid : req.body.doctorId = some doctorId)
    (hdate : req.body.date = some date)
    (hdoctor : db.users[doctorId]? = some doctor ∧ doctor.role = .doctor)
    (hfree : ∀ (i : Nat) (a : Appointment), db.appointments[i]? = some a →
      a.doctor = doctorId → a.date = date → a.time = req.body.time →
      a.status ≠ .pending ∧ a.status ≠ .accepted) :
    ∃ new : Appointment,
      bookAppointment db req =
        (⟨201, .appointment "Appointment booked successfully" db.appointments.length new⟩,
          { db with appointments := db.appointments ++ [new] }) ∧
      new.patient = req.user.id ∧ new.doctor = doctorId ∧ new.date = date ∧
      new.time = req.body.time ∧ new.reason = req.body.reason ∧
      new.symptoms = req.body.symptoms ∧ new.status = .pending ∧
      new.notes = none ∧ new.prescription = none ∧ new.followUpDate = none ∧
      new.rescheduledFrom = none ∧ new.rescheduledTo = none := by
  have hu : User.findOne db.users doctorId .doctor = some doctor :=
    (User.findOne_eq_some_iff _ _ _ _).2 hdoctor
  have hE : (!req.errors.isEmpty) = false := by simp [hvalid]
  have hf : findOne db.appointments (fun _ a =>
      a.doctor = doctorId && a.date = date && a.time = req.body.time && a.active) = none := by
    rw [findOne_eq_none]
    intro j a hj
    by_cases hc : a.doctor = doctorId ∧ a.date = date ∧ a.time = req.body.time
    · have := hfree j a hj hc.1 hc.2.1 hc.2.2
      simp [Appointment.active, this.1, this.2]
    · simp only [Bool.and_eq_false_iff, decide_eq_false_iff_not]
      by_contra hall
      push_neg at hall
      exact hc ⟨hall.1.1.1, hall.1.1.2, hall.1.2⟩
  refine ⟨bookedAppointment req doctorId date, ?_, rfl, rfl, rfl, rfl, rfl, rfl, rfl, rfl, rfl,
    rfl, rfl, rfl⟩
  simp only [bookAppointment, hE, hid, hu, hdate, hf, Bool.false_eq_true, if_false]
  rfl

/-- Witness of C4: the first booking in a clinic without appointments. -/
theorem bookAppointment_success_witness :
    ∃ new : Appointment,
      bookAppointment emptyClinic sampleBooking =
        (⟨201, .appointment "Appointment booked successfully" emptyClinic.appointments.length new⟩,
          { emptyClinic with appointments := emptyClinic.appointments ++ [new] }) ∧
      new.patient = sampleBooking.user.id ∧ new.doctor = 0 ∧ new.date = 1704067200000 ∧
      new.time = sampleBooking.body.time ∧ new.reason = sampleBooking.body.reason ∧
      new.symptoms = sampleBooking.body.symptoms ∧ new.status = .pending ∧
      new.notes = none ∧ new.prescription = none ∧ new.followUpDate = none ∧
      new.rescheduledFrom = none ∧ new.rescheduledTo = none :=
  bookAppointment_success emptyClinic sampleBooking 0 1704067200000 sampleDoctor rfl rfl rfl
    ⟨by decide, rfl⟩ (fun i a hi => by simp [emptyClinic] at hi)

/-- C5 (counterexample): a booking request whose doctorId names no account is
answered 400 with the validation errors, not 404, when it also fails
validation. -/
theorem bookAppointment_unknown_doctor_invalid_request :
    shortReasonBooking.body.doctorId = some 7 ∧ emptyClinic.users[7]? = none ∧
    bookAppointment emptyClinic shortReasonBooking =
      (⟨400, .errors ["Reason must be at least 10 characters long"]⟩, emptyClinic) ∧
    (bookAppointment emptyClinic shortReasonBooking).1 ≠ ⟨404, .message "Doctor not found"⟩ := by
  decide

/-- C5 (amended): for every booking request that passes validation and whose
doctorId names no account, or an account whose role is not doctor,
bookAppointment answers 404 'Doctor not found' and leaves the database
unchanged; and whenever a booking request changes the database, it appends one
appointment whose doctor is the request's doctorId, which names an account with
role doctor. -/
theorem bookAppointment_doctor_not_found (db : Db) (req : BookReq) :
    (∀ doctorId : ObjectId, req.errors = [] → req.body.doctorId = some doctorId →
      (∀ u : User, db.users[doctorId]? = some u → u.role ≠ .doctor) →
      bookAppointment db req = (⟨404, .message "Doctor not found"⟩, db)) ∧
    ((bookAppointment db req).2 ≠ db →
      ∃ (doctorId : ObjectId) (u : User) (new : Appointment),
        req.body.doctorId = some doctorId ∧ db.users[doctorId]? = some u ∧ u.role = .doctor ∧
        (bookAppointment db req).2 = { db with appointments := db.appointments ++ [new] } ∧
        new.doctor = doctorId) := by
  constructor
  · intro doctorId hvalid hid hno
    have hE : (!req.errors.isEmpty) = false := by simp [hvalid]
    have hu : User.findOne db.users doctorId .doctor = none := by
      cases h : User.findOne db.users doctorId .doctor with
      | none => rfl
      | some u =>
        have := (User.findOne_eq_some_iff _ _ _ _).1 h
        exact absurd this.2 (hno u this.1)
    simp only [bookAppointment, hE, hid, hu, Bool.false_eq_true, if_false]
  · intro hchg
    rcases bookAppointment_result db req with ⟨hsame, _⟩ | ⟨doctorId, date, u, _, hid, hu, _, _, hres⟩
    · exact absurd hsame hchg
    · have := (User.findOne_eq_some_iff _ _ _ _).1 hu
      exact ⟨doctorId, u, bookedAppointment req doctorId date, hid, this.1, this.2,
        by rw [hres], rfl⟩

/-- Witness of C5 (amended): a valid booking naming the patient account 1 as
doctor is answered 404, and the booking of doctor 0 that changes the database
names a doctor account. -/
theorem bookAppointment_doctor_not_found_witness :
    bookAppointment emptyClinic patientAsDoctorBooking =
      (⟨404, .message "Doctor not found"⟩, emptyClinic) ∧
    ∃ (doctorId : ObjectId) (u : User) (new : Appointment),
      sampleBooking.body.doctorId = some doctorId ∧ emptyClinic.users[doctorId]? = some u ∧
      u.role = .doctor ∧
      (bookAppointment emptyClinic sampleBooking).2 =
        { emptyClinic with appointments := emptyClinic.appointments ++ [new] } ∧
      new.doctor = doctorId :=
  ⟨(bookAppointment_doctor_not_found emptyClinic patientAsDoctorBooking).1 1 rfl rfl
      (by decide),
   (bookAppointment_doctor_not_found emptyClinic sampleBooking).2 (by decide)⟩

/-- C6: for every stored appointment A, whatever its status, and every
successful rescheduleAppointment of A to (d2, t2), the response carries a new
record N with a new id, and afterwards A has status cancelled and rescheduledTo
equal to the id of N, while N is stored with status pending, rescheduledFrom
equal to the id of A, date d2 and time t2. -/
theorem rescheduleAppointment_links (db : Db) (req : RescheduleReq) (id : ObjectId)
    (A : Appointment) (hid : req.id = some id) (hA : db.appointments[id]? = some A)
    (hok : (rescheduleAppointment db req).1.status = 200) :
    ∃ (d2 : Date) (newId : ObjectId) (N A2 : Appointment),
      req.body.newDate = some d2 ∧ newId ≠ id ∧
      (rescheduleAppointment db req).1.body =
        .appointment "Appointment rescheduled successfully" newId N ∧
      (rescheduleAppointment db req).2.appointments[id]? = some A2 ∧
      (rescheduleAppointment db req).2.appointments[newId]? = some N ∧
      A2.status = .cancelled ∧ A2.rescheduledTo = some newId ∧
      N.status = .pending ∧ N.rescheduledFrom = some id ∧
      N.date = d2 ∧ N.time = req.body.newTime := by
  rcases rescheduleAppointment_result db req with
    ⟨_, hne⟩ | ⟨id2, original, newDate, hid2, hor, _, hdate, _, hres⟩
  · exact absurd hok hne
  · have hidd : id2 = id := by
      rw [hid] at hid2
      exact (Option.some.inj hid2).symm
    subst hidd
    have hlt : id2 < db.appointments.length := by
      by_contra hge
      rw [List.getElem?_eq_none (Nat.le_of_not_lt hge)] at hA
      cases hA
    refine ⟨newDate, db.appointments.length,
      rescheduledAppointment original id2 newDate req.body.newTime,
      cancelledOriginal original db.appointments.length, hdate, Nat.ne_of_gt hlt, ?_, ?_, ?_,
      rfl, rfl, rfl, rfl, rfl, rfl⟩
    · rw [hres]
    · rw [hres]
      simp only []
      rw [List.getElem?_set_self']
      simp [List.getElem?_append_left hlt, hor]
    · rw [hres]
      simp only []
      rw [List.getElem?_set_ne (Nat.ne_of_lt hlt)]
      simp

/-- Witness of C6: patient 1 moves the pending appointment 0 to 2024-01-02 11:00. -/
theorem rescheduleAppointment_links_witness :
    ∃ (d2 : Date) (newId : ObjectId) (N A2 : Appointment),
      sampleReschedule.body.newDate = some d2 ∧ newId ≠ 0 ∧
      (rescheduleAppointment oneBooking sampleReschedule).1.body =
        .appointment "Appointment rescheduled successfully" newId N ∧
      (rescheduleAppointment oneBooking sampleReschedule).2.appointments[0]? = some A2 ∧
      (rescheduleAppointment oneBooking sampleReschedule).2.appointments[newId]? = some N ∧
      A2.status = .cancelled ∧ A2.rescheduledTo = some newId ∧
      N.status = .pending ∧ N.rescheduledFrom = some 0 ∧
      N.date = d2 ∧ N.time = sampleReschedule.body.newTime :=
  rescheduleAppointment_links oneBooking sampleReschedule 0 (sampleAppointment .pending) rfl
    (by decide) (by decide)

/-- C7: a successful rescheduleAppointment of A adds exactly one appointment N
(at the end of the store) and deletes none; N copies the doctor, patient, reason
and symptoms of A; A is stored back with only status and rescheduledTo changed;
every other stored appointment is unchanged, and so are the other
collections. -/
theorem rescheduleAppointment_frame (db : Db) (req : RescheduleReq) (id : ObjectId)
    (A : Appointment) (hid : req.id = some id) (hA : db.appointments[id]? = some A)
    (hok : (rescheduleAppointment db req).1.status = 200) :
    (rescheduleAppointment db req).2.appointments.length = db.appointments.length + 1 ∧
    (∃ N : Appointment,
      (rescheduleAppointment db req).2.appointments[db.appointments.length]? = some N ∧
      N.doctor = A.doctor ∧ N.patient = A.patient ∧ N.reason = A.reason ∧
      N.symptoms = A.symptoms) ∧
    (rescheduleAppointment db req).2.appointments[id]? =
      some { A with status := .cancelled, rescheduledTo := some db.appointments.length } ∧
    (∀ j : Nat, j ≠ id → j < db.appointments.length →
      (rescheduleAppointment db req).2.appointments[j]? = db.appointments[j]?) ∧
    (rescheduleAppointment db req).2.users = db.users ∧
    (rescheduleAppointment db req).2.medicalRecords = db.medicalRecords := by
  rcases rescheduleAppointment_result db req with
    ⟨_, hne⟩ | ⟨id2, original, newDate, hid2, hor, _, hdate, _, hres⟩
  · exact absurd hok hne
  · have hidd : id2 = id := by
      rw [hid] at hid2
      exact (Option.some.inj hid2).symm
    subst hidd
    have hAo : original = A := by
      rw [hor] at hA
      exact Option.some.inj hA
    subst hAo
    have hlt : id2 < db.appointments.length := by
      by_contra hge
      rw [List.getElem?_eq_none (Nat.le_of_not_lt hge)] at hor
      cases hor
    rw [hres]
    refine ⟨by simp, ⟨rescheduledAppointment original id2 newDate req.body.newTime, ?_,
      rfl, rfl, rfl, rfl⟩, ?_, ?_, rfl, rfl⟩
    · simp only []
      rw [List.getElem?_set_ne (Nat.ne_of_lt hlt)]
      simp
    · simp only []
      rw [List.getElem?_set_self']
      simp [List.getElem?_append_left hlt, hor, cancelledOriginal]
    · intro j hj hjlt
      simp only []
      rw [List.getElem?_set_ne (fun h => hj h.symm), List.getElem?_append_left hjlt]

/-- Witness of C7: patient 1 moves the pending appointment 0 to 2024-01-02 11:00. -/
theorem rescheduleAppointment_frame_witness :
    (rescheduleAppointment oneBooking sampleReschedule).2.appointments.length =
      oneBooking.appointments.length + 1 ∧
    (∃ N : Appointment,
      (rescheduleAppointment oneBooking sampleReschedule).2.appointments[
        oneBooking.appointments.length]? = some N ∧
      N.doctor = (sampleAppointment .pending).doctor ∧
      N.patient = (sampleAppointment .pending).patient ∧
      N.reason = (sampleAppointment .pending).reason ∧
      N.symptoms = (sampleAppointment .pending).symptoms) ∧
    (rescheduleAppointment oneBooking sampleReschedule).2.appointments[0]? =
      some { sampleAppointment .pending with
              status := .cancelled, rescheduledTo := some oneBooking.appointments.length } ∧
    (∀ j : Nat, j ≠ 0 → j < oneBooking.appointments.length →
      (rescheduleAppointment oneBooking sampleReschedule).2.appointments[j]? =
        oneBooking.appointments[j]?) ∧
    (rescheduleAppointment oneBooking sampleReschedule).2.users = oneBooking.users ∧
    (rescheduleAppointment oneBooking sampleReschedule).2.medicalRecords =
      oneBooking.medicalRecords :=
  rescheduleAppointment_frame oneBooking sampleReschedule 0 (sampleAppointment .pending) rfl
    (by decide) (by decide)

/-- C8: for a stored appointment A and a caller who is the doctor or the patient
of A, rescheduleAppointment to (d2, t2) answers 400 'This time slot is already
booked' exactly when some appointment other than A has the doctor of A, date d2,
time t2 and status pending or accepted; in that case the database is unchanged,
and otherwise the request succeeds with 200, also when A itself occupies the
slot (d2, t2). -/
theorem rescheduleAppointment_conflict_iff (db : Db) (req : RescheduleReq) (id : ObjectId)
    (A : Appointment) (d2 : Date) (hid : req.id = some id)
    (hA : db.appointments[id]? = some A)
    (hcaller : A.doctor = req.user.id ∨ A.patient = req.user.id)
    (hdate : req.body.newDate = some d2) :
    ((rescheduleAppointment db req).1 = ⟨400, .message "This time slot is already booked"⟩ ↔
      SlotTakenByOther db.appointments id A.doctor d2 req.body.newTime) ∧
    (SlotTakenByOther db.appointments id A.doctor d2 req.body.newTime →
      (rescheduleAppointment db req).2 = db) ∧
    (¬ SlotTakenByOther db.appointments id A.doctor d2 req.body.newTime →
      (rescheduleAppointment db req).1.status = 200) := by
  have hacc : ¬ (A.doctor ≠ req.user.id ∧ A.patient ≠ req.user.id) := by
    rintro ⟨h1, h2⟩
    rcases hcaller with h | h
    · exact h1 h
    · exact h2 h
  cases hf : findOne db.appointments (fun j a =>
      a.doctor = A.doctor && a.date = d2 && a.time = req.body.newTime
        && a.active && j ≠ id) with
  | some x =>
    have htaken : SlotTakenByOther db.appointments id A.doctor d2 req.body.newTime := by
      obtain ⟨hx1, hx2⟩ := findOne_eq_some _ _ x.1 x.2 hf
      simp only [Bool.and_eq_true, decide_eq_true_eq] at hx2
      exact ⟨x.1, x.2, hx2.2, hx1, hx2.1.1.1.1, hx2.1.1.1.2, hx2.1.1.2,
        (active_iff _).1 hx2.1.2⟩
    have hres : rescheduleAppointment db req =
        (⟨400, .message "This time slot is already booked"⟩, db) := by
      simp only [rescheduleAppointment, hid, hA, if_neg hacc, hdate, hf]
    rw [hres]
    exact ⟨⟨fun _ => htaken, fun _ => rfl⟩, fun _ => rfl, fun h => absurd htaken h⟩
  | none =>
    have hfree : ¬ SlotTakenByOther db.appointments id A.doctor d2 req.body.newTime := by
      rintro ⟨j, b, hj, hb, h1, h2, h3, h4⟩
      have := (findOne_eq_none _ _).1 hf j b hb
      simp [h1, h2, h3, (active_iff b).2 h4, hj] at this
    have hst : (rescheduleAppointment db req).1.status = 200 := by
      simp only [rescheduleAppointment, hid, hA, if_neg hacc, hdate, hf]
    refine ⟨⟨fun h => ?_, fun h => absurd h hfree⟩, fun h => absurd h hfree, fun _ => hst⟩
    rw [h] at hst
    exact absurd hst (by decide)

/-- Witness of C8: patient 1 reschedules the pending appointment 0, the only
appointment of the store, onto its own slot. -/
theorem rescheduleAppointment_conflict_iff_witness :
    ((rescheduleAppointment oneBooking sameSlotReschedule).1 =
        ⟨400, .message "This time slot is already booked"⟩ ↔
      SlotTakenByOther oneBooking.appointments 0 (sampleAppointment .pending).doctor
        1704067200000 sameSlotReschedule.body.newTime) ∧
    (SlotTakenByOther oneBooking.appointments 0 (sampleAppointment .pending).doctor
        1704067200000 sameSlotReschedule.body.newTime →
      (rescheduleAppointment oneBooking sameSlotReschedule).2 = oneBooking) ∧
    (¬ SlotTakenByOther oneBooking.appointments 0 (sampleAppointment .pending).doctor
        1704067200000 sameSlotReschedule.body.newTime →
      (rescheduleAppointment oneBooking sameSlotReschedule).1.status = 200) :=
  rescheduleAppointment_conflict_iff oneBooking sameSlotReschedule 0 (sampleAppointment .pending)
    1704067200000 rfl (by decide) (Or.inr rfl) rfl

/-- C9 (evaluation of the code at the failing input): a doctor sends weight 70
and a blood pressure whose systolic is the number 0, which lies outside 70-200,
for a patient who has a record; the answer is 200, not 400, and the record is
modified: the weight is written and the blood pressure is dropped. -/
theorem updatePatientVitals_zero_systolic_accepted :
    OutOfRange (BloodPressureBody.systolic { systolic := .num 0, diastolic := .num 80 }) 70 200 ∧
    zeroSystolicUpdate.body.bloodPressure = some { systolic := .num 0, diastolic := .num 80 } ∧
    updatePatientVitals clinicWithRecord zeroSystolicUpdate =
      (⟨200, .medicalRecord "Patient vitals updated successfully" 0 recordAfterZeroSystolic⟩,
        { clinicWithRecord with medicalRecords := [some recordAfterZeroSystolic] }) ∧
    (updatePatientVitals clinicWithRecord zeroSystolicUpdate).2 ≠ clinicWithRecord := by
  refine ⟨⟨0, rfl, Or.inl (by norm_num)⟩, rfl, by decide, by decide⟩

/-- C10 (evaluation of the code at the failing input): a doctor sends only
weight 0, the lower bound of the weight range, for a patient who has a record;
the answer is 400 'At least one vital measurement is required' and nothing is
stored. -/
theorem updatePatientVitals_zero_weight_rejected :
    zeroWeightUpdate.body.weight = .num 0 ∧
    InRangeIfSupplied zeroWeightUpdate.body.weight 0 500 ∧
    (∃ r, clinicWithRecord.medicalRecords[0]? = some (some r) ∧ r.patient = 1) ∧
    updatePatientVitals clinicWithRecord zeroWeightUpdate =
      (⟨400, .message "At least one vital measurement is required"⟩, clinicWithRecord) := by
  refine ⟨rfl, ?_, ⟨_, rfl, rfl⟩, by decide⟩
  intro q hq
  have : q = 0 := by
    simp [zeroWeightUpdate, JsVal.number?] at hq
    exact hq.symm
  subst this
  norm_num

/-- C11 (evaluation of the code at the failing input): the update of doctor 0
with weight 70 and blood pressure 0/80 succeeds with 200, but the blood pressure,
supplied with both systolic and diastolic, is not stored in the target record;
only the weight is, with unit kg and the request's instant. -/
theorem updatePatientVitals_zero_systolic_not_stored :
    zeroSystolicUpdate.body.bloodPressure = some { systolic := .num 0, diastolic := .num 80 } ∧
    (updatePatientVitals clinicWithRecord zeroSystolicUpdate).1.status = 200 ∧
    (updatePatientVitals clinicWithRecord zeroSystolicUpdate).2.medicalRecords[0]? =
      some (some recordAfterZeroSystolic) ∧
    recordAfterZeroSystolic.vitals.weight =
      some { value := 70, unit := "kg", date := zeroSystolicUpdate.now } ∧
    recordAfterZeroSystolic.vitals.bloodPressure = none ∧
    recordAfterZeroSystolic.vitals.bloodPressure ≠
      some { systolic := 0, diastolic := 80, date := zeroSystolicUpdate.now } := by
  decide

/-- C12 (evaluation of the code at the failing input): doctor 0 sends a blood
pressure with systolic 120 and no diastolic, and nothing else, for patient 1,
who has no record; the answer is 200 and a record without any vital is
created. -/
theorem updatePatientVitals_systolic_only_accepted :
    systolicOnlyUpdate.body =
      { bloodPressure := some { systolic := .num 120, diastolic := .undefined } } ∧
    updatePatientVitals emptyClinic systolicOnlyUpdate =
      (⟨200, .medicalRecord "Patient vitals updated successfully" 0 emptyVitalsRecord⟩,
        { emptyClinic with medicalRecords := [some emptyVitalsRecord] }) ∧
    emptyVitalsRecord.vitals = Vitals.empty := by
  decide

/-- C13: when the patient has a stored record and the vitals update succeeds,
the database changes only at the patient's record with the greatest createdAt;
in that record every field other than the vitals is as before, a weight, height,
heart rate or temperature that was not supplied is as before, and so is the blood
pressure unless both of its components were supplied; no record is added or
removed, every other record is as before, and users and appointments are
untouched. -/
theorem updatePatientVitals_frame (db : Db) (req : VitalsReq) (patientId : ObjectId)
    (hpid : req.patientId = some patientId)
    (hrec : ∃ (j : Nat) (x : MedicalRecord),
      db.medicalRecords[j]? = some (some x) ∧ x.patient = patientId)
    (hok : (updatePatientVitals db req).1.status = 200) :
    ∃ (id : ObjectId) (r r2 : MedicalRecord),
      db.medicalRecords[id]? = some (some r) ∧ r.patient = patientId ∧
      (∀ (j : Nat) (x : MedicalRecord), db.medicalRecords[j]? = some (some x) →
        x.patient = patientId → x.createdAt ≤ r.createdAt) ∧
      (updatePatientVitals db req).2.medicalRecords[id]? = some (some r2) ∧
      r2 = { r with vitals := r2.vitals } ∧
      (req.body.weight.number? = none → r2.vitals.weight = r.vitals.weight) ∧
      (req.body.height.number? = none → r2.vitals.height = r.vitals.height) ∧
      (req.body.heartRate.number? = none → r2.vitals.heartRate = r.vitals.heartRate) ∧
      (req.body.temperature.number? = none → r2.vitals.temperature = r.vitals.temperature) ∧
      ((∀ b, req.body.bloodPressure = some b →
          b.systolic.number? = none ∨ b.diastolic.number? = none) →
        r2.vitals.bloodPressure = r.vitals.bloodPressure) ∧
      (updatePatientVitals db req).2.medicalRecords.length = db.medicalRecords.length ∧
      (∀ j : Nat, j ≠ id →
        (updatePatientVitals db req).2.medicalRecords[j]? = db.medicalRecords[j]?) ∧
      (updatePatientVitals db req).2.users = db.users ∧
      (updatePatientVitals db req).2.appointments = db.appointments := by
  rcases updatePatientVitals_result db req with
    ⟨_, hne⟩ | ⟨p2, id, r, _, hp2, _, _, hl, hres⟩ | ⟨p2, _, hp2, _, hl, _, _⟩
  · exact absurd hok hne
  · have hpp : p2 = patientId := by
      rw [hpid] at hp2
      exact (Option.some.inj hp2).symm
    subst hpp
    obtain ⟨h1, h2, h3⟩ := latestRecord_spec _ _ _ _ hl
    have hlt : id < db.medicalRecords.length := by
      by_contra hge
      rw [List.getElem?_eq_none (Nat.le_of_not_lt hge)] at h1
      cases h1
    rw [hres]
    refine ⟨id, r, recordWithVitals r req.body req.now, h1, h2, h3, ?_, rfl, ?_, ?_, ?_, ?_,
      ?_, by simp, ?_, rfl, rfl⟩
    · simp only []
      rw [List.getElem?_set_self hlt]
    · exact fun h => writeVital_of_missing _ _ _ _ h
    · exact fun h => writeVital_of_missing _ _ _ _ h
    · exact fun h => writeVital_of_missing _ _ _ _ h
    · exact fun h => writeVital_of_missing _ _ _ _ h
    · exact fun h => writeBloodPressure_of_missing _ _ _ h
    · intro j hj
      simp only []
      rw [List.getElem?_set_ne (fun h => hj h.symm)]
  · exfalso
    have hpp : p2 = patientId := by
      rw [hpid] at hp2
      exact (Option.some.inj hp2).symm
    subst hpp
    obtain ⟨j, x, hj, hx⟩ := hrec
    obtain ⟨y, hy⟩ := latestRecord_isSome db.medicalRecords p2 j x hj hx
    rw [hl] at hy
    cases hy

/-- Witness of C13: doctor 0 sends heart rate 72 for patient 1, who has one record. -/
theorem updatePatientVitals_frame_witness :
    ∃ (id : ObjectId) (r r2 : MedicalRecord),
      clinicWithRecord.medicalRecords[id]? = some (some r) ∧ r.patient = 1 ∧
      (∀ (j : Nat) (x : MedicalRecord), clinicWithRecord.medicalRecords[j]? = some (some x) →
        x.patient = 1 → x.createdAt ≤ r.createdAt) ∧
      (updatePatientVitals clinicWithRecord heartRateUpdate).2.medicalRecords[id]? =
        some (some r2) ∧
      r2 = { r with vitals := r2.vitals } ∧
      (heartRateUpdate.body.weight.number? = none → r2.vitals.weight = r.vitals.weight) ∧
      (heartRateUpdate.body.height.number? = none → r2.vitals.height = r.vitals.height) ∧
      (heartRateUpdate.body.heartRate.number? = none →
        r2.vitals.heartRate = r.vitals.heartRate) ∧
      (heartRateUpdate.body.temperature.number? = none →
        r2.vitals.temperature = r.vitals.temperature) ∧
      ((∀ b, heartRateUpdate.body.bloodPressure = some b →
          b.systolic.number? = none ∨ b.diastolic.number? = none) →
        r2.vitals.bloodPressure = r.vitals.bloodPressure) ∧
      (updatePatientVitals clinicWithRecord heartRateUpdate).2.medicalRecords.length =
        clinicWithRecord.medicalRecords.length ∧
      (∀ j : Nat, j ≠ id →
        (updatePatientVitals clinicWithRecord heartRateUpdate).2.medicalRecords[j]? =
          clinicWithRecord.medicalRecords[j]?) ∧
      (updatePatientVitals clinicWithRecord heartRateUpdate).2.users = clinicWithRecord.users ∧
      (updatePatientVitals clinicWithRecord heartRateUpdate).2.appointments =
        clinicWithRecord.appointments :=
  updatePatientVitals_frame clinicWithRecord heartRateUpdate 1 rfl
    ⟨0, _, rfl, rfl⟩ (by decide)

/-- C14 (evaluation of the code at the failing input): patient 1, who has no
medical record, sends heart rate 72 for themself; the new document gets
`doctor: null`, `save()` rejects it, and the answer is 400 'Validation Error'
with no record created. -/
theorem updatePatientVitals_patient_first_record_rejected :
    patientSelfUpdate.user = { id := 1, role := .patient } ∧
    patientSelfUpdate.patientId = some 1 ∧ emptyClinic.medicalRecords = [] ∧
    InRangeIfSupplied patientSelfUpdate.body.heartRate 30 200 ∧
    updatePatientVitals emptyClinic patientSelfUpdate =
      (⟨400, .validation "Validation Error" ["Path `doctor` is required."]⟩, emptyClinic) := by
  refine ⟨rfl, rfl, rfl, ?_, by decide⟩
  intro q hq
  have : q = 72 := by
    simp [patientSelfUpdate, JsVal.number?] at hq
    exact hq.symm
  subst this
  norm_num

/-- C15 (counterexample): patient 1, whose id differs from the doctor 0 of the
stored record, sends heart rate 72 for themself; the request succeeds and the
record is modified. -/
theorem updatePatientVitals_modifies_record_of_other_doctor :
    clinicWithRecord.medicalRecords[0]? = some (some sampleRecord) ∧
    patientSelfUpdate.user.id ≠ sampleRecord.doctor ∧
    (updatePatientVitals clinicWithRecord patientSelfUpdate).1.status = 200 ∧
    (updatePatientVitals clinicWithRecord patientSelfUpdate).2.medicalRecords[0]? ≠
      some (some sampleRecord) := by
  decide

/-- C15 (amended): for every stored medical record r, createMedicalRecord never
modifies or deletes r; updateMedicalRecord and deleteMedicalRecord issued by an
actor whose id differs from the doctor of r neither modify nor delete r;
updatePatientVitals never deletes r and changes at most its vitals, and changes
them only when r belongs to the addressed patient and the caller is a doctor or
that patient. -/
theorem medicalRecord_kept_from_other_actors (db : Db) (i : Nat) (r : MedicalRecord)
    (hr : db.medicalRecords[i]? = some (some r)) :
    (∀ req : CreateRecordReq,
      (createMedicalRecord db req).2.medicalRecords[i]? = some (some r)) ∧
    (∀ req : UpdateRecordReq, req.user.id ≠ r.doctor →
      (updateMedicalRecord db req).2.medicalRecords[i]? = some (some r)) ∧
    (∀ req : GetReq, req.user.id ≠ r.doctor →
      (deleteMedicalRecord db req).2.medicalRecords[i]? = some (some r)) ∧
    (∀ req : VitalsReq, ∃ r2 : MedicalRecord,
      (updatePatientVitals db req).2.medicalRecords[i]? = some (some r2) ∧
      r2 = { r with vitals := r2.vitals } ∧
      (r2 ≠ r → req.patientId = some r.patient ∧
        (req.user.role = .doctor ∨ req.user.id = r.patient))) := by
  have hlt : i < db.medicalRecords.length := by
    by_contra hge
    rw [List.getElem?_eq_none (Nat.le_of_not_lt hge)] at hr
    cases hr
  refine ⟨?_, ?_, ?_, ?_⟩
  · intro req
    rcases createMedicalRecord_result db req with ⟨hsame, _⟩ | ⟨m, hm, _⟩
    · rw [hsame]
      exact hr
    · rw [hm]
      simp only []
      rw [List.getElem?_append_left hlt]
      exact hr
  · intro req hne
    unfold updateMedicalRecord
    split
    · exact hr
    · rename_i id _
      split
      · rename_i x hx
        split
        · exact hr
        · rename_i hd
          split
          · exact hr
          · simp only []
            have hid : id ≠ i := by
              intro h
              subst h
              rw [hr] at hx
              simp only [Option.some.injEq] at hx
              subst hx
              exact hne (not_not.1 hd).symm
            rw [List.getElem?_set_ne hid]
            exact hr
      · exact hr
  · intro req hne
    unfold deleteMedicalRecord
    split
    · exact hr
    · rename_i id _
      split
      · rename_i x hx
        split
        · exact hr
        · rename_i hd
          simp only []
          have hid : id ≠ i := by
            intro h
            subst h
            rw [hr] at hx
            simp only [Option.some.injEq] at hx
            subst hx
            exact hne (not_not.1 hd).symm
          rw [List.getElem?_set_ne hid]
          exact hr
      · exact hr
  · intro req
    rcases updatePatientVitals_result db req with
      ⟨hsame, _⟩ | ⟨p, id, x, _, hp, _, hauth, hl, hres⟩ | ⟨p, _, _, _, _, _, hres⟩
    · rw [hsame]
      exact ⟨r, hr, rfl, fun h => absurd rfl h⟩
    · rw [hres]
      simp only []
      by_cases hid : id = i
      · subst hid
        obtain ⟨h1, h2, _⟩ := latestRecord_spec _ _ _ _ hl
        rw [hr] at h1
        simp only [Option.some.injEq] at h1
        subst h1
        refine ⟨recordWithVitals r req.body req.now, by rw [List.getElem?_set_self hlt], rfl,
          fun _ => ⟨by rw [hp, h2], ?_⟩⟩
        by_cases hrole : req.user.role = .doctor
        · exact Or.inl hrole
        · right
          have hpat : req.user.role = .patient := by
            cases hrl : req.user.role with
            | doctor => exact absurd hrl hrole
            | patient => rfl
          by_contra hne
          exact hauth ⟨hpat, by rw [← h2]; exact hne⟩
      · refine ⟨r, ?_, rfl, fun h => absurd rfl h⟩
        rw [List.getElem?_set_ne hid]
        exact hr
    · rw [hres]
      simp only []
      refine ⟨r, ?_, rfl, fun h => absurd rfl h⟩
      rw [List.getElem?_append_left hlt]
      exact hr

/-- Witness of C15 (amended): the record of patient 1 authored by doctor 0, with
patient 1 as the actor of the update and delete requests. -/
theorem medicalRecord_kept_from_other_actors_witness :
    (∀ req : CreateRecordReq,
      (createMedicalRecord clinicWithRecord req).2.medicalRecords[0]? =
        some (some sampleRecord)) ∧
    (∀ req : UpdateRecordReq, req.user.id ≠ sampleRecord.doctor →
      (updateMedicalRecord clinicWithRecord req).2.medicalRecords[0]? =
        some (some sampleRecord)) ∧
    (∀ req : GetReq, req.user.id ≠ sampleRecord.doctor →
      (deleteMedicalRecord clinicWithRecord req).2.medicalRecords[0]? =
        some (some sampleRecord)) ∧
    (∀ req : VitalsReq, ∃ r2 : MedicalRecord,
      (updatePatientVitals clinicWithRecord req).2.medicalRecords[0]? = some (some r2) ∧
      r2 = { sampleRecord with vitals := r2.vitals } ∧
      (r2 ≠ sampleRecord → req.patientId = some sampleRecord.patient ∧
        (req.user.role = .doctor ∨ req.user.id = sampleRecord.patient))) :=
  medicalRecord_kept_from_other_actors clinicWithRecord 0 sampleRecord (by decide)

/-- C16 (counterexample): doctor 0 authored record 0 and sends an update whose
medical-history entry has the status 'cured'; the caller is the resource's
doctor, yet `save()` rejects the document, the answer is 500 and the mutation is
not applied. -/
theorem updateMedicalRecord_owner_invalid_history :
    clinicWithRecord.medicalRecords[0]? = some (some sampleRecord) ∧
    invalidHistoryUpdate.user.id = sampleRecord.doctor ∧
    updateMedicalRecord clinicWithRecord invalidHistoryUpdate =
      (⟨500, .message "Server error"⟩, clinicWithRecord) := by
  decide

/-- C16 (amended): for updateAppointmentStatus, updateMedicalRecord and
deleteMedicalRecord on an existing resource, the answer is 403 'Access denied'
exactly when the caller's id differs from the resource's doctor, and then the
database is unchanged; when the caller is the resource's doctor the mutation is
applied, provided the schema accepts the document: a status of the enumeration
and a follow-up date that is a date for updateAppointmentStatus, medical-history
entries with status active, resolved or chronic for updateMedicalRecord; a
delete by the doctor is always applied. -/
theorem doctor_mutations_access (db : Db) :
    (∀ (req : StatusReq) (id : ObjectId) (a : Appointment),
      req.id = some id → db.appointments[id]? = some a →
      ((updateAppointmentStatus db req).1 = ⟨403, .message "Access denied"⟩ ↔
        req.user.id ≠ a.doctor) ∧
      (req.user.id ≠ a.doctor → (updateAppointmentStatus db req).2 = db) ∧
      (req.user.id = a.doctor → ∀ st : Status, Status.ofString? req.body.status = some st →
        req.body.followUpDate ≠ some none →
        updateAppointmentStatus db req =
          (⟨200, .appointment "Appointment status updated successfully" id
              (statusUpdated a st req.body)⟩,
            { db with appointments := db.appointments.set id (statusUpdated a st req.body) }) ∧
        (statusUpdated a st req.body).status = st)) ∧
    (∀ (req : UpdateRecordReq) (id : ObjectId) (r : MedicalRecord),
      req.id = some id → db.medicalRecords[id]? = some (some r) →
      ((updateMedicalRecord db req).1 = ⟨403, .message "Access denied"⟩ ↔
        req.user.id ≠ r.doctor) ∧
      (req.user.id ≠ r.doctor → (updateMedicalRecord db req).2 = db) ∧
      (req.user.id = r.doctor →
        (req.body.medicalHistory.getD []).all HistoryEntry.valid = true →
        updateMedicalRecord db req =
          (⟨200, .medicalRecord "Medical record updated successfully" id
              (applyRecordUpdate r req.body)⟩,
            { db with
              medicalRecords :=
                db.medicalRecords.set id (some (applyRecordUpdate r req.body)) }))) ∧
    (∀ (req : GetReq) (id : ObjectId) (r : MedicalRecord),
      req.id = some id → db.medicalRecords[id]? = some (some r) →
      ((deleteMedicalRecord db req).1 = ⟨403, .message "Access denied"⟩ ↔
        req.user.id ≠ r.doctor) ∧
      (req.user.id ≠ r.doctor → (deleteMedicalRecord db req).2 = db) ∧
      (req.user.id = r.doctor →
        deleteMedicalRecord db req =
          (⟨200, .message "Medical record deleted successfully"⟩,
            { db with medicalRecords := db.medicalRecords.set id none }))) := by
  refine ⟨?_, ?_, ?_⟩
  · intro req id a hid ha
    have hden : req.user.id ≠ a.doctor →
        updateAppointmentStatus db req = (⟨403, .message "Access denied"⟩, db) := by
      intro hne
      have hacc : a.doctor ≠ req.user.id := fun h => hne h.symm
      simp only [updateAppointmentStatus, hid, ha, if_pos hacc]
    refine ⟨⟨?_, fun hne => by rw [hden hne]⟩, fun hne => by rw [hden hne], ?_⟩
    · intro h403 heq
      rcases updateAppointmentStatus_owner db req id a hid ha heq.symm with
        ⟨h500, _⟩ | ⟨st, _, _, hres⟩
      · rw [h500] at h403
        simp at h403
      · rw [hres] at h403
        simp at h403
    · intro heq st hst hfu
      rcases updateAppointmentStatus_owner db req id a hid ha heq.symm with
        ⟨_, hbad⟩ | ⟨st2, hst2, _, hres⟩
      · rcases hbad with hbad | hbad
        · rw [hst] at hbad
          cases hbad
        · exact absurd hbad hfu
      · rw [hst] at hst2
        cases hst2
        exact ⟨hres, (statusUpdated_fields a st req.body).1⟩
  · intro req id r hid hr
    have hden : req.user.id ≠ r.doctor →
        updateMedicalRecord db req = (⟨403, .message "Access denied"⟩, db) := by
      intro hne
      have hacc : r.doctor ≠ req.user.id := fun h => hne h.symm
      simp only [updateMedicalRecord, hid, hr, if_pos hacc]
    refine ⟨⟨?_, fun hne => by rw [hden hne]⟩, fun hne => by rw [hden hne], ?_⟩
    · intro h403 heq
      have hacc : ¬ (r.doctor ≠ req.user.id) := fun h => h heq.symm
      by_cases hval : (!(req.body.medicalHistory.getD []).all HistoryEntry.valid) = true
      · simp only [updateMedicalRecord, hid, hr, if_neg hacc, if_pos hval] at h403
        simp at h403
      · simp only [updateMedicalRecord, hid, hr, if_neg hacc, if_neg hval] at h403
        simp at h403
    · intro heq hval
      have hacc : ¬ (r.doctor ≠ req.user.id) := fun h => h heq.symm
      have hv : ¬ ((!(req.body.medicalHistory.getD []).all HistoryEntry.valid) = true) := by
        simp [hval]
      simp only [updateMedicalRecord, hid, hr, if_neg hacc, if_neg hv]
  · intro req id r hid hr
    have hden : req.user.id ≠ r.doctor →
        deleteMedicalRecord db req = (⟨403, .message "Access denied"⟩, db) := by
      intro hne
      have hacc : r.doctor ≠ req.user.id := fun h => hne h.symm
      simp only [deleteMedicalRecord, hid, hr, if_pos hacc]
    refine ⟨⟨?_, fun hne => by rw [hden hne]⟩, fun hne => by rw [hden hne], ?_⟩
    · intro h403 heq
      have hacc : ¬ (r.doctor ≠ req.user.id) := fun h => h heq.symm
      simp only [deleteMedicalRecord, hid, hr, if_neg hacc] at h403
      simp at h403
    · intro heq
      have hacc : ¬ (r.doctor ≠ req.user.id) := fun h => h heq.symm
      simp only [deleteMedicalRecord, hid, hr, if_neg hacc]

/-- Witness of C16 (amended): doctor 5 is denied on appointment 0 of doctor 0, doctor 0
accepts it, and doctor 0 updates and deletes the medical record 0 that they
authored. -/
theorem doctor_mutations_access_witness :
    (updateAppointmentStatus oneBooking otherDoctorAccept).1 =
      ⟨403, .message "Access denied"⟩ ∧
    (updateAppointmentStatus oneBooking otherDoctorAccept).2 = oneBooking ∧
    (updateAppointmentStatus oneBooking sampleAccept =
        (⟨200, .appointment "Appointment status updated successfully" 0
            (statusUpdated (sampleAppointment .pending) .accepted sampleAccept.body)⟩,
          { oneBooking with
            appointments :=
              oneBooking.appointments.set 0
                (statusUpdated (sampleAppointment .pending) .accepted sampleAccept.body) }) ∧
      (statusUpdated (sampleAppointment .pending) .accepted sampleAccept.body).status =
        .accepted) ∧
    updateMedicalRecord clinicWithRecord sampleRecordUpdate =
      (⟨200, .medicalRecord "Medical record updated successfully" 0
          (applyRecordUpdate sampleRecord sampleRecordUpdate.body)⟩,
        { clinicWithRecord with
          medicalRecords :=
            clinicWithRecord.medicalRecords.set 0
              (some (applyRecordUpdate sampleRecord sampleRecordUpdate.body)) }) ∧
    deleteMedicalRecord clinicWithRecord sampleRecordDelete =
      (⟨200, .message "Medical record deleted successfully"⟩,
        { clinicWithRecord with medicalRecords := clinicWithRecord.medicalRecords.set 0 none }) :=
  ⟨((doctor_mutations_access oneBooking).1 otherDoctorAccept 0 (sampleAppointment .pending) rfl
      (by decide)).1.2 (by decide),
   ((doctor_mutations_access oneBooking).1 otherDoctorAccept 0 (sampleAppointment .pending) rfl
      (by decide)).2.1 (by decide),
   ((doctor_mutations_access oneBooking).1 sampleAccept 0 (sampleAppointment .pending) rfl
      (by decide)).2.2 rfl .accepted (by decide) (by decide),
   ((doctor_mutations_access clinicWithRecord).2.1 sampleRecordUpdate 0 sampleRecord rfl
      (by decide)).2.2 rfl (by decide),
   ((doctor_mutations_access clinicWithRecord).2.2 sampleRecordDelete 0 sampleRecord rfl
      (by decide)).2.2 rfl⟩

/-- C17: for getAppointment, rescheduleAppointment and cancelAppointment on a
stored appointment whose doctor and patient accounts exist, a caller whose id is
neither the doctor nor the patient of the appointment is answered 403 'Access
denied', a message without appointment data, and the database is unchanged; a
caller who is the doctor or the patient is not denied: getAppointment returns
the appointment, cancelAppointment cancels it and rescheduleAppointment does
not answer 403. -/
theorem appointment_access (db : Db) (id : ObjectId) (a : Appointment)
    (ha : db.appointments[id]? = some a)
    (hdoc : ∃ u, db.users[a.doctor]? = some u) (hpat : ∃ u, db.users[a.patient]? = some u) :
    (∀ req : GetReq, req.id = some id →
      (a.doctor ≠ req.user.id ∧ a.patient ≠ req.user.id →
        getAppointment db req = ⟨403, .message "Access denied"⟩) ∧
      (a.doctor = req.user.id ∨ a.patient = req.user.id →
        getAppointment db req = ⟨200, .appointmentDoc id a⟩)) ∧
    (∀ req : RescheduleReq, req.id = some id →
      (a.doctor ≠ req.user.id ∧ a.patient ≠ req.user.id →
        rescheduleAppointment db req = (⟨403, .message "Access denied"⟩, db)) ∧
      (a.doctor = req.user.id ∨ a.patient = req.user.id →
        (rescheduleAppointment db req).1.status ≠ 403)) ∧
    (∀ req : CancelReq, req.id = some id →
      (a.doctor ≠ req.user.id ∧ a.patient ≠ req.user.id →
        cancelAppointment db req = (⟨403, .message "Access denied"⟩, db)) ∧
      (a.doctor = req.user.id ∨ a.patient = req.user.id →
        cancelAppointment db req =
          (⟨200, .message "Appointment cancelled successfully"⟩,
            { db with
              appointments := db.appointments.set id { a with status := .cancelled } }))) := by
  obtain ⟨ud, hud⟩ := hdoc
  obtain ⟨up, hup⟩ := hpat
  refine ⟨?_, ?_, ?_⟩
  · intro req hid
    constructor
    · rintro ⟨h1, h2⟩
      simp only [getAppointment, hid, ha, hud, if_pos h1, hup, if_pos h2]
    · intro h
      by_cases h1 : a.doctor ≠ req.user.id
      · have h2 : ¬ (a.patient ≠ req.user.id) := by
          rcases h with h | h
          · exact absurd h h1
          · exact fun hne => hne h
        simp only [getAppointment, hid, ha, hud, if_pos h1, hup, if_neg h2]
      · simp only [getAppointment, hid, ha, hud, if_neg h1]
  · intro req hid
    constructor
    · intro h
      simp only [rescheduleAppointment, hid, ha, if_pos h]
    · intro h
      have hacc : ¬ (a.doctor ≠ req.user.id ∧ a.patient ≠ req.user.id) := by
        rintro ⟨h1, h2⟩
        rcases h with h | h
        · exact h1 h
        · exact h2 h
      cases hd : req.body.newDate with
      | none =>
        simp only [rescheduleAppointment, hid, ha, if_neg hacc, hd]
        decide
      | some d =>
        cases hf : findOne db.appointments (fun j b =>
            b.doctor = a.doctor && b.date = d && b.time = req.body.newTime
              && b.active && j ≠ id) with
        | some x =>
          simp only [rescheduleAppointment, hid, ha, if_neg hacc, hd, hf]
          decide
        | none =>
          simp only [rescheduleAppointment, hid, ha, if_neg hacc, hd, hf]
          decide
  · intro req hid
    constructor
    · intro h
      simp only [cancelAppointment, hid, ha, if_pos h]
    · intro h
      have hacc : ¬ (a.doctor ≠ req.user.id ∧ a.patient ≠ req.user.id) := by
        rintro ⟨h1, h2⟩
        rcases h with h | h
        · exact h1 h
        · exact h2 h
      simp only [cancelAppointment, hid, ha, if_neg hacc]

/-- Witness of C17: on appointment 0 of doctor 0 and patient 1, the outsider 5 is
denied by the three handlers, patient 1 reads it, is not denied a reschedule
and cancels it. -/
theorem appointment_access_witness :
    getAppointment oneBooking outsiderGet = ⟨403, .message "Access denied"⟩ ∧
    getAppointment oneBooking patientGet = ⟨200, .appointmentDoc 0 (sampleAppointment .pending)⟩ ∧
    rescheduleAppointment oneBooking outsiderReschedule =
      (⟨403, .message "Access denied"⟩, oneBooking) ∧
    (rescheduleAppointment oneBooking sampleReschedule).1.status ≠ 403 ∧
    cancelAppointment oneBooking outsiderCancel = (⟨403, .message "Access denied"⟩, oneBooking) ∧
    cancelAppointment oneBooking sampleCancel =
      (⟨200, .message "Appointment cancelled successfully"⟩,
        { oneBooking with
          appointments :=
            oneBooking.appointments.set 0
              { sampleAppointment .pending with status := .cancelled } }) :=
  ⟨((appointment_access oneBooking 0 (sampleAppointment .pending) (by decide)
      ⟨sampleDoctor, by decide⟩ ⟨samplePatient, by decide⟩).1 outsiderGet rfl).1
      ⟨by decide, by decide⟩,
   ((appointment_access oneBooking 0 (sampleAppointment .pending) (by decide)
      ⟨sampleDoctor, by decide⟩ ⟨samplePatient, by decide⟩).1 patientGet rfl).2
      (Or.inr rfl),
   ((appointment_access oneBooking 0 (sampleAppointment .pending) (by decide)
      ⟨sampleDoctor, by decide⟩ ⟨samplePatient, by decide⟩).2.1 outsiderReschedule rfl).1
      ⟨by decide, by decide⟩,
   ((appointment_access oneBooking 0 (sampleAppointment .pending) (by decide)
      ⟨sampleDoctor, by decide⟩ ⟨samplePatient, by decide⟩).2.1 sampleReschedule rfl).2
      (Or.inr rfl),
   ((appointment_access oneBooking 0 (sampleAppointment .pending) (by decide)
      ⟨sampleDoctor, by decide⟩ ⟨samplePatient, by decide⟩).2.2 outsiderCancel rfl).1
      ⟨by decide, by decide⟩,
   ((appointment_access oneBooking 0 (sampleAppointment .pending) (by decide)
      ⟨sampleDoctor, by decide⟩ ⟨samplePatient, by decide⟩).2.2 sampleCancel rfl).2
      (Or.inr rfl)⟩

/-- C20: every appointment that getAppointments returns is a stored appointment
of the caller (doctor = caller for a caller with role doctor, patient = caller
for any other caller) and has the status of the filter when a status filter is
given; conversely every stored appointment that satisfies these conditions is
returned on some page of the listing. -/
theorem getAppointments_own (db : Db) (req : ListAppointmentsReq) :
    (∀ (docs : List (ObjectId × Appointment)) (pg : Pagination),
      getAppointments db req = ⟨200, .appointments docs pg⟩ →
      ∀ x ∈ docs, db.appointments[x.1]? = some x.2 ∧
        (req.user.role = .doctor → x.2.doctor = req.user.id) ∧
        (req.user.role ≠ .doctor → x.2.patient = req.user.id) ∧
        (∀ s, req.status = some s → s ≠ "" → Status.ofString? s = some x.2.status)) ∧
    (∀ (i : Nat) (a : Appointment), db.appointments[i]? = some a →
      (req.user.role = .doctor → a.doctor = req.user.id) →
      (req.user.role ≠ .doctor → a.patient = req.user.id) →
      (∀ s, req.status = some s → s ≠ "" → Status.ofString? s = some a.status) →
      ∃ (page : Nat) (docs : List (ObjectId × Appointment)) (pg : Pagination),
        1 ≤ page ∧
        getAppointments db { req with page := page } = ⟨200, .appointments docs pg⟩ ∧
        (i, a) ∈ docs) := by
  have hq : ∀ (a : Appointment), appointmentQuery req.user req.status a = true ↔
      ((req.user.role = .doctor → a.doctor = req.user.id) ∧
       (req.user.role ≠ .doctor → a.patient = req.user.id) ∧
       (∀ s, req.status = some s → s ≠ "" → Status.ofString? s = some a.status)) := by
    intro a
    unfold appointmentQuery
    by_cases hrole : req.user.role = .doctor
    · cases hs : req.status with
      | none => simp [hrole]
      | some s =>
        by_cases hs0 : s = ""
        · simp [hrole, hs0]
        · simp [hrole, hs0]
    · cases hs : req.status with
      | none => simp [hrole]
      | some s =>
        by_cases hs0 : s = ""
        · simp [hrole, hs0]
        · simp [hrole, hs0]
  constructor
  · intro docs pg hres x hx
    by_cases hbad : req.page = 0 ∧ req.limit ≠ 0
    · simp only [getAppointments, if_pos hbad] at hres
      simp at hres
    simp only [getAppointments, if_neg hbad, Response.mk.injEq, Payload.appointments.injEq,
      true_and] at hres
    rw [← hres.1] at hx
    have h1 := mem_of_mem_skipLimit _ _ _ _ hx
    rw [List.mem_insertionSort, List.mem_filter] at h1
    have h2 := List.mem_enum_iff_getElem?.1 h1.1
    have h3 := (hq x.2).1 h1.2
    exact ⟨h2, h3⟩
  · intro i a hi h1 h2 h3
    have hmem : (i, a) ∈ (db.appointments.enum.filter
        (fun x => appointmentQuery req.user req.status x.2)).insertionSort
          (fun x y => x.2.sortsBefore y.2 = true) := by
      rw [List.mem_insertionSort, List.mem_filter]
      exact ⟨List.mem_enum_iff_getElem?.2 hi, (hq a).2 ⟨h1, h2, h3⟩⟩
    obtain ⟨k, hk⟩ := List.mem_iff_getElem?.1 hmem
    obtain ⟨page, hpage, hin⟩ := mem_skipLimit_some_page req.limit _ k _ hk
    have hnot : ¬ (page = 0 ∧ req.limit ≠ 0) := by
      rintro ⟨h0, _⟩
      omega
    refine ⟨page, _,
      { current := page
        pages := pageCount (db.appointments.enum.filter
          (fun x => appointmentQuery req.user req.status x.2)).length req.limit
        total := (db.appointments.enum.filter
          (fun x => appointmentQuery req.user req.status x.2)).length },
      hpage, ?_, hin⟩
    simp only [getAppointments, if_neg hnot]

/-- Witness of C20: doctor 0 lists their accepted appointments in the clinic
where appointment 0 is accepted; the listing holds only appointments of doctor 0
with status accepted, and appointment 0 is on one of its pages. -/
theorem getAppointments_own_witness :
    (∀ x ∈ [((0 : ObjectId), sampleAppointment .accepted)],
        acceptedBooking.appointments[x.1]? = some x.2 ∧
        (doctorListAccepted.user.role = .doctor → x.2.doctor = doctorListAccepted.user.id) ∧
        (doctorListAccepted.user.role ≠ .doctor → x.2.patient = doctorListAccepted.user.id) ∧
        (∀ s, doctorListAccepted.status = some s → s ≠ "" →
          Status.ofString? s = some x.2.status)) ∧
    ∃ (page : Nat) (docs : List (ObjectId × Appointment)) (pg : Pagination),
      1 ≤ page ∧
      getAppointments acceptedBooking { doctorListAccepted with page := page } =
        ⟨200, .appointments docs pg⟩ ∧
      (0, sampleAppointment .accepted) ∈ docs :=
  ⟨(getAppointments_own acceptedBooking doctorListAccepted).1
      [(0, sampleAppointment .accepted)] ⟨1, some 1, 1⟩ (by decide),
   (getAppointments_own acceptedBooking doctorListAccepted).2 0 (sampleAppointment .accepted)
      (by decide) (fun _ => rfl) (fun h => absurd rfl h)
      (fun s hs _ => by
        have : s = "accepted" := by
          simp [doctorListAccepted] at hs
          exact hs.symm
        subst this
        decide)⟩

/-- C18 (counterexample): patient 3 sends updatePatientVitals with a patientId
different from their own id; when that patientId is not a well-formed id, or
when the body failed validation, the answer is 400, not 403. -/
theorem updatePatientVitals_other_patient_400 :
    malformedIdUpdate.user.role = .patient ∧
    malformedIdUpdate.patientId ≠ some malformedIdUpdate.user.id ∧
    updatePatientVitals largerClinic malformedIdUpdate =
      (⟨400, .message "Invalid patient ID format"⟩, largerClinic) ∧
    invalidBodyUpdate.user.role = .patient ∧
    invalidBodyUpdate.patientId ≠ some invalidBodyUpdate.user.id ∧
    updatePatientVitals largerClinic invalidBodyUpdate =
      (⟨400, .validation "Validation Error" ["Weight must be a number"]⟩, largerClinic) := by
  decide

/-- C18 (amended): a caller with role patient never reads or changes another
patient's medical data.  getMedicalRecord on a record of another patient and
getPatientMedicalRecords with a patientId different from the caller's id are
answered 403; getPatientVitalsHistory and updatePatientVitals with a patientId
different from the caller's id are answered 403 when the patientId is a
well-formed id (and, for the update, the body passed validation) and 400
otherwise; every one of these answers is a message without a record, and
updatePatientVitals leaves the database unchanged. -/
theorem patient_cannot_reach_other_patient (db : Db) (user : AuthUser)
    (hrole : user.role = .patient) :
    (∀ (req : GetReq) (id : ObjectId) (r : MedicalRecord),
      req.user = user → req.id = some id → db.medicalRecords[id]? = some (some r) →
      r.patient ≠ user.id →
      (∃ d, db.users[r.doctor]? = some d ∧ d.role = .doctor) →
      (∃ u, db.users[user.id]? = some u ∧ u.role = .patient) →
      (∃ p, db.users[r.patient]? = some p) →
      getMedicalRecord db req = ⟨403, .message "Access denied"⟩) ∧
    (∀ req : PatientRecordsReq, req.user = user → req.patientId ≠ some user.id →
      getPatientMedicalRecords db req = ⟨403, .message "Access denied"⟩) ∧
    (∀ req : VitalsHistoryReq, req.user = user → req.patientId ≠ some user.id →
      (req.patientId ≠ none ∧
        getPatientVitalsHistory db req = ⟨403, .message "Access denied"⟩) ∨
      (req.patientId = none ∧
        getPatientVitalsHistory db req = ⟨400, .message "Invalid patient ID format"⟩)) ∧
    (∀ req : VitalsReq, req.user = user → req.patientId ≠ some user.id →
      (updatePatientVitals db req).2 = db ∧
      ((req.errors = [] ∧ req.patientId ≠ none ∧
          (updatePatientVitals db req).1 = ⟨403, .message "Access denied"⟩) ∨
       (req.errors = [] ∧ req.patientId = none ∧
          (updatePatientVitals db req).1 = ⟨400, .message "Invalid patient ID format"⟩) ∨
       (req.errors ≠ [] ∧
          (updatePatientVitals db req).1 =
            ⟨400, .validation "Validation Error" req.errors⟩))) := by
  refine ⟨?_, ?_, ?_, ?_⟩
  · intro req id r hu hid hr hp ⟨d, hd, hdr⟩ ⟨u, huu, hur⟩ ⟨p, hpp⟩
    subst hu
    have h1 : r.doctor ≠ req.user.id := by
      intro h
      rw [h, huu] at hd
      cases hd
      rw [hur] at hdr
      cases hdr
    simp only [getMedicalRecord, hid, hr, hd, if_pos h1, hpp, if_pos hp]
  · intro req hu hne
    subst hu
    have h : req.user.role = .patient ∧ some req.user.id ≠ req.patientId :=
      ⟨hrole, fun h => hne h.symm⟩
    simp only [getPatientMedicalRecords, if_pos h]
  · intro req hu hne
    subst hu
    cases hp : req.patientId with
    | none =>
      right
      exact ⟨rfl, by simp only [getPatientVitalsHistory, hp]⟩
    | some p =>
      left
      have h : req.user.role = .patient ∧ req.user.id ≠ p := by
        refine ⟨hrole, fun h => hne ?_⟩
        rw [hp, h]
      exact ⟨by simp, by simp only [getPatientVitalsHistory, hp, if_pos h]⟩
  · intro req hu hne
    subst hu
    by_cases he : req.errors = []
    · have hE : (!req.errors.isEmpty) = false := by simp [he]
      cases hp : req.patientId with
      | none =>
        refine ⟨?_, Or.inr (Or.inl ⟨he, rfl, ?_⟩)⟩
        · simp only [updatePatientVitals, hE, hp, Bool.false_eq_true, if_false]
        · simp only [updatePatientVitals, hE, hp, Bool.false_eq_true, if_false]
      | some p =>
        have h : req.user.role = .patient ∧ req.user.id ≠ p := by
          refine ⟨hrole, fun h => hne ?_⟩
          rw [hp, h]
        refine ⟨?_, Or.inl ⟨he, by simp, ?_⟩⟩
        · simp only [updatePatientVitals, hE, hp, Bool.false_eq_true, if_false, if_pos h]
        · simp only [updatePatientVitals, hE, hp, Bool.false_eq_true, if_false, if_pos h]
    · have hE : (!req.errors.isEmpty) = true := by
        cases h : req.errors with
        | nil => exact absurd h he
        | cons _ _ => rfl
      refine ⟨?_, Or.inr (Or.inr ⟨he, ?_⟩)⟩
      · simp only [updatePatientVitals, hE, if_true]
      · simp only [updatePatientVitals, hE, if_true]

/-- Witness of C18 (amended): patient 3 against record 0 of patient 1. -/
theorem patient_cannot_reach_other_patient_witness :
    getMedicalRecord largerClinic { user := { id := 3, role := .patient }, id := some 0 } =
      ⟨403, .message "Access denied"⟩ ∧
    getPatientMedicalRecords largerClinic
        { user := { id := 3, role := .patient }, patientId := some 1 } =
      ⟨403, .message "Access denied"⟩ ∧
    ((some 1 ≠ (none : Option ObjectId) ∧
        getPatientVitalsHistory largerClinic
            { user := { id := 3, role := .patient }, patientId := some 1 } =
          ⟨403, .message "Access denied"⟩) ∨
      (some 1 = (none : Option ObjectId) ∧
        getPatientVitalsHistory largerClinic
            { user := { id := 3, role := .patient }, patientId := some 1 } =
          ⟨400, .message "Invalid patient ID format"⟩)) ∧
    ((updatePatientVitals largerClinic otherPatientUpdate).2 = largerClinic ∧
      ((otherPatientUpdate.errors = [] ∧ otherPatientUpdate.patientId ≠ none ∧
          (updatePatientVitals largerClinic otherPatientUpdate).1 =
            ⟨403, .message "Access denied"⟩) ∨
       (otherPatientUpdate.errors = [] ∧ otherPatientUpdate.patientId = none ∧
          (updatePatientVitals largerClinic otherPatientUpdate).1 =
            ⟨400, .message "Invalid patient ID format"⟩) ∨
       (otherPatientUpdate.errors ≠ [] ∧
          (updatePatientVitals largerClinic otherPatientUpdate).1 =
            ⟨400, .validation "Validation Error" otherPatientUpdate.errors⟩))) :=
  ⟨(patient_cannot_reach_other_patient largerClinic { id := 3, role := .patient } rfl).1
      { user := { id := 3, role := .patient }, id := some 0 } 0 sampleRecord rfl rfl
      (by decide) (by decide) ⟨sampleDoctor, by decide, rfl⟩ ⟨secondPatient, by decide, rfl⟩
      ⟨samplePatient, by decide⟩,
   (patient_cannot_reach_other_patient largerClinic { id := 3, role := .patient } rfl).2.1
      { user := { id := 3, role := .patient }, patientId := some 1 } rfl (by decide),
   (patient_cannot_reach_other_patient largerClinic { id := 3, role := .patient } rfl).2.2.1
      { user := { id := 3, role := .patient }, patientId := some 1 } rfl (by decide),
   (patient_cannot_reach_other_patient largerClinic { id := 3, role := .patient } rfl).2.2.2
      otherPatientUpdate rfl (by decide)⟩

/-- C19 (counterexample): doctor 2, who is neither the doctor nor the patient of
record 0, lists the records of patient 1 and receives record 0 in a success
response. -/
theorem getPatientMedicalRecords_any_doctor_reads :
    getPatientMedicalRecords largerClinic secondDoctorList =
      ⟨200, .medicalRecords [(0, sampleRecord)] { current := 1, pages := some 1, total := 1 }⟩ ∧
    sampleRecord.doctor ≠ secondDoctorList.user.id ∧
    sampleRecord.patient ≠ secondDoctorList.user.id := by
  decide

/-- C19 (amended): a record in a success response of getMedicalRecord has the
caller as its doctor or as its patient, and a caller who is neither is answered
403 instead.  A record in a success response of getPatientMedicalRecords or
getPatientVitalsHistory is a stored record of the requested patient, and the
caller is that patient or a caller whose role is not patient (any doctor).  The
latest record that getAllPatients attaches to a listed patient is a stored record
of that patient. -/
theorem read_endpoints_scope (db : Db) :
    (∀ req : GetReq, (getMedicalRecord db req).status = 200 →
      ∃ (id : ObjectId) (r : MedicalRecord),
        getMedicalRecord db req = ⟨200, .medicalRecordDoc id r⟩ ∧
        db.medicalRecords[id]? = some (some r) ∧
        (r.doctor = req.user.id ∨ r.patient = req.user.id)) ∧
    (∀ (req : GetReq) (id : ObjectId) (r : MedicalRecord),
      req.id = some id → db.medicalRecords[id]? = some (some r) →
      (∃ d, db.users[r.doctor]? = some d) → (∃ p, db.users[r.patient]? = some p) →
      r.doctor ≠ req.user.id → r.patient ≠ req.user.id →
      getMedicalRecord db req = ⟨403, .message "Access denied"⟩) ∧
    (∀ req : PatientRecordsReq, (getPatientMedicalRecords db req).status = 200 →
      ∃ (p : ObjectId) (docs : List (ObjectId × MedicalRecord)) (pg : Pagination),
        req.patientId = some p ∧
        getPatientMedicalRecords db req = ⟨200, .medicalRecords docs pg⟩ ∧
        (req.user.role = .patient → req.user.id = p) ∧
        ∀ x ∈ docs, db.medicalRecords[x.1]? = some (some x.2) ∧ x.2.patient = p) ∧
    (∀ req : VitalsHistoryReq, (getPatientVitalsHistory db req).status = 200 →
      ∃ (p : ObjectId) (docs : List (ObjectId × Vitals × Date)),
        req.patientId = some p ∧
        getPatientVitalsHistory db req = ⟨200, .vitalsHistory docs⟩ ∧
        (req.user.role = .patient → req.user.id = p) ∧
        ∀ x ∈ docs, ∃ r : MedicalRecord, db.medicalRecords[x.1]? = some (some r) ∧
          r.patient = p ∧ x.2.1 = r.vitals ∧ x.2.2 = r.createdAt) ∧
    (∀ (patients : List (ObjectId × User)),
      ∀ x ∈ attachLatestRecords db patients, ∀ (id : ObjectId) (r : MedicalRecord),
        x.2.2 = some (id, r) →
        db.medicalRecords[id]? = some (some r) ∧ r.patient = x.1) := by
  refine ⟨?_, ?_, ?_, ?_, ?_⟩
  · intro req hok
    cases hid : req.id with
    | none =>
      simp only [getMedicalRecord, hid] at hok
      exact absurd hok (by decide)
    | some id =>
      cases hr : db.medicalRecords[id]? with
      | none =>
        simp only [getMedicalRecord, hid, hr] at hok
        exact absurd hok (by decide)
      | some o =>
        cases o with
        | none =>
          simp only [getMedicalRecord, hid, hr] at hok
          exact absurd hok (by decide)
        | some r =>
          cases hd : db.users[r.doctor]? with
          | none =>
            simp only [getMedicalRecord, hid, hr, hd] at hok
            exact absurd hok (by decide)
          | some d =>
            by_cases h1 : r.doctor ≠ req.user.id
            · cases hp : db.users[r.patient]? with
              | none =>
                simp only [getMedicalRecord, hid, hr, hd, if_pos h1, hp] at hok
                exact absurd hok (by decide)
              | some u =>
                by_cases h2 : r.patient ≠ req.user.id
                · simp only [getMedicalRecord, hid, hr, hd, if_pos h1, hp, if_pos h2] at hok
                  exact absurd hok (by decide)
                · refine ⟨id, r, ?_, hr, Or.inr (not_not.1 h2)⟩
                  simp only [getMedicalRecord, hid, hr, hd, if_pos h1, hp, if_neg h2]
            · refine ⟨id, r, ?_, hr, Or.inl (not_not.1 h1)⟩
              simp only [getMedicalRecord, hid, hr, hd, if_neg h1]
  · intro req id r hid hr ⟨d, hd⟩ ⟨p, hp⟩ h1 h2
    simp only [getMedicalRecord, hid, hr, hd, if_pos h1, hp, if_pos h2]
  · intro req hok
    by_cases hden : req.user.role = .patient ∧ some req.user.id ≠ req.patientId
    · simp only [getPatientMedicalRecords, if_pos hden] at hok
      exact absurd hok (by decide)
    have hshape : getPatientMedicalRecords db req =
        (match req.patientId with
        | none => ⟨500, .message "Server error"⟩
        | some patientId =>
          if req.page = 0 ∧ req.limit ≠ 0 then ⟨500, .message "Server error"⟩
          else
            ⟨200, .medicalRecords
              (skipLimit ((req.page - 1) * req.limit) req.limit
                ((recordsOf db.medicalRecords patientId).insertionSort
                  (fun x y => x.2.sortsBefore y.2 = true)))
              { current := req.page
                pages := pageCount (recordsOf db.medicalRecords patientId).length req.limit
                total := (recordsOf db.medicalRecords patientId).length }⟩) := by
      simp only [getPatientMedicalRecords, if_neg hden]
    rw [hshape] at hok ⊢
    cases hp : req.patientId with
    | none =>
      rw [hp] at hok
      simp at hok
    | some p =>
      rw [hp] at hok
      simp only [] at hok ⊢
      by_cases hbad : req.page = 0 ∧ req.limit ≠ 0
      · rw [if_pos hbad] at hok
        simp at hok
      rw [if_neg hbad]
      refine ⟨p, _, _, rfl, rfl, ?_, ?_⟩
      · intro hrole
        by_contra hne
        apply hden
        refine ⟨hrole, fun h => hne ?_⟩
        rw [hp] at h
        exact Option.some.inj h
      · intro x hx
        have h1 := mem_of_mem_skipLimit _ _ _ _ hx
        rw [List.mem_insertionSort] at h1
        exact (mem_recordsOf _ _ _).1 h1
  · intro req hok
    cases hp : req.patientId with
    | none =>
      simp only [getPatientVitalsHistory, hp] at hok
      simp at hok
    | some p =>
      by_cases hden : req.user.role = .patient ∧ req.user.id ≠ p
      · simp only [getPatientVitalsHistory, hp, if_pos hden] at hok
        simp at hok
      cases hu : User.findOne db.users p .patient with
      | none =>
        simp only [getPatientVitalsHistory, hp, if_neg hden, hu] at hok
        simp at hok
      | some u =>
        have hshape : getPatientVitalsHistory db req =
            ⟨200, .vitalsHistory
              (((((recordsOf db.medicalRecords p).filter
                  (fun x => x.2.vitals.hasValue)).insertionSort
                    (fun x y => x.2.sortsBefore y.2 = true)).take 20).map
                (fun x => (x.1, x.2.vitals, x.2.createdAt)))⟩ := by
          simp only [getPatientVitalsHistory, hp, if_neg hden, hu]
        refine ⟨p, _, rfl, hshape, ?_, ?_⟩
        · intro hrole
          by_contra hne
          exact hden ⟨hrole, hne⟩
        · intro x hx
          rw [List.mem_map] at hx
          obtain ⟨y, hy, hxy⟩ := hx
          have h1 := List.mem_of_mem_take hy
          rw [List.mem_insertionSort] at h1
          have h2 := (mem_recordsOf _ _ _).1 (List.mem_filter.1 h1).1
          subst hxy
          exact ⟨y.2, h2.1, h2.2, rfl, rfl⟩
  · intro patients x hx id r hxr
    unfold attachLatestRecords at hx
    rw [List.mem_map] at hx
    obtain ⟨y, _, hxy⟩ := hx
    subst hxy
    simp only at hxr
    obtain ⟨h1, h2, _⟩ := latestRecord_spec _ _ _ _ hxr
    exact ⟨h1, h2⟩

/-- Witness of C19 (amended): in the clinic with four accounts, patient 1 reads
their record 0, patient 3 is denied, doctor 2 lists the records and the vitals
history of patient 1, and the latest record attached to patient 1 is record 0. -/
theorem read_endpoints_scope_witness :
    (∃ (id : ObjectId) (r : MedicalRecord),
      getMedicalRecord largerClinic patientGet = ⟨200, .medicalRecordDoc id r⟩ ∧
      largerClinic.medicalRecords[id]? = some (some r) ∧
      (r.doctor = patientGet.user.id ∨ r.patient = patientGet.user.id)) ∧
    getMedicalRecord largerClinic { user := { id := 3, role := .patient }, id := some 0 } =
      ⟨403, .message "Access denied"⟩ ∧
    (∃ (p : ObjectId) (docs : List (ObjectId × MedicalRecord)) (pg : Pagination),
      secondDoctorList.patientId = some p ∧
      getPatientMedicalRecords largerClinic secondDoctorList = ⟨200, .medicalRecords docs pg⟩ ∧
      (secondDoctorList.user.role = .patient → secondDoctorList.user.id = p) ∧
      ∀ x ∈ docs, largerClinic.medicalRecords[x.1]? = some (some x.2) ∧ x.2.patient = p) ∧
    (∃ (p : ObjectId) (docs : List (ObjectId × Vitals × Date)),
      some 1 = some p ∧
      getPatientVitalsHistory largerClinic
          { user := { id := 2, role := .doctor }, patientId := some 1 } =
        ⟨200, .vitalsHistory docs⟩ ∧
      (Role.doctor = Role.patient → 2 = p) ∧
      ∀ x ∈ docs, ∃ r : MedicalRecord, largerClinic.medicalRecords[x.1]? = some (some r) ∧
        r.patient = p ∧ x.2.1 = r.vitals ∧ x.2.2 = r.createdAt) ∧
    (largerClinic.medicalRecords[0]? = some (some sampleRecord) ∧ sampleRecord.patient = 1) :=
  ⟨(read_endpoints_scope largerClinic).1 patientGet (by decide),
   (read_endpoints_scope largerClinic).2.1
      { user := { id := 3, role := .patient }, id := some 0 } 0 sampleRecord rfl (by decide)
      ⟨sampleDoctor, by decide⟩ ⟨samplePatient, by decide⟩ (by decide) (by decide),
   (read_endpoints_scope largerClinic).2.2.1 secondDoctorList (by decide),
   (read_endpoints_scope largerClinic).2.2.2.1
      { user := { id := 2, role := .doctor }, patientId := some 1 } (by decide),
   (read_endpoints_scope largerClinic).2.2.2.2 [(1, samplePatient)]
      (1, samplePatient, some (0, sampleRecord)) (by decide) 0 sampleRecord rfl⟩

/-- C21 (counterexample): a create request whose patientId names the doctor
account 0, so no account with role patient, is answered 400 with the validation
errors, not 404, when it also fails validation. -/
theorem createMedicalRecord_invalid_request_400 :
    invalidCreate.patientId = some 0 ∧
    User.findOne clinicWithRecord.users 0 .patient = none ∧
    createMedicalRecord clinicWithRecord invalidCreate =
      (⟨400, .errors ["Symptoms must be an array"]⟩, clinicWithRecord) := by
  decide

/-- C21 (amended): createMedicalRecord stores a record only if patientId names an
account with role patient and, when an appointmentId is supplied, that
appointment exists; the record it stores is appended and has patient = patientId
and doctor = the caller.  A request that passes validation and whose patientId
names no patient account is answered 404 'Patient not found', and one whose
patient exists but whose appointmentId names no appointment is answered 404
'Appointment not found'; both store nothing. -/
theorem createMedicalRecord_checks (db : Db) (req : CreateRecordReq) :
    ((createMedicalRecord db req).2 ≠ db →
      ∃ (patientId : ObjectId) (patient : User) (m : MedicalRecord),
        req.patientId = some patientId ∧ db.users[patientId]? = some patient ∧
        patient.role = .patient ∧
        (∀ id, req.appointmentId = some (some id) → ∃ a, db.appointments[id]? = some a) ∧
        (createMedicalRecord db req).2 =
          { db with medicalRecords := db.medicalRecords ++ [some m] } ∧
        m.patient = patientId ∧ m.doctor = req.user.id) ∧
    (req.errors = [] → ∀ patientId : ObjectId, req.patientId = some patientId →
      (∀ u : User, db.users[patientId]? = some u → u.role ≠ .patient) →
      createMedicalRecord db req = (⟨404, .message "Patient not found"⟩, db)) ∧
    (req.errors = [] → ∀ (patientId : ObjectId) (patient : User) (id : ObjectId),
      req.patientId = some patientId → db.users[patientId]? = some patient →
      patient.role = .patient → req.appointmentId = some (some id) →
      db.appointments[id]? = none →
      createMedicalRecord db req = (⟨404, .message "Appointment not found"⟩, db)) := by
  refine ⟨?_, ?_, ?_⟩
  · intro hchg
    rcases createMedicalRecord_result db req with
      ⟨hsame, _⟩ | ⟨m, hm, _, patientId, patient, _, hp, hu, hrole, hmk, happ⟩
    · exact absurd hsame hchg
    · refine ⟨patientId, patient, m, hp, hu, hrole, ?_, hm, ?_, ?_⟩
      · intro id hid
        exact happ id (by rw [hid]; rfl)
      · rw [hmk]
        rfl
      · rw [hmk]
        rfl
  · intro he patientId hp hno
    have hE : (!req.errors.isEmpty) = false := by simp [he]
    have hu : User.findOne db.users patientId .patient = none := by
      cases h : User.findOne db.users patientId .patient with
      | none => rfl
      | some u =>
        have := (User.findOne_eq_some_iff _ _ _ _).1 h
        exact absurd this.2 (hno u this.1)
    simp only [createMedicalRecord, hE, hp, hu, Bool.false_eq_true, if_false]
  · intro he patientId patient id hp hu hrole hid hnone
    have hE : (!req.errors.isEmpty) = false := by simp [he]
    have hf : User.findOne db.users patientId .patient = some patient :=
      (User.findOne_eq_some_iff _ _ _ _).2 ⟨hu, hrole⟩
    simp [createMedicalRecord, hE, hp, hf, hid, hnone]

/-- Witness of C21 (amended): doctor 0 creates a record for patient 1; a valid
request naming the doctor account as patient, and one naming the missing
appointment 9, are answered 404. -/
theorem createMedicalRecord_checks_witness :
    (∃ (patientId : ObjectId) (patient : User) (m : MedicalRecord),
      sampleCreate.patientId = some patientId ∧ emptyClinic.users[patientId]? = some patient ∧
      patient.role = .patient ∧
      (∀ id, sampleCreate.appointmentId = some (some id) →
        ∃ a, emptyClinic.appointments[id]? = some a) ∧
      (createMedicalRecord emptyClinic sampleCreate).2 =
        { emptyClinic with medicalRecords := emptyClinic.medicalRecords ++ [some m] } ∧
      m.patient = patientId ∧ m.doctor = sampleCreate.user.id) ∧
    createMedicalRecord emptyClinic doctorAsPatientCreate =
      (⟨404, .message "Patient not found"⟩, emptyClinic) ∧
    createMedicalRecord emptyClinic missingAppointmentCreate =
      (⟨404, .message "Appointment not found"⟩, emptyClinic) :=
  ⟨(createMedicalRecord_checks emptyClinic sampleCreate).1 (by decide),
   (createMedicalRecord_checks emptyClinic doctorAsPatientCreate).2.1 rfl 0 rfl (by decide),
   (createMedicalRecord_checks emptyClinic missingAppointmentCreate).2.2 rfl 1 samplePatient 9
      rfl (by decide) rfl rfl (by decide)⟩

/-- C30: a successful updateMedicalRecord by the authoring doctor stores the
record back with vitals, symptoms, prescription, followUp, allergies and
medicalHistory replaced when the request carries them, diagnosis, treatment and
notes replaced exactly when the request value is a non-empty string, remedy and
formula replaced whenever they are present, the empty string included, and
patient, doctor, appointment and creation stamp unchanged. -/
theorem updateMedicalRecord_partial (db : Db) (req : UpdateRecordReq) (id : ObjectId)
    (r : MedicalRecord) (hid : req.id = some id)
    (hr : db.medicalRecords[id]? = some (some r))
    (hok : (updateMedicalRecord db req).1.status = 200) :
    req.user.id = r.doctor ∧
    ∃ r2 : MedicalRecord,
      (updateMedicalRecord db req).2.medicalRecords[id]? = some (some r2) ∧
      ReplacedByObject req.body.vitals r.vitals r2.vitals ∧
      ReplacedByTruthyText req.body.diagnosis r.diagnosis r2.diagnosis ∧
      ReplacedByObject req.body.symptoms r.symptoms r2.symptoms ∧
      ReplacedByOptionalObject req.body.prescription r.prescription r2.prescription ∧
      ReplacedByTruthyText req.body.treatment r.treatment r2.treatment ∧
      ReplacedByObject req.body.followUp r.followUp r2.followUp ∧
      ReplacedByObject req.body.allergies r.allergies r2.allergies ∧
      ReplacedByObject req.body.medicalHistory r.medicalHistory r2.medicalHistory ∧
      ReplacedByTruthyText req.body.notes r.notes r2.notes ∧
      ReplacedByPresentText req.body.remedy r.remedy r2.remedy ∧
      ReplacedByPresentText req.body.formula r.formula r2.formula ∧
      r2.patient = r.patient ∧ r2.doctor = r.doctor ∧ r2.appointment = r.appointment ∧
      r2.createdAt = r.createdAt := by
  have hlt : id < db.medicalRecords.length := by
    by_contra hge
    rw [List.getElem?_eq_none (Nat.le_of_not_lt hge)] at hr
    cases hr
  by_cases hacc : r.doctor ≠ req.user.id
  · simp only [updateMedicalRecord, hid, hr, if_pos hacc] at hok
    exact absurd hok (by decide)
  by_cases hval : (!(req.body.medicalHistory.getD []).all HistoryEntry.valid) = true
  · simp only [updateMedicalRecord, hid, hr, if_neg hacc, if_pos hval] at hok
    exact absurd hok (by decide)
  have hres : updateMedicalRecord db req =
      (⟨200, .medicalRecord "Medical record updated successfully" id
          (applyRecordUpdate r req.body)⟩,
        { db with
          medicalRecords := db.medicalRecords.set id (some (applyRecordUpdate r req.body)) }) := by
    simp only [updateMedicalRecord, hid, hr, if_neg hacc, if_neg hval]
  have htext : ∀ (q old : Option String),
      ReplacedByTruthyText q old (if truthyStr q then q else old) := by
    intro q old
    cases q with
    | none => simp [ReplacedByTruthyText, truthyStr]
    | some t =>
      by_cases ht : t = ""
      · simp [ReplacedByTruthyText, truthyStr, ht]
      · simp [ReplacedByTruthyText, truthyStr, ht]
  have hpres : ∀ (q old : Option String),
      ReplacedByPresentText q old (if q.isSome then q else old) := by
    intro q old
    cases q with
    | none => simp [ReplacedByPresentText]
    | some t => simp [ReplacedByPresentText]
  have hobj : ∀ {α : Type} (q : Option α) (old : α), ReplacedByObject q old (q.getD old) := by
    intro α q old
    cases q with
    | none => simp [ReplacedByObject]
    | some t => simp [ReplacedByObject]
  have hopt : ∀ {α : Type} (q old : Option α),
      ReplacedByOptionalObject q old (if q.isSome then q else old) := by
    intro α q old
    cases q with
    | none => simp [ReplacedByOptionalObject]
    | some t => simp [ReplacedByOptionalObject]
  refine ⟨(not_not.1 hacc).symm, applyRecordUpdate r req.body, ?_, hobj _ _, htext _ _,
    hobj _ _, hopt _ _, htext _ _, hobj _ _, hobj _ _, hobj _ _, htext _ _, hpres _ _,
    hpres _ _, rfl, rfl, rfl, rfl⟩
  rw [hres]
  simp only []
  rw [List.getElem?_set_self hlt]

/-- Witness of C30: doctor 0 sends an empty diagnosis, an empty remedy and notes
for record 0. -/
theorem updateMedicalRecord_partial_witness :
    partialRecordUpdate.user.id = sampleRecord.doctor ∧
    ∃ r2 : MedicalRecord,
      (updateMedicalRecord clinicWithRecord partialRecordUpdate).2.medicalRecords[0]? =
        some (some r2) ∧
      ReplacedByObject partialRecordUpdate.body.vitals sampleRecord.vitals r2.vitals ∧
      ReplacedByTruthyText partialRecordUpdate.body.diagnosis sampleRecord.diagnosis
        r2.diagnosis ∧
      ReplacedByObject partialRecordUpdate.body.symptoms sampleRecord.symptoms r2.symptoms ∧
      ReplacedByOptionalObject partialRecordUpdate.body.prescription sampleRecord.prescription
        r2.prescription ∧
      ReplacedByTruthyText partialRecordUpdate.body.treatment sampleRecord.treatment
        r2.treatment ∧
      ReplacedByObject partialRecordUpdate.body.followUp sampleRecord.followUp r2.followUp ∧
      ReplacedByObject partialRecordUpdate.body.allergies sampleRecord.allergies r2.allergies ∧
      ReplacedByObject partialRecordUpdate.body.medicalHistory sampleRecord.medicalHistory
        r2.medicalHistory ∧
      ReplacedByTruthyText partialRecordUpdate.body.notes sampleRecord.notes r2.notes ∧
      ReplacedByPresentText partialRecordUpdate.body.remedy sampleRecord.remedy r2.remedy ∧
      ReplacedByPresentText partialRecordUpdate.body.formula sampleRecord.formula r2.formula ∧
      r2.patient = sampleRecord.patient ∧ r2.doctor = sampleRecord.doctor ∧
      r2.appointment = sampleRecord.appointment ∧ r2.createdAt = sampleRecord.createdAt :=
  updateMedicalRecord_partial clinicWithRecord partialRecordUpdate 0 sampleRecord rfl
    (by decide) (by decide)

/-- C26 (evaluation of the code at the failing inputs): the validation chains of
the routes flag a status outside the enumeration, a newDate that is not a date
and an empty newTime, but the two handlers never read the validation result: the
status update and the reschedule with a bad date are answered 500, not 400, and
the reschedule with an empty newTime is answered 200 and changes the store. -/
theorem appointment_validation_ignored :
    updateStatusValidation unknownStatusUpdate.body = ["Valid status is required"] ∧
    updateAppointmentStatus oneBooking unknownStatusUpdate =
      (⟨500, .message "Server error"⟩, oneBooking) ∧
    rescheduleValidation invalidDateReschedule.body = ["Valid new date is required"] ∧
    rescheduleAppointment oneBooking invalidDateReschedule =
      (⟨500, .message "Server error"⟩, oneBooking) ∧
    rescheduleValidation emptyTimeReschedule.body = ["New time is required"] ∧
    (rescheduleAppointment oneBooking emptyTimeReschedule).1.status = 200 ∧
    (rescheduleAppointment oneBooking emptyTimeReschedule).2.appointments =
      [cancelledOriginal (sampleAppointment .pending) 1,
       rescheduledAppointment (sampleAppointment .pending) 0 1704153600000 ""] := by
  decide

/-- C29 (counterexample): after a booking and two reschedules of the same
original 0, the first successor 1 still has rescheduledFrom = 0, but the
original's rescheduledTo is the second successor 2. -/
theorem double_reschedule_breaks_inverse_links :
    emptyClinic.appointments = [] ∧
    ((run emptyClinic doubleRescheduleScenario).appointments[1]?).map
        Appointment.rescheduledFrom = some (some 0) ∧
    ((run emptyClinic doubleRescheduleScenario).appointments[0]?).map
        Appointment.rescheduledTo = some (some 2) := by
  decide

/-- C29 (amended): in every state reached from a store without appointments by
book, reschedule, cancel and status-update requests, if an appointment A has
rescheduledTo = n then the appointment n is stored and has rescheduledFrom = the
id of A; and if an appointment n has rescheduledFrom = a then the appointment a
is stored and its rescheduledTo is n or a successor created later (it is n when
the original was rescheduled once). -/
theorem reschedule_links_reachable (db : Db) (reqs : List Request)
    (hempty : db.appointments = []) :
    (∀ (a n : Nat) (A : Appointment), (run db reqs).appointments[a]? = some A →
      A.rescheduledTo = some n →
      ∃ N : Appointment, (run db reqs).appointments[n]? = some N ∧
        N.rescheduledFrom = some a) ∧
    (∀ (n a : Nat) (N : Appointment), (run db reqs).appointments[n]? = some N →
      N.rescheduledFrom = some a →
      ∃ (A : Appointment) (m : Nat), (run db reqs).appointments[a]? = some A ∧
        A.rescheduledTo = some m ∧ n ≤ m) := by
  have hb : LinksBack db.appointments := by
    intro a n A hA
    rw [hempty] at hA
    simp at hA
  have hf : LinksForward db.appointments := by
    intro n a N hN
    rw [hempty] at hN
    simp at hN
  exact run_links reqs db hb hf

/-- Witness of C29 (amended): the clinic after a booking and two reschedules of
the same original. -/
theorem reschedule_links_reachable_witness :
    (∀ (a n : Nat) (A : Appointment),
      (run emptyClinic doubleRescheduleScenario).appointments[a]? = some A →
      A.rescheduledTo = some n →
      ∃ N : Appointment, (run emptyClinic doubleRescheduleScenario).appointments[n]? = some N ∧
        N.rescheduledFrom = some a) ∧
    (∀ (n a : Nat) (N : Appointment),
      (run emptyClinic doubleRescheduleScenario).appointments[n]? = some N →
      N.rescheduledFrom = some a →
      ∃ (A : Appointment) (m : Nat),
        (run emptyClinic doubleRescheduleScenario).appointments[a]? = some A ∧
        A.rescheduledTo = some m ∧ n ≤ m) :=
  reschedule_links_reachable emptyClinic doubleRescheduleScenario rfl


/-- C22: register stores an account only if the role of the request is doctor or
patient and every field required for that role is present and not empty (doctor:
specialization, licenseNumber, experience; patient: age, gender among male,
female, other, address); otherwise the answer is not 201 and nothing is stored.
The account it stores is appended and has such a role with all of that role's
required fields. -/
theorem register_role_fields (c : Crypto) (db : Db) (req : RegisterReq) :
    (¬ RoleFieldsPresent req.body →
      (register c db req).1.status ≠ 201 ∧ (register c db req).2 = db) ∧
    ((register c db req).2 ≠ db →
      RoleFieldsPresent req.body ∧ (register c db req).1.status = 201 ∧
      ∃ u : User, (register c db req).2 = { db with users := db.users ++ [u] } ∧
        (u.role = .doctor ∨ u.role = .patient) ∧ Role.ofString? req.body.role = some u.role ∧
        u.roleFieldsPresent) := by
  rcases register_result c db req with ⟨hsame, hne⟩ | ⟨role, _, _, hr, hv, hres⟩
  · exact ⟨fun _ => ⟨hne, hsame⟩, fun h => absurd hsame h⟩
  · obtain ⟨h1, h2, h3⟩ := userSchemaValid_fields c req.body role req.now hr hv
    refine ⟨fun h => absurd h1 h, fun _ => ⟨h1, by rw [hres], newUser c req.body role req.now,
      by rw [hres], ?_, by rw [h2]; exact hr, h3⟩⟩
    cases hrole : (newUser c req.body role req.now).role with
    | doctor => exact Or.inl rfl
    | patient => exact Or.inr rfl

/-- Witness of C22: a doctor's registration without a license number is refused,
the complete one stores an account. -/
theorem register_role_fields_witness :
    ((register sampleCrypto emptyDb incompleteRegistration).1.status ≠ 201 ∧
      (register sampleCrypto emptyDb incompleteRegistration).2 = emptyDb) ∧
    (RoleFieldsPresent doctorRegistration.body ∧
      (register sampleCrypto emptyDb doctorRegistration).1.status = 201 ∧
      ∃ u : User,
        (register sampleCrypto emptyDb doctorRegistration).2 =
          { emptyDb with users := emptyDb.users ++ [u] } ∧
        (u.role = .doctor ∨ u.role = .patient) ∧
        Role.ofString? doctorRegistration.body.role = some u.role ∧ u.roleFieldsPresent) :=
  ⟨(register_role_fields sampleCrypto emptyDb incompleteRegistration).1 (by
      rintro (⟨_, _, h, _⟩ | ⟨h, _⟩)
      · exact absurd h (by decide)
      · exact absurd h (by decide)),
   (register_role_fields sampleCrypto emptyDb doctorRegistration).2 (by decide)⟩

/-- C23: for every stored account and every updateProfile request, whatever its
body carries (a role, an email or a password included), and also for every
register request the account is still stored afterwards with the same role, email
and password; the appointment and medical-record handlers leave the collection of
accounts as it is. -/
theorem account_identity_kept (c : Crypto) (db : Db) (i : Nat) (u : User)
    (hu : db.users[i]? = some u) :
    (∀ req : ProfileReq, ∃ u2 : User,
      (updateProfile db req).2.users[i]? = some u2 ∧
      u2.role = u.role ∧ u2.email = u.email ∧ u2.password = u.password) ∧
    (∀ req : RegisterReq, (register c db req).2.users[i]? = some u) ∧
    (∀ r : Request, (step db r).users = db.users) ∧
    (∀ req : VitalsReq, (updatePatientVitals db req).2.users = db.users) ∧
    (∀ req : CreateRecordReq, (createMedicalRecord db req).2.users = db.users) ∧
    (∀ req : UpdateRecordReq, (updateMedicalRecord db req).2.users = db.users) ∧
    (∀ req : GetReq, (deleteMedicalRecord db req).2.users = db.users) := by
  have hlt : i < db.users.length := by
    by_contra hge
    rw [List.getElem?_eq_none (Nat.le_of_not_lt hge)] at hu
    cases hu
  refine ⟨?_, ?_, ?_, ?_, ?_, ?_, ?_⟩
  · intro req
    by_cases hv : (!profileUpdateValid req.user.role req.body) = true
    · simp only [updateProfile, hv, if_true]
      exact ⟨u, hu, rfl, rfl, rfl⟩
    · have hv2 : (!profileUpdateValid req.user.role req.body) = false := by
        cases hb : (!profileUpdateValid req.user.role req.body) with
        | false => rfl
        | true => exact absurd hb hv
      cases hx : db.users[req.user.id]? with
      | none =>
        simp only [updateProfile, hv2, Bool.false_eq_true, if_false, hx]
        exact ⟨u, hu, rfl, rfl, rfl⟩
      | some x =>
        simp only [updateProfile, hv2, Bool.false_eq_true, if_false, hx]
        by_cases hi : req.user.id = i
        · rw [hi] at hx
          rw [hu] at hx
          cases hx
          refine ⟨applyProfileUpdate u req.user.role req.body, ?_,
            applyProfileUpdate_identity u req.user.role req.body⟩
          rw [hi, List.getElem?_set_self hlt]
        · refine ⟨u, ?_, rfl, rfl, rfl⟩
          rw [List.getElem?_set_ne hi]
          exact hu
  · intro req
    rcases register_result c db req with ⟨hsame, _⟩ | ⟨role, _, _, _, _, hres⟩
    · rw [hsame]
      exact hu
    · rw [hres]
      simp only []
      rw [List.getElem?_append_left hlt]
      exact hu
  · intro r
    cases r with
    | book req =>
      rcases bookAppointment_result db req with ⟨hsame, _⟩ | ⟨_, _, _, _, _, _, _, _, hres⟩
      · simp only [step, hsame]
      · simp only [step, hres]
    | updateStatus req =>
      cases hid : req.id with
      | none => simp only [step, updateAppointmentStatus, hid]
      | some id =>
        cases ha : db.appointments[id]? with
        | none => simp only [step, updateAppointmentStatus, hid, ha]
        | some a =>
          by_cases hacc : a.doctor ≠ req.user.id
          · simp only [step, updateAppointmentStatus, hid, ha, if_pos hacc]
          · rcases updateAppointmentStatus_owner db req id a hid ha (not_not.1 hacc) with
              ⟨h500, _⟩ | ⟨st, _, _, hres⟩
            · simp only [step, h500]
            · simp only [step, hres]
    | reschedule req =>
      rcases rescheduleAppointment_result db req with
        ⟨hsame, _⟩ | ⟨_, _, _, _, _, _, _, _, hres⟩
      · simp only [step, hsame]
      · simp only [step, hres]
    | cancel req =>
      cases hid : req.id with
      | none => simp only [step, cancelAppointment, hid]
      | some id =>
        cases ha : db.appointments[id]? with
        | none => simp only [step, cancelAppointment, hid, ha]
        | some a =>
          by_cases hacc : a.doctor ≠ req.user.id ∧ a.patient ≠ req.user.id
          · simp only [step, cancelAppointment, hid, ha, if_pos hacc]
          · simp only [step, cancelAppointment, hid, ha, if_neg hacc]
  · intro req
    rcases updatePatientVitals_result db req with
      ⟨hsame, _⟩ | ⟨_, _, _, _, _, _, _, _, hres⟩ | ⟨_, _, _, _, _, _, hres⟩
    · rw [hsame]
    · rw [hres]
    · rw [hres]
  · intro req
    rcases createMedicalRecord_result db req with ⟨hsame, _⟩ | ⟨m, hm, _⟩
    · rw [hsame]
    · rw [hm]
  · intro req
    unfold updateMedicalRecord
    split
    · rfl
    · split
      · split
        · rfl
        · split <;> rfl
      · rfl
  · intro req
    unfold deleteMedicalRecord
    split
    · rfl
    · split
      · split <;> rfl
      · rfl

/-- Witness of C23: the registered doctor sends a profile update that carries the
role patient, another email and another password. -/
theorem account_identity_kept_witness :
    (∀ req : ProfileReq, ∃ u2 : User,
      (updateProfile oneAccount req).2.users[0]? = some u2 ∧
      u2.role = (newUser sampleCrypto doctorRegistration.body .doctor 1704067200000).role ∧
      u2.email = (newUser sampleCrypto doctorRegistration.body .doctor 1704067200000).email ∧
      u2.password =
        (newUser sampleCrypto doctorRegistration.body .doctor 1704067200000).password) ∧
    (∀ req : RegisterReq,
      (register sampleCrypto oneAccount req).2.users[0]? =
        some (newUser sampleCrypto doctorRegistration.body .doctor 1704067200000)) ∧
    (∀ r : Request, (step oneAccount r).users = oneAccount.users) ∧
    (∀ req : VitalsReq, (updatePatientVitals oneAccount req).2.users = oneAccount.users) ∧
    (∀ req : CreateRecordReq, (createMedicalRecord oneAccount req).2.users = oneAccount.users) ∧
    (∀ req : UpdateRecordReq, (updateMedicalRecord oneAccount req).2.users = oneAccount.users) ∧
    (∀ req : GetReq, (deleteMedicalRecord oneAccount req).2.users = oneAccount.users) :=
  account_identity_kept sampleCrypto oneAccount 0
    (newUser sampleCrypto doctorRegistration.body .doctor 1704067200000) (by decide)

/-- C24: account emails are unique.  A register request whose email, after the
schema's lowercase and trim setters, is that of a stored account is answered 400
and stores nothing, with the message 'User already exists with this email' when
the request has no validation error; register requests keep the emails of the
stored accounts pairwise distinct, so they are distinct in every state reached
from the empty database by register requests, and there a request that repeats a
stored email literally is answered 400 and stores nothing. -/
theorem register_email_unique (c : Crypto) :
    (∀ (db : Db) (req : RegisterReq) (i : Nat) (u : User), db.users[i]? = some u →
      u.email = lowerTrim req.body.email →
      (register c db req).1.status = 400 ∧ (register c db req).2 = db ∧
      (req.errors = [] →
        (register c db req).1 = ⟨400, .message "User already exists with this email"⟩)) ∧
    (∀ (db : Db) (reqs : List RegisterReq), EmailsDistinct db.users →
      EmailsDistinct (runRegister c db reqs).users) ∧
    (∀ reqs : List RegisterReq, EmailsDistinct (runRegister c emptyDb reqs).users) ∧
    (∀ (reqs : List RegisterReq) (req : RegisterReq) (i : Nat) (u : User),
      (runRegister c emptyDb reqs).users[i]? = some u → req.body.email = u.email →
      (register c (runRegister c emptyDb reqs) req).1.status = 400 ∧
      (register c (runRegister c emptyDb reqs) req).2 = runRegister c emptyDb reqs ∧
      (req.errors = [] →
        (register c (runRegister c emptyDb reqs) req).1 =
          ⟨400, .message "User already exists with this email"⟩)) := by
  have hempty : EmailsDistinct emptyDb.users := by
    intro i j u v hi
    simp [emptyDb] at hi
  refine ⟨fun db req i u hu he => register_duplicate c db req i u hu he,
    fun db reqs h => runRegister_emails_distinct c reqs db h,
    fun reqs => runRegister_emails_distinct c reqs emptyDb hempty, ?_⟩
  intro reqs req i u hu he
  have hstored := runRegister_emails_stored c reqs emptyDb
    (by intro i u hi; simp [emptyDb] at hi) i u hu
  exact register_duplicate c _ req i u hu (by rw [he, hstored])

/-- Witness of C24: the registered doctor's email is sent again, in capitals. -/
theorem register_email_unique_witness :
    ((register sampleCrypto oneAccount doctorRegistration).1.status = 400 ∧
      (register sampleCrypto oneAccount doctorRegistration).2 = oneAccount ∧
      (doctorRegistration.errors = [] →
        (register sampleCrypto oneAccount doctorRegistration).1 =
          ⟨400, .message "User already exists with this email"⟩)) ∧
    EmailsDistinct
      (runRegister sampleCrypto emptyDb [doctorRegistration, doctorRegistration]).users :=
  ⟨(register_email_unique sampleCrypto).1 oneAccount doctorRegistration 0
      (newUser sampleCrypto doctorRegistration.body .doctor 1704067200000)
      (by decide) (by decide),
   (register_email_unique sampleCrypto).2.2.1 [doctorRegistration, doctorRegistration]⟩

/-- C25: login with an email and role that no account has, and login with a
password that does not match the stored hash, are both answered with status 400
and the message 'Invalid credentials', not with status 401; no token is sent, and
no login request at all is answered with status 401. -/
theorem login_bad_credentials_400 :
    login sampleCrypto oneAccount unknownEmailLogin = ⟨400, .message "Invalid credentials"⟩ ∧
    login sampleCrypto oneAccount wrongPasswordLogin = ⟨400, .message "Invalid credentials"⟩ ∧
    (∀ (c : Crypto) (db : Db) (req : LoginReq), (login c db req).status ≠ 401) := by
  refine ⟨by decide, by decide, ?_⟩
  intro c db req
  unfold login
  split
  · show (400 : Nat) ≠ 401
    decide
  · split
    · show (400 : Nat) ≠ 401
      decide
    · split
      · show (400 : Nat) ≠ 401
        decide
      · show (200 : Nat) ≠ 401
        decide

/-- C28: for each of the listings getAppointments, getPatientMedicalRecords and
getAllPatients with a positive limit (and, for the last two, a request that the
access check and the query accept), the documents that match the query have an
arrangement in the listing's order such that every positive page is answered 200
with pagination.current = page, pagination.total = the number of matching
documents, pagination.pages = ceil(total / limit) and, as list, the slice of the
arrangement that starts at index (page - 1) * limit and has at most limit items;
the slices of the pages 1 to pages, one after the other, are the whole arrangement
(so every matching document is on exactly one of them) and every later page is
empty. -/
theorem listings_paginate :
    (∀ (db : Db) (req : ListAppointmentsReq), 0 < req.limit →
      PagedListing
        (db.appointments.enum.filter (fun x => appointmentQuery req.user req.status x.2))
        (fun x y => x.2.sortsBefore y.2 = true) id req.limit
        (fun page => getAppointments db { req with page := page }) Payload.appointments) ∧
    (∀ (db : Db) (req : PatientRecordsReq) (patientId : ObjectId), 0 < req.limit →
      req.patientId = some patientId →
      ¬ (req.user.role = .patient ∧ req.user.id ≠ patientId) →
      PagedListing (recordsOf db.medicalRecords patientId)
        (fun x y => x.2.sortsBefore y.2 = true) id req.limit
        (fun page => getPatientMedicalRecords db { req with page := page })
        Payload.medicalRecords) ∧
    (∀ (re : Regex) (db : Db) (req : ListPatientsReq) (query : User → Bool), 0 < req.limit →
      patientQuery re req.search = some query →
      PagedListing (db.users.enum.filter (fun x => query x.2))
        (fun x y => x.2.sortsBefore y.2 = true) (attachLatestRecords db) req.limit
        (fun page => getAllPatients re db { req with page := page }) Payload.patients) := by
  refine ⟨?_, ?_, ?_⟩
  · intro db req hl
    haveI := appointmentOrder_total
    haveI := appointmentOrder_trans
    apply pagedListing_of _ _ _ _ hl
    intro page hp
    have hnot : ¬ (page = 0 ∧ req.limit ≠ 0) := fun h => absurd h.1 (Nat.ne_of_gt hp)
    simp only [getAppointments, if_neg hnot, id]
  · intro db req patientId hl hid hacc
    haveI := recordOrder_total
    haveI := recordOrder_trans
    apply pagedListing_of _ _ _ _ hl
    intro page hp
    have hnot : ¬ (page = 0 ∧ req.limit ≠ 0) := fun h => absurd h.1 (Nat.ne_of_gt hp)
    have hden : ¬ (req.user.role = .patient ∧ some req.user.id ≠ some patientId) := by
      rintro ⟨h1, h2⟩
      exact hacc ⟨h1, fun h => h2 (by rw [h])⟩
    simp only [getPatientMedicalRecords, hid, if_neg hden, if_neg hnot, id]
  · intro re db req query hl hq
    haveI := userOrder_total
    haveI := userOrder_trans
    apply pagedListing_of _ _ _ _ hl
    intro page hp
    have hnot : ¬ (page = 0 ∧ req.limit ≠ 0) := fun h => absurd h.1 (Nat.ne_of_gt hp)
    simp only [getAllPatients, if_neg hnot, hq]

/-- Witness of C28: doctor 0 lists their appointments, the records of patient 1
and the patients, one document on a page. -/
theorem listings_paginate_witness :
    (0 < pagedAppointments.limit ∧
      PagedListing
        (oneBooking.appointments.enum.filter
          (fun x => appointmentQuery pagedAppointments.user pagedAppointments.status x.2))
        (fun x y => x.2.sortsBefore y.2 = true) id pagedAppointments.limit
        (fun page => getAppointments oneBooking { pagedAppointments with page := page })
        Payload.appointments) ∧
    (0 < pagedRecords.limit ∧
      PagedListing (recordsOf largerClinic.medicalRecords 1)
        (fun x y => x.2.sortsBefore y.2 = true) id pagedRecords.limit
        (fun page => getPatientMedicalRecords largerClinic { pagedRecords with page := page })
        Payload.medicalRecords) ∧
    (0 < pagedPatients.limit ∧
      PagedListing (largerClinic.users.enum.filter (fun x => decide (x.2.role = .patient)))
        (fun x y => x.2.sortsBefore y.2 = true) (attachLatestRecords largerClinic)
        pagedPatients.limit
        (fun page => getAllPatients dotEngine largerClinic { pagedPatients with page := page })
        Payload.patients) :=
  ⟨⟨by decide, listings_paginate.1 oneBooking pagedAppointments (by decide)⟩,
   ⟨by decide, listings_paginate.2.1 largerClinic pagedRecords 1 (by decide) rfl (by decide)⟩,
   ⟨by decide, listings_paginate.2.2 dotEngine largerClinic pagedPatients
      (fun u => decide (u.role = .patient)) (by decide) rfl⟩⟩

/-- C27, counterexample: the search string `r.vi` is not empty and the listing for
it has patient 1, Ravi Kumar, although neither the name nor the email nor the
phone of that account contains `r.vi`; no account of the clinic does. -/
theorem getAllPatients_pattern_search :
    getAllPatients dotEngine largerClinic dotSearch =
      ⟨200, .patients [(1, samplePatient, some (0, sampleRecord))]
        { current := 1, pages := some 1, total := 1 }⟩ ∧
    dotSearch.search ≠ "" ∧
    matchesSearch dotSearch.search samplePatient = false ∧
    (largerClinic.users.filter (matchesSearch dotSearch.search)).length = 0 := by
  decide

/-- C27, amended: for every request with a positive page whose search string is
empty or is a pattern that the database's matching treats as literal text (as it
does for a string without metacharacters), getAllPatients answers 200 and matches
exactly the patient accounts whose name, email or phone contains the search string
as a case-insensitive literal substring: the total is their number, every listed
account is one of them, and each of them is listed on some page; with the empty
search these are all the patient accounts. -/
theorem getAllPatients_literal_search (re : Regex) (db : Db) (req : ListPatientsReq)
    (hpage : 0 < req.page) (hlit : req.search = "" ∨ re.LiteralOn req.search) :
    ∃ (docs : List (ObjectId × User × Option (ObjectId × MedicalRecord))) (pg : Pagination),
      getAllPatients re db req = ⟨200, .patients docs pg⟩ ∧
      pg.total = (db.users.filter (matchesSearch req.search)).length ∧
      (∀ x ∈ docs, db.users[x.1]? = some x.2.1 ∧ matchesSearch req.search x.2.1 = true) ∧
      (∀ (i : Nat) (u : User), db.users[i]? = some u → matchesSearch req.search u = true →
        ∃ page : Nat, 0 < page ∧
          ∃ (docs2 : List (ObjectId × User × Option (ObjectId × MedicalRecord)))
            (pg2 : Pagination),
            getAllPatients re db { req with page := page } = ⟨200, .patients docs2 pg2⟩ ∧
            (i, u, latestRecord db.medicalRecords i) ∈ docs2) := by
  obtain ⟨query, hq, hqs⟩ := patientQuery_literal re req.search hlit
  have hfun : query = matchesSearch req.search := funext hqs
  subst hfun
  have hshape : ∀ page : Nat, 0 < page →
      getAllPatients re db { req with page := page } =
        ⟨200, .patients
          (attachLatestRecords db (skipLimit ((page - 1) * req.limit) req.limit
            ((db.users.enum.filter (fun x => matchesSearch req.search x.2)).insertionSort
              (fun x y => x.2.sortsBefore y.2 = true))))
          { current := page,
            pages := pageCount
              (db.users.enum.filter (fun x => matchesSearch req.search x.2)).length req.limit,
            total := (db.users.enum.filter (fun x => matchesSearch req.search x.2)).length }⟩ := by
    intro page hp
    have hnot : ¬ (page = 0 ∧ req.limit ≠ 0) := fun h => absurd h.1 (Nat.ne_of_gt hp)
    simp only [getAllPatients, if_neg hnot, hq]
  have hfound : ∀ x : Nat × User,
      x ∈ (db.users.enum.filter (fun x => matchesSearch req.search x.2)).insertionSort
          (fun x y => x.2.sortsBefore y.2 = true) ↔
        db.users[x.1]? = some x.2 ∧ matchesSearch req.search x.2 = true := by
    intro x
    rw [List.mem_insertionSort, List.mem_filter, List.mem_enum_iff_getElem?]
  refine ⟨_, _, hshape req.page hpage, length_filter_enum _ _, ?_, ?_⟩
  · intro x hx
    simp only [attachLatestRecords, List.mem_map] at hx
    obtain ⟨p, hp, rfl⟩ := hx
    exact (hfound p).1 (mem_of_mem_skipLimit _ _ _ _ hp)
  · intro i u hu hm
    have hmem := (hfound (i, u)).2 ⟨hu, hm⟩
    obtain ⟨k, hk⟩ := List.mem_iff_getElem?.1 hmem
    obtain ⟨page, hp1, hp2⟩ := mem_skipLimit_some_page req.limit _ k _ hk
    refine ⟨page, hp1, _, _, hshape page hp1, ?_⟩
    simp only [attachLatestRecords, List.mem_map]
    exact ⟨(i, u), hp2, rfl⟩

/-- Witness of C27, amended: the search for RAVI, a string without
metacharacters. -/
theorem getAllPatients_literal_search_witness :
    ∃ (docs : List (ObjectId × User × Option (ObjectId × MedicalRecord))) (pg : Pagination),
      getAllPatients dotEngine largerClinic literalSearch = ⟨200, .patients docs pg⟩ ∧
      pg.total = (largerClinic.users.filter (matchesSearch literalSearch.search)).length ∧
      (∀ x ∈ docs, largerClinic.users[x.1]? = some x.2.1 ∧
        matchesSearch literalSearch.search x.2.1 = true) ∧
      (∀ (i : Nat) (u : User), largerClinic.users[i]? = some u →
        matchesSearch literalSearch.search u = true →
        ∃ page : Nat, 0 < page ∧
          ∃ (docs2 : List (ObjectId × User × Option (ObjectId × MedicalRecord)))
            (pg2 : Pagination),
            getAllPatients dotEngine largerClinic { literalSearch with page := page } =
              ⟨200, .patients docs2 pg2⟩ ∧
            (i, u, latestRecord largerClinic.medicalRecords i) ∈ docs2) :=
  getAllPatients_literal_search dotEngine largerClinic literalSearch (by decide)
    (Or.inr (dotEngine_literalOn literalSearch.search (by decide)))

end DrDesai
